import Mathlib

/-!
# gopac: the PAC host primitives of `utils.go`

A shallow embedding of the predicate functions that `utils.go` exposes to a PAC script,
together with the parts of the Go standard library (`strings`, `unicode/utf8`, `net`,
`regexp`) and of the ECMAScript `Date` object that those functions call.

Conventions of the embedding:

* a Go `string` is its sequence of bytes (`GoString`), a `rune` is a natural number;
* a Go `net.IP` is a byte slice, `nil` being the empty list;
* DNS, the regular-expression syntax beyond the embedded fragment, the time zone and the
  clock are explicit arguments of the functions that consult them.
-/

namespace Gopac

/-! ## Go strings -/

/-- A Go string: an immutable sequence of bytes. -/
abbrev GoString := List UInt8

/-- A Go rune (a Unicode code point, `int32` in Go). -/
abbrev Rune := Nat

/-- Bytes of an ASCII string literal. -/
def ascii (s : String) : GoString := s.toList.map (fun c => UInt8.ofNat c.toNat)

/-! ## unicode/utf8 -/

/-- The value `utf8.RuneError`, U+FFFD. -/
def RuneError : Rune := 0xFFFD

/-- Table `first` of `unicode/utf8`: information about the first byte of an encoding.
`0xF0` marks ASCII, `0xF1` an invalid first byte; otherwise the low three bits are the
size and the high nibble indexes `acceptRanges`. -/
def first (b : Nat) : Nat :=
  if b < 0x80 then 0xF0
  else if b < 0xC2 then 0xF1
  else if b < 0xE0 then 0x02
  else if b = 0xE0 then 0x13
  else if b < 0xED then 0x03
  else if b = 0xED then 0x23
  else if b < 0xF0 then 0x03
  else if b = 0xF0 then 0x34
  else if b < 0xF4 then 0x04
  else if b = 0xF4 then 0x44
  else 0xF1

/-- Table `acceptRanges` of `unicode/utf8`: the admissible range of the second byte. -/
def acceptRanges (i : Nat) : Nat × Nat :=
  match i with
  | 0 => (0x80, 0xBF)
  | 1 => (0xA0, 0xBF)
  | 2 => (0x80, 0x9F)
  | 3 => (0x90, 0xBF)
  | 4 => (0x80, 0x8F)
  | _ => (0, 0)

/-- Go `utf8.DecodeRuneInString`: the first rune of `s` and its width in bytes; an invalid
encoding yields `(RuneError, 1)`, the empty string `(RuneError, 0)`. -/
def DecodeRuneInString (s : GoString) : Rune × Nat :=
  match s with
  | [] => (RuneError, 0)
  | b0 :: rest =>
    let s0 := b0.toNat
    let x := first s0
    if x ≥ 0xF0 then
      (if x % 2 = 0 then s0 else RuneError, 1)
    else
      let sz := x % 8
      let accept := acceptRanges (x / 16)
      if s.length < sz then (RuneError, 1)
      else
        let s1 := (rest.getD 0 0).toNat
        if s1 < accept.1 ∨ accept.2 < s1 then (RuneError, 1)
        else if sz ≤ 2 then ((s0 % 0x20) * 64 + s1 % 0x40, 2)
        else
          let s2 := (rest.getD 1 0).toNat
          if s2 < 0x80 ∨ 0xBF < s2 then (RuneError, 1)
          else if sz ≤ 3 then ((s0 % 0x10) * 4096 + (s1 % 0x40) * 64 + s2 % 0x40, 3)
          else
            let s3 := (rest.getD 2 0).toNat
            if s3 < 0x80 ∨ 0xBF < s3 then (RuneError, 1)
            else ((s0 % 0x08) * 262144 + (s1 % 0x40) * 4096 + (s2 % 0x40) * 64 + s3 % 0x40, 4)

/-- Runes of a string as a `for range` loop or the regexp matcher reads them; `fuel`
bounds the number of runes. -/
def decodeRunesFuel : Nat → GoString → List Rune
  | 0, _ => []
  | fuel + 1, s =>
    match s with
    | [] => []
    | _ :: _ =>
      let rw := DecodeRuneInString s
      rw.1 :: decodeRunesFuel fuel (s.drop rw.2)

/-- Runes of a string; every rune consumes at least one byte, so `s.length` is enough fuel. -/
def decodeRunes (s : GoString) : List Rune := decodeRunesFuel s.length s

/-- Go `utf8.RuneCountInString`. -/
def RuneCountInString (s : GoString) : Nat := (decodeRunes s).length

/-! ## strings -/

/-- Go `strings.HasPrefix`: `len(s) >= len(prefix) && s[:len(prefix)] == prefix`. -/
def HasPrefix (s pre : GoString) : Bool :=
  decide (s.length ≥ pre.length) && s.take pre.length == pre

/-- Go `strings.HasSuffix`: `len(s) >= len(suffix) && s[len(s)-len(suffix):] == suffix`. -/
def HasSuffix (s suffix : GoString) : Bool :=
  decide (s.length ≥ suffix.length) && s.drop (s.length - suffix.length) == suffix

/-- Search of `strings.Index` from offset `i`, `s` being what is left of the string. -/
def indexFrom (substr : GoString) : Nat → GoString → Int
  | i, [] => if substr.length = 0 then (i : Int) else -1
  | i, c :: t => if HasPrefix (c :: t) substr then (i : Int) else indexFrom substr (i + 1) t

/-- Go `strings.Index`: the index of the first instance of `substr` in `s`, or `-1`. -/
def Index (s substr : GoString) : Int := indexFrom substr 0 s

/-- Backward search of `strings.LastIndex`: the candidates `i - 1, ..., 0` in this order. -/
def lastIndexFrom (s substr : GoString) : Nat → Int
  | 0 => -1
  | i + 1 => if HasPrefix (s.drop i) substr then (i : Int) else lastIndexFrom s substr i

/-- Go `strings.LastIndex`: the index of the last instance of `substr` in `s`, or `-1`. -/
def LastIndex (s substr : GoString) : Int :=
  let n := substr.length
  if n = 0 then (s.length : Int)
  else if n > s.length then -1
  else lastIndexFrom s substr (s.length - n + 1)

/-- Go `bytealg.CountString`: the number of bytes of `s` equal to `c`. -/
def CountString (s : GoString) (c : UInt8) : Nat :=
  match s with
  | [] => 0
  | b :: t => (if b = c then 1 else 0) + CountString t c

/-- General loop of `strings.Count`: repeatedly find `substr` and skip past it. -/
def countLoop (substr : GoString) : Nat → GoString → Nat → Nat
  | 0, _, n => n
  | fuel + 1, s, n =>
    let i := Index s substr
    if i = -1 then n else countLoop substr fuel (s.drop (i.toNat + substr.length)) (n + 1)

/-- Go `strings.Count`: the number of non-overlapping instances of `substr` in `s`;
for an empty `substr`, one more than the number of runes of `s`. -/
def Count (s substr : GoString) : Nat :=
  match substr with
  | [] => RuneCountInString s + 1
  | [c] => CountString s c
  | _ => countLoop substr (s.length + 1) s 0

/-- Body of the loop of `strings.Replace`: `k` replacements are still to be made, `i` have
been made, `rest` is `s[start:]`. -/
def replaceLoop (old new : GoString) : Nat → Nat → GoString → GoString
  | 0, _, rest => rest
  | k + 1, i, rest =>
    let j : Nat :=
      if old.length = 0 then (if i > 0 then (DecodeRuneInString rest).2 else 0)
      else (Index rest old).toNat
    rest.take j ++ new ++ replaceLoop old new k (i + 1) (rest.drop (j + old.length))

/-- Go `strings.Replace(s, old, new, n)`: the first `n` non-overlapping instances of `old`
replaced by `new`, all of them when `n < 0`. -/
def Replace (s old new : GoString) (n : Int) : GoString :=
  if old = new ∨ n = 0 then s
  else
    let m := Count s old
    if m = 0 then s
    else replaceLoop old new (if n < 0 ∨ (m : Int) < n then m else n.toNat) 0 s

/-! ## net and net/netip -/

/-- A Go `net.IP`: a byte slice, `nil` being the empty list. -/
abbrev IP := List UInt8

/-- Loop of `netip.parseIPv4Fields` at index `i`: `rem` is `s[i:]`, `prev` is `s[i-1]`
(meaningful when `i > 0`), `val`, `pos`, `digLen` and `fields` are the loop variables.
The result is the four octets, or `none` for a parse error. -/
def parseIPv4Loop (rem : GoString) (i : Nat) (prev : UInt8) (val pos digLen : Nat)
    (fields : List UInt8) : Option (List UInt8) :=
  match rem with
  | [] => if pos < 3 then none else some (fields.set 3 (UInt8.ofNat val))
  | c :: t =>
    if 48 ≤ c.toNat ∧ c.toNat ≤ 57 then
      if digLen = 1 ∧ val = 0 then none
      else
        let val1 := val * 10 + c.toNat - 48
        if val1 > 255 then none
        else parseIPv4Loop t (i + 1) c val1 pos (digLen + 1) fields
    else if c = 46 then
      if i = 0 ∨ t = [] ∨ prev = 46 then none
      else if pos = 3 then none
      else parseIPv4Loop t (i + 1) c 0 (pos + 1) 0 (fields.set pos (UInt8.ofNat val))
    else none

/-- Go `netip.parseIPv4Fields` on the whole of `s`: four decimal octets without leading
zeros, separated by dots. -/
def parseIPv4Fields (s : GoString) : Option (List UInt8) :=
  parseIPv4Loop s 0 0 0 0 0 [0, 0, 0, 0]

/-- Go `netip.parseIPv4`. -/
def parseIPv4 (s : GoString) : Option (List UInt8) := parseIPv4Fields s

/-- The decimal numeral of an octet, without leading zeros. -/
def decimalOctet (a : UInt8) : GoString :=
  let n := a.toNat
  if n < 10 then [UInt8.ofNat (48 + n)]
  else if n < 100 then [UInt8.ofNat (48 + n / 10), UInt8.ofNat (48 + n % 10)]
  else [UInt8.ofNat (48 + n / 100), UInt8.ofNat (48 + n / 10 % 10), UInt8.ofNat (48 + n % 10)]

/-- The dotted-decimal literal `a.b.c.d` of four octets. -/
def dottedDecimal (a b c d : UInt8) : GoString :=
  decimalOctet a ++ 46 :: (decimalOctet b ++ 46 :: (decimalOctet c ++ 46 :: decimalOctet d))

/-- Value of a hexadecimal digit, if the byte is one. -/
def hexDigit (c : UInt8) : Option Nat :=
  let n := c.toNat
  if 48 ≤ n ∧ n ≤ 57 then some (n - 48)
  else if 97 ≤ n ∧ n ≤ 102 then some (n - 97 + 10)
  else if 65 ≤ n ∧ n ≤ 70 then some (n - 65 + 10)
  else none

/-- Inner loop of `netip.parseIPv6` reading one group of hexadecimal digits: `rem` is
`s[off:]`. The result is the final `(off, acc)`, or `none` for a group of more than four
digits or a value above `0xFFFF`. -/
def hexScan (rem : GoString) (off acc : Nat) : Option (Nat × Nat) :=
  match rem with
  | [] => some (off, acc)
  | c :: t =>
    match hexDigit c with
    | none => some (off, acc)
    | some d =>
      let acc1 := acc * 16 + d
      if off > 3 then none
      else if acc1 > 0xFFFF then none
      else hexScan t (off + 1) acc1

/-- Main loop of `netip.parseIPv6` (`for i < 16`): the result is the state `(s, i, ip,
ellipsis)` at the exit of the loop, or `none` for a parse error. Every round adds at least
two to `i`, so eight rounds are enough; `fuel` counts them. -/
def parseIPv6Loop : Nat → GoString → Nat → List UInt8 → Int →
    Option (GoString × Nat × List UInt8 × Int)
  | 0, s, i, ip, ellipsis => some (s, i, ip, ellipsis)
  | fuel + 1, s, i, ip, ellipsis =>
    if ¬ i < 16 then some (s, i, ip, ellipsis)
    else
      match hexScan s 0 0 with
      | none => none
      | some (off, acc) =>
        if off = 0 then none
        else if off < s.length ∧ s.getD off 0 = 46 then
          if ellipsis < 0 ∧ i ≠ 12 then none
          else if i + 4 > 16 then none
          else
            match parseIPv4Fields s with
            | none => none
            | some f =>
              some ([], i + 4,
                (((ip.set i (f.getD 0 0)).set (i + 1) (f.getD 1 0)).set (i + 2)
                  (f.getD 2 0)).set (i + 3) (f.getD 3 0), ellipsis)
        else
          let ip1 := (ip.set i (UInt8.ofNat (acc / 256))).set (i + 1) (UInt8.ofNat acc)
          let i1 := i + 2
          let s1 := s.drop off
          if s1.length = 0 then some (s1, i1, ip1, ellipsis)
          else if s1.getD 0 0 ≠ 58 then none
          else if s1.length = 1 then none
          else
            let s2 := s1.drop 1
            if s2.getD 0 0 = 58 then
              if ellipsis ≥ 0 then none
              else
                let s3 := s2.drop 1
                if s3.length = 0 then some (s3, i1, ip1, (i1 : Int))
                else parseIPv6Loop fuel s3 i1 ip1 (i1 : Int)
            else parseIPv6Loop fuel s2 i1 ip1 ellipsis

/-- Loop `for j := i - 1; j >= ellipsis; j-- { ip[j+n] = ip[j] }` of `netip.parseIPv6`;
the argument is `j + 1`. -/
def moveLoop (n ellipsis : Nat) : Nat → List UInt8 → List UInt8
  | 0, ip => ip
  | j + 1, ip => if j ≥ ellipsis then moveLoop n ellipsis j (ip.set (j + n) (ip.getD j 0)) else ip

/-- Go `clear(ip[lo:hi])`. -/
def clearRange (ip : List UInt8) (lo hi : Nat) : List UInt8 :=
  (List.range ip.length).map (fun k => if lo ≤ k ∧ k < hi then 0 else ip.getD k 0)

/-- Go `netip.parseIPv6`: the sixteen bytes and the zone, or `none` for a parse error. -/
def parseIPv6 (input : GoString) : Option (List UInt8 × GoString) :=
  let pct := Index input [37]
  let sz : Option (GoString × GoString) :=
    if pct ≠ -1 then
      let zone := input.drop (pct.toNat + 1)
      if zone = [] then none else some (input.take pct.toNat, zone)
    else some (input, [])
  match sz with
  | none => none
  | some (s, zone) =>
    let zeros : List UInt8 := List.replicate 16 0
    let lead : Bool := decide (s.length ≥ 2) && s.getD 0 0 == 58 && s.getD 1 0 == 58
    let ellipsis0 : Int := if lead then 0 else -1
    let s0 := if lead then s.drop 2 else s
    if lead ∧ s0.length = 0 then some (zeros, zone)
    else
      match parseIPv6Loop 8 s0 0 zeros ellipsis0 with
      | none => none
      | some (s1, i, ip, ellipsis) =>
        if s1.length ≠ 0 then none
        else if i < 16 then
          if ellipsis < 0 then none
          else
            let n := 16 - i
            let moved := moveLoop n ellipsis.toNat i ip
            some (clearRange moved ellipsis.toNat (ellipsis.toNat + n), zone)
        else if ellipsis ≥ 0 then none
        else some (ip, zone)

/-- A parsed `netip.Addr`: an IPv4 address of four bytes, or an IPv6 address of sixteen
bytes with its zone. -/
inductive Addr where
  | v4 (b : List UInt8)
  | v6 (b : List UInt8) (zone : GoString)
  deriving DecidableEq, Repr

/-- Go `netip.ParseAddr`: the first of `.`, `:` and `%` in `s` selects the parser. -/
def ParseAddrFrom (s : GoString) : GoString → Option Addr
  | [] => none
  | c :: t =>
    if c = 46 then (parseIPv4 s).map Addr.v4
    else if c = 58 then (parseIPv6 s).map (fun r => Addr.v6 r.1 r.2)
    else if c = 37 then none
    else ParseAddrFrom s t

/-- Go `netip.ParseAddr`. -/
def ParseAddr (s : GoString) : Option Addr := ParseAddrFrom s s

/-- The prefix `v4InV6Prefix` of an IPv4-mapped IPv6 address. -/
def v4InV6Prefix : List UInt8 := [0, 0, 0, 0, 0, 0, 0, 0, 0, 0, 0xff, 0xff]

/-- Go `net.ParseIP`: the sixteen-byte form (`Addr.As16`) of the parsed address, an IPv4
address being IPv4-mapped; `nil` when `s` does not parse or carries a zone. -/
def ParseIP (s : GoString) : IP :=
  match ParseAddr s with
  | none => []
  | some (Addr.v4 b) => v4InV6Prefix ++ b
  | some (Addr.v6 b zone) => if zone ≠ [] then [] else b

/-- Go `net.isZeros`. -/
def isZeros (p : List UInt8) : Bool := p.all (fun b => b == 0)

/-- Go `net.allFF`. -/
def allFF (p : List UInt8) : Bool := p.all (fun b => b == 0xff)

/-- Go `IP.To4`: the four-byte form of an IPv4 address, `nil` when `ip` is not one. -/
def To4 (ip : IP) : IP :=
  if ip.length = 4 then ip
  else if ip.length = 16 ∧ isZeros (ip.take 10) ∧ ip.getD 10 0 = 0xff ∧ ip.getD 11 0 = 0xff then
    (ip.drop 12).take 4
  else []

/-- Go `net.IPv4Mask`: the four-byte mask `a.b.c.d`. -/
def IPv4Mask (a b c d : UInt8) : List UInt8 := [a, b, c, d]

/-- Go `IP.Mask`: the bytewise AND of `ip` and `mask`, after bringing an IPv4 address and an
IPv4 mask to a common length; `nil` when the lengths differ. -/
def Mask (ip : IP) (mask : List UInt8) : IP :=
  let mask1 :=
    if mask.length = 16 ∧ ip.length = 4 ∧ allFF (mask.take 12) then mask.drop 12 else mask
  let ip1 :=
    if mask1.length = 4 ∧ ip.length = 16 ∧ ip.take 12 = v4InV6Prefix then ip.drop 12 else ip
  let n := ip1.length
  if n ≠ mask1.length then []
  else (List.range n).map (fun i => ip1.getD i 0 &&& mask1.getD i 0)

/-- Go `IP.Equal`: equality of byte slices, an IPv4 address and its IPv4-mapped form being
equal. -/
def Equal (ip x : IP) : Bool :=
  if ip.length = x.length then ip == x
  else if ip.length = 4 ∧ x.length = 16 then
    x.take 12 == v4InV6Prefix && ip == x.drop 12
  else if ip.length = 16 ∧ x.length = 4 then
    ip.take 12 == v4InV6Prefix && ip.drop 12 == x
  else false

/-! ## Name resolver and net matcher (`utils.go`) -/

/-- `resolve`: the four-byte form of `host` when it parses as an IP address, else the
answer of `net.ResolveIPAddr("ip4", host)`. The resolver is the argument `ResolveIPAddr`,
`none` being its error; the result `none` is the error return of `resolve`. -/
def resolve (ResolveIPAddr : GoString → Option IP) (host : GoString) : Option IP :=
  let ip := ParseIP host
  if ip ≠ [] then some (To4 ip)
  else
    match ResolveIPAddr host with
    | none => none
    | some ip2 => some ip2

/-- `isInNet`: the resolved address of `host`, masked by `mask`, compared with `pattern`. -/
def isInNet (ResolveIPAddr : GoString → Option IP) (host pattern mask : GoString) : Bool :=
  if host.length = 0 then false
  else
    match resolve ResolveIPAddr host with
    | none => false
    | some address =>
      let maskIp := ParseIP mask
      if maskIp = [] then false
      else
        let maskIp4 := To4 maskIp
        if maskIp4 = [] then false
        else
          let maskMask := IPv4Mask (maskIp4.getD 0 0) (maskIp4.getD 1 0) (maskIp4.getD 2 0)
            (maskIp4.getD 3 0)
          let patternIp := ParseIP pattern
          Equal (Mask address maskMask) patternIp

/-! ## Host classifier (`utils.go`) -/

/-- `isPlainHostName`: `strings.Index(host, ".") == -1`. -/
def isPlainHostName (host : GoString) : Bool :=
  Index host (ascii ".") == -1

/-- `dnsDomainIs`: false when the host is shorter than the domain, else
`strings.HasSuffix(host, domain)`. -/
def dnsDomainIs (host domain : GoString) : Bool :=
  if host.length < domain.length then false
  else HasSuffix host domain

/-- `localHostOrDomainIs`: `host == hostdom`, else
`strings.LastIndex(hostdom, host+".") == 0`. -/
def localHostOrDomainIs (host hostdom : GoString) : Bool :=
  if host = hostdom then true
  else LastIndex hostdom (host ++ ascii ".") == 0

/-- `dnsDomainLevels`: `strings.Count(host, ".")`. -/
def dnsDomainLevels (host : GoString) : Nat :=
  Count host (ascii ".")

/-! ## regexp

The fragment of the RE2 syntax of Go's `regexp` package that is embedded: a pattern
`^ p₁ ... pₙ $` whose pieces are an atom (an ASCII literal that is no metacharacter, the
escaped dot `\.`, or the dot `.`), optionally followed by a single `*`, `+` or `?`.
Any other pattern is passed to an argument standing for the rest of the package.
The compiler's resource limits on very large patterns are not part of the embedding. -/

/-- An atom of the embedded fragment: a literal rune, or `.` (any rune but newline, the
flag `s` being off). -/
inductive Atom where
  | lit (r : Rune)
  | anyNotNL
  deriving DecidableEq, Repr

/-- The repetition of a piece: none, `?`, `*` or `+`. -/
inductive Rep where
  | one
  | quest
  | star
  | plus
  deriving DecidableEq, Repr

/-- A piece of a pattern: an atom with its repetition. -/
structure Piece where
  atom : Atom
  rep : Rep
  deriving DecidableEq, Repr

/-- The metacharacters of the syntax: the bytes of `\.+*?()|[]{}^$`. -/
def isMeta (c : UInt8) : Bool :=
  c ∈ ([92, 46, 43, 42, 63, 40, 41, 124, 91, 93, 123, 125, 94, 36] : List UInt8)

/-- The repetition operators `*`, `+`, `?`. -/
def repOf (c : UInt8) : Option Rep :=
  if c = 42 then some Rep.star
  else if c = 43 then some Rep.plus
  else if c = 63 then some Rep.quest
  else none

/-- One atom at the head of a pattern and what follows it; `none` outside the fragment. -/
def parseAtom : GoString → Option (Atom × GoString)
  | [] => none
  | c :: t =>
    if c = 92 then
      match t with
      | d :: t2 => if d = 46 then some (Atom.lit 46, t2) else none
      | [] => none
    else if c = 46 then some (Atom.anyNotNL, t)
    else if isMeta c ∨ c.toNat ≥ 0x80 then none
    else some (Atom.lit c.toNat, t)

/-- The repetition that follows an atom and what follows it; `none` when a second operator
follows the first (a non-greedy or a nested repetition), which is outside the fragment. -/
def parseRep : GoString → Option (Rep × GoString)
  | [] => some (Rep.one, [])
  | c :: t =>
    match repOf c with
    | none => some (Rep.one, c :: t)
    | some r =>
      match t with
      | [] => some (r, [])
      | d :: _ => if (repOf d).isSome then none else some (r, t)

/-- The pieces of the body of a pattern; `fuel` bounds their number. -/
def parsePieces : Nat → GoString → Option (List Piece)
  | 0, s => if s = [] then some [] else none
  | fuel + 1, s =>
    if s = [] then some []
    else
      match parseAtom s with
      | none => none
      | some (a, t) =>
        match parseRep t with
        | none => none
        | some (r, t2) => (parsePieces fuel t2).map (fun ps => Piece.mk a r :: ps)

/-- The pieces of a pattern `^body$` of the fragment; `none` outside the fragment. -/
def compileFragment (pattern : GoString) : Option (List Piece) :=
  match pattern with
  | [] => none
  | c :: rest =>
    if c = 94 ∧ rest.getLast? = some 36 then parsePieces rest.length rest.dropLast
    else none

/-- Whether an atom matches a rune. -/
def Atom.accepts : Atom → Rune → Bool
  | Atom.lit r, c => c == r
  | Atom.anyNotNL, c => c != 10

/-- Matching of `a*` followed by the continuation `k`. -/
def matchStar (a : Atom) (k : List Rune → Bool) : List Rune → Bool
  | [] => k []
  | c :: t => k (c :: t) || (a.accepts c && matchStar a k t)

/-- Whether the pieces match the whole of the text. -/
def matchPieces : List Piece → List Rune → Bool
  | [], s => s.isEmpty
  | p :: ps, s =>
    match p.rep with
    | Rep.one =>
      match s with
      | [] => false
      | c :: t => p.atom.accepts c && matchPieces ps t
    | Rep.quest =>
      matchPieces ps s ||
        (match s with
         | [] => false
         | c :: t => p.atom.accepts c && matchPieces ps t)
    | Rep.star => matchStar p.atom (fun u => matchPieces ps u) s
    | Rep.plus =>
      match s with
      | [] => false
      | c :: t => p.atom.accepts c && matchStar p.atom (fun u => matchPieces ps u) t

/-- Go `regexp.MatchString(pattern, s)`: the pair `(matched, err != nil)`. A pattern of the
fragment compiles and is matched against the runes of `s`; any other pattern is answered by
`other`, which stands for the rest of the package. -/
def MatchString (other : GoString → GoString → Bool × Bool) (pattern s : GoString) :
    Bool × Bool :=
  match compileFragment pattern with
  | some ps => (matchPieces ps (decodeRunes s), false)
  | none => other pattern s

/-! ## Glob matcher (`utils.go`) -/

/-- `shExpMatch`: the glob rewritten by three `strings.Replace` calls, anchored, and matched
by `regexp.MatchString`; the result is `err == nil && matched`. -/
def shExpMatch (other : GoString → GoString → Bool × Bool) (str shexp : GoString) : Bool :=
  let shexp1 := Replace shexp (ascii ".") (ascii "\\.") (-1)
  let shexp2 := Replace shexp1 (ascii "?") (ascii ".?") (-1)
  let shexp3 := Replace shexp2 (ascii "*") (ascii ".*") (-1)
  let r := MatchString other (ascii "^" ++ shexp3 ++ ascii "$") str
  !r.2 && r.1

/-! ## Reference semantics of globs -/

/-- An ASCII letter or digit. -/
def isLetterOrDigit (c : UInt8) : Bool :=
  let n := c.toNat
  decide (48 ≤ n ∧ n ≤ 57) || decide (65 ≤ n ∧ n ≤ 90) || decide (97 ≤ n ∧ n ≤ 122)

/-- A byte of a glob made of letters, digits, `.`, `*` and `?`. -/
def IsGlobByte (g : UInt8) : Prop := isLetterOrDigit g = true ∨ g = 46 ∨ g = 42 ∨ g = 63

/-- Reference semantics of a glob whose only wildcard is `*`: the whole text matches the
glob when `*` stands for any, possibly empty, run of characters and every other byte of the
glob, the dot included, stands for itself. -/
def GlobMatchesRef : GoString → List Rune → Prop
  | [], text => text = []
  | g :: gs, text =>
    if g = 42 then ∃ run rest, text = run ++ rest ∧ GlobMatchesRef gs rest
    else ∃ rest, text = g.toNat :: rest ∧ GlobMatchesRef gs rest

/-- What the three `strings.Replace` calls of `shExpMatch` make of one byte of the glob:
`.` becomes `\.`, `?` becomes `.?`, `*` becomes `.*`. -/
def shExpByte (g : UInt8) : GoString :=
  if g = 46 then [92, 46]
  else if g = 63 then [46, 63]
  else if g = 42 then [46, 42]
  else [g]

/-- The piece that the regexp compiler makes of the translation of one byte of a glob. -/
def shExpPiece (g : UInt8) : Piece :=
  if g = 63 then Piece.mk Atom.anyNotNL Rep.quest
  else if g = 42 then Piece.mk Atom.anyNotNL Rep.star
  else Piece.mk (Atom.lit g.toNat) Rep.one

/-! ## ECMAScript values

The script `javascriptUtils` runs in an ECMAScript 5 engine. A Number is an IEEE double;
its finite values are embedded as rationals, which is exact for comparison and for the
integer arithmetic of `Date` as long as the magnitudes stay below `2^53`. Arguments are
primitive values; objects are not embedded. -/

/-- An ECMAScript Number: `NaN`, the infinities, or a finite value. -/
inductive Number where
  | nan
  | posInf
  | negInf
  | fin (q : ℚ)
  deriving DecidableEq

/-- A primitive ECMAScript value. -/
inductive Value where
  | undefined
  | null
  | bool (b : Bool)
  | number (x : Number)
  | string (s : String)
  deriving DecidableEq

/-- The facts about the host that the script consults besides the clock: the local time
zone adjustment `LocalTZA` and the daylight saving adjustment `DaylightSavingTA(t)` of
ES5 §15.9.1.7-8, in milliseconds, and `ToNumber` applied to a String (ES5 §9.3.1), which
yields `NaN` for the string `GMT`. -/
structure Host where
  LocalTZA : Int
  DaylightSavingTA : Int → Int
  StringToNumber : String → Number
  gmtNaN : StringToNumber "GMT" = Number.nan

/-- The Number of a Boolean: `1` for true, `+0` for false. -/
def Number.ofBool (b : Bool) : Number := if b then Number.fin 1 else Number.fin 0

/-- ES5 §9.3 `ToNumber` on a primitive value. -/
def ToNumber (H : Host) : Value → Number
  | Value.undefined => Number.nan
  | Value.null => Number.fin 0
  | Value.bool b => Number.ofBool b
  | Value.number x => x
  | Value.string s => H.StringToNumber s

/-- Equality of Numbers (ES5 §11.9.3 step 1.c): `NaN` equals nothing. -/
def Number.eq : Number → Number → Bool
  | Number.fin a, Number.fin b => decide (a = b)
  | Number.posInf, Number.posInf => true
  | Number.negInf, Number.negInf => true
  | _, _ => false

/-- ES5 §11.8.5 on Numbers, `x < y`: `none` is the result `undefined`, when an operand is
`NaN`. -/
def Number.lt : Number → Number → Option Bool
  | Number.nan, _ => none
  | _, Number.nan => none
  | Number.fin a, Number.fin b => some (decide (a < b))
  | Number.posInf, _ => some false
  | _, Number.posInf => some true
  | _, Number.negInf => some false
  | Number.negInf, _ => some true

/-- ES5 §11.8.3 on Numbers, `x <= y`: false when `y < x` is true or undefined. -/
def Number.le (x y : Number) : Bool :=
  match Number.lt y x with
  | some false => true
  | _ => false

/-- ES5 §11.9.3, the abstract equality `x == y` of primitive values. -/
def looseEq (H : Host) : Value → Value → Bool
  | Value.undefined, Value.undefined => true
  | Value.null, Value.null => true
  | Value.undefined, Value.null => true
  | Value.null, Value.undefined => true
  | Value.number x, Value.number y => Number.eq x y
  | Value.string a, Value.string b => a == b
  | Value.bool a, Value.bool b => a == b
  | Value.number x, Value.string s => Number.eq x (H.StringToNumber s)
  | Value.string s, Value.number y => Number.eq (H.StringToNumber s) y
  | Value.bool b, Value.number y => Number.eq (Number.ofBool b) y
  | Value.bool b, Value.string s => Number.eq (Number.ofBool b) (H.StringToNumber s)
  | Value.number x, Value.bool b => Number.eq x (Number.ofBool b)
  | Value.string s, Value.bool b => Number.eq (H.StringToNumber s) (Number.ofBool b)
  | _, _ => false

/-- ES5 §11.8.3, `x <= y` for primitive values of which at least one is no String: both are
converted by `ToNumber`. -/
def lessEq (H : Host) (x y : Value) : Bool := Number.le (ToNumber H x) (ToNumber H y)

/-- ES5 §9.4 `ToInteger` of a finite Number (truncation towards zero); `none` for `NaN`
and the infinities, which the `Date` operations turn into `NaN`. -/
def Number.toInt? : Number → Option Int
  | Number.fin q => some (if 0 ≤ q then Rat.floor q else -Rat.floor (-q))
  | _ => none

/-- The Number of an integer. -/
def Number.ofInt (n : Int) : Number := Number.fin (n : ℚ)

/-- The Number of a time value or a date field, `none` being `NaN`. -/
def Number.ofTime : Option Int → Number
  | none => Number.nan
  | some n => Number.ofInt n

/-! ## ECMAScript Date (ES5 §15.9.1)

A time value is an integer number of milliseconds since the epoch; the time value of a
`Date` object is `Option Int`, `none` being `NaN` (an invalid date). The script runs in the
engine `otto`, which departs from ES5 in two places that the setters below follow: a date
keeps any time value that a setter or a constructor computes (there is no `TimeClip` to
`NaN` beyond 8.64e15 milliseconds), and every setter, `setFullYear` included, leaves an
invalid date invalid. -/

/-- Milliseconds per day. -/
def msPerDay : Int := 86400000

/-- Milliseconds per hour. -/
def msPerHour : Int := 3600000

/-- Milliseconds per minute. -/
def msPerMinute : Int := 60000

/-- Milliseconds per second. -/
def msPerSecond : Int := 1000

/-- `Day(t) = floor(t / msPerDay)`. -/
def Day (t : Int) : Int := t / msPerDay

/-- `TimeWithinDay(t) = t modulo msPerDay`. -/
def TimeWithinDay (t : Int) : Int := t % msPerDay

/-- `DaysInYear(y)`. -/
def DaysInYear (y : Int) : Int :=
  if y % 4 ≠ 0 then 365
  else if y % 100 ≠ 0 then 366
  else if y % 400 ≠ 0 then 365
  else 366

/-- `DayFromYear(y)`: the day number of the first day of year `y`. -/
def DayFromYear (y : Int) : Int :=
  365 * (y - 1970) + (y - 1969) / 4 - (y - 1901) / 100 + (y - 1601) / 400

/-- `TimeFromYear(y)`. -/
def TimeFromYear (y : Int) : Int := msPerDay * DayFromYear y

/-- Upward search for the year of day `d` from a year that starts no later than `d`. -/
def yearSearch (d : Int) : Nat → Int → Int
  | 0, y => y
  | fuel + 1, y => if DayFromYear (y + 1) ≤ d then yearSearch d fuel (y + 1) else y

/-- `YearFromTime(t)`: the largest `y` with `TimeFromYear(y) ≤ t`. The search starts from
an estimate that is never too large (a year has 365 or 366 days) and is short of the year
by at most `|Day t| / 133590 + 1`. -/
def YearFromTime (t : Int) : Int :=
  let d := Day t
  yearSearch d (d.natAbs / 100000 + 2) (1970 + (if 0 ≤ d then d / 366 else d / 365))

/-- `InLeapYear(t)`: 1 in a leap year, else 0. -/
def InLeapYear (t : Int) : Int := if DaysInYear (YearFromTime t) = 366 then 1 else 0

/-- `DayWithinYear(t)`. -/
def DayWithinYear (t : Int) : Int := Day t - DayFromYear (YearFromTime t)

/-- `MonthFromTime(t)`: 0 for January to 11 for December. -/
def MonthFromTime (t : Int) : Int :=
  let d := DayWithinYear t
  let l := InLeapYear t
  if d < 31 then 0
  else if d < 59 + l then 1
  else if d < 90 + l then 2
  else if d < 120 + l then 3
  else if d < 151 + l then 4
  else if d < 181 + l then 5
  else if d < 212 + l then 6
  else if d < 243 + l then 7
  else if d < 273 + l then 8
  else if d < 304 + l then 9
  else if d < 334 + l then 10
  else 11

/-- `DateFromTime(t)`: the day of the month, from 1. -/
def DateFromTime (t : Int) : Int :=
  let d := DayWithinYear t
  let l := InLeapYear t
  match MonthFromTime t with
  | 0 => d + 1
  | 1 => d - 30
  | 2 => d - 58 - l
  | 3 => d - 89 - l
  | 4 => d - 119 - l
  | 5 => d - 150 - l
  | 6 => d - 180 - l
  | 7 => d - 211 - l
  | 8 => d - 242 - l
  | 9 => d - 272 - l
  | 10 => d - 303 - l
  | _ => d - 333 - l

/-- `WeekDay(t)`: 0 for Sunday to 6 for Saturday. -/
def WeekDay (t : Int) : Int := (Day t + 4) % 7

/-- `HourFromTime(t)`. -/
def HourFromTime (t : Int) : Int := (t / msPerHour) % 24

/-- `MinFromTime(t)`. -/
def MinFromTime (t : Int) : Int := (t / msPerMinute) % 60

/-- `SecFromTime(t)`. -/
def SecFromTime (t : Int) : Int := (t / msPerSecond) % 60

/-- `msFromTime(t)`. -/
def msFromTime (t : Int) : Int := t % msPerSecond

/-- `LocalTime(t) = t + LocalTZA + DaylightSavingTA(t)`. -/
def LocalTime (H : Host) (t : Int) : Int := t + H.LocalTZA + H.DaylightSavingTA t

/-- `UTC(t) = t − LocalTZA − DaylightSavingTA(t − LocalTZA)`. -/
def UTC (H : Host) (t : Int) : Int := t - H.LocalTZA - H.DaylightSavingTA (t - H.LocalTZA)

/-- `MakeTime(hour, min, sec, ms)` on integers. -/
def MakeTime (hour min sec ms : Int) : Int :=
  hour * msPerHour + min * msPerMinute + sec * msPerSecond + ms

/-- Days from the start of a year to the start of month `mn` (0 to 11), `leap` being 1 in
a leap year. -/
def daysBeforeMonth (mn leap : Int) : Int :=
  match mn with
  | 0 => 0
  | 1 => 31
  | 2 => 59 + leap
  | 3 => 90 + leap
  | 4 => 120 + leap
  | 5 => 151 + leap
  | 6 => 181 + leap
  | 7 => 212 + leap
  | 8 => 243 + leap
  | 9 => 273 + leap
  | 10 => 304 + leap
  | _ => 334 + leap

/-- `MakeDay(year, month, date)` on integers: the day number of the first of month
`month modulo 12` of year `year + floor(month / 12)`, plus `date − 1`. -/
def MakeDay (year month date : Int) : Int :=
  let ym := year + month / 12
  let mn := month % 12
  DayFromYear ym + daysBeforeMonth mn (if DaysInYear ym = 366 then 1 else 0) + date - 1

/-- `MakeDate(day, time) = day × msPerDay + time`. -/
def MakeDate (day time : Int) : Int := day * msPerDay + time

/-- `Date.prototype.getHours`. -/
def getHours (H : Host) (tv : Option Int) : Option Int := tv.map (fun t => HourFromTime (LocalTime H t))

/-- `Date.prototype.getUTCFullYear`. -/
def getUTCFullYear (tv : Option Int) : Option Int := tv.map YearFromTime

/-- `Date.prototype.getUTCMonth`. -/
def getUTCMonth (tv : Option Int) : Option Int := tv.map MonthFromTime

/-- `Date.prototype.getUTCDate`. -/
def getUTCDate (tv : Option Int) : Option Int := tv.map DateFromTime

/-- `Date.prototype.getUTCHours`. -/
def getUTCHours (tv : Option Int) : Option Int := tv.map HourFromTime

/-- `Date.prototype.getUTCMinutes`. -/
def getUTCMinutes (tv : Option Int) : Option Int := tv.map MinFromTime

/-- `Date.prototype.getUTCSeconds`. -/
def getUTCSeconds (tv : Option Int) : Option Int := tv.map SecFromTime

/-- `Date.prototype.setHours(hour)`: the new time value. -/
def setHours (H : Host) (tv : Option Int) (hour : Number) : Option Int :=
  match tv, hour.toInt? with
  | some tv, some h =>
    let t := LocalTime H tv
    some (UTC H (MakeDate (Day t) (MakeTime h (MinFromTime t) (SecFromTime t) (msFromTime t))))
  | _, _ => none

/-- `Date.prototype.setMinutes(min)`: the new time value. -/
def setMinutes (H : Host) (tv : Option Int) (min : Number) : Option Int :=
  match tv, min.toInt? with
  | some tv, some m =>
    let t := LocalTime H tv
    some (UTC H (MakeDate (Day t) (MakeTime (HourFromTime t) m (SecFromTime t) (msFromTime t))))
  | _, _ => none

/-- `Date.prototype.setSeconds(sec)`: the new time value. -/
def setSeconds (H : Host) (tv : Option Int) (sec : Number) : Option Int :=
  match tv, sec.toInt? with
  | some tv, some s =>
    let t := LocalTime H tv
    some (UTC H (MakeDate (Day t) (MakeTime (HourFromTime t) (MinFromTime t) s (msFromTime t))))
  | _, _ => none

/-- `Date.prototype.setDate(date)`: the new time value. -/
def setDate (H : Host) (tv : Option Int) (date : Number) : Option Int :=
  match tv, date.toInt? with
  | some tv, some dt =>
    let t := LocalTime H tv
    some (UTC H (MakeDate (MakeDay (YearFromTime t) (MonthFromTime t) dt) (TimeWithinDay t)))
  | _, _ => none

/-- `Date.prototype.setMonth(month)`: the new time value. -/
def setMonth (H : Host) (tv : Option Int) (month : Number) : Option Int :=
  match tv, month.toInt? with
  | some tv, some m =>
    let t := LocalTime H tv
    some (UTC H (MakeDate (MakeDay (YearFromTime t) m (DateFromTime t)) (TimeWithinDay t)))
  | _, _ => none

/-- `Date.prototype.setFullYear(year)`: the new time value; an invalid date stays
invalid. -/
def setFullYear (H : Host) (tv : Option Int) (year : Number) : Option Int :=
  match tv, year.toInt? with
  | some tv, some y =>
    let t := LocalTime H tv
    some (UTC H (MakeDate (MakeDay y (MonthFromTime t) (DateFromTime t)) (TimeWithinDay t)))
  | _, _ => none

/-- The comparison `d1 <= d2` of two `Date` objects, that is of their time values. -/
def dateLe (d1 d2 : Option Int) : Bool := Number.le (Number.ofTime d1) (Number.ofTime d2)

/-! ## Temporal matchers (`javascriptUtils` in `utils.go`) -/

/-- The completion of a script function that returns a Boolean: a normal return, or a
`throw` of a string. -/
inductive Completion where
  | normal (v : Bool)
  | throw (msg : String)
  deriving DecidableEq, Repr

/-- The expression `arguments[i]`: `undefined` beyond the arguments passed. -/
def argAt (arguments : List Value) (i : Nat) : Value := arguments.getD i Value.undefined

/-- The block `if (isGMT) { date.setFullYear(date.getUTCFullYear()); ... }` of `timeRange`:
six setter calls in sequence, each reading the UTC field of the date as the previous call
left it. -/
def utcFieldsAsLocal (H : Host) (date : Option Int) : Option Int :=
  let d1 := setFullYear H date (Number.ofTime (getUTCFullYear date))
  let d2 := setMonth H d1 (Number.ofTime (getUTCMonth d1))
  let d3 := setDate H d2 (Number.ofTime (getUTCDate d2))
  let d4 := setHours H d3 (Number.ofTime (getUTCHours d3))
  let d5 := setMinutes H d4 (Number.ofTime (getUTCMinutes d4))
  setSeconds H d5 (Number.ofTime (getUTCSeconds d5))

/-- `timeRange`. The arguments `now`, `now1`, `now2` are the time values of the three
`new Date()` of the function, in program order (`date`, `date1`, `date2`). -/
def timeRange (H : Host) (now now1 now2 : Int) (arguments : List Value) : Completion :=
  let argc0 := arguments.length
  let date0 : Option Int := some now
  if argc0 < 1 then Completion.normal false
  else
    let isGMT := looseEq H (argAt arguments (argc0 - 1)) (Value.string "GMT")
    let argc := if isGMT then argc0 - 1 else argc0
    let hour := Number.ofTime (if isGMT then getUTCHours date0 else getHours H date0)
    let date1a : Option Int := some now1
    let date2a : Option Int := some now2
    if argc = 1 then
      Completion.normal (looseEq H (Value.number hour) (argAt arguments 0))
    else if argc = 2 then
      Completion.normal (lessEq H (argAt arguments 0) (Value.number hour) &&
        lessEq H (Value.number hour) (argAt arguments 1))
    else if argc = 6 ∨ argc = 4 then
      -- case 6, falling through to case 4
      let date1b := if argc = 6 then setSeconds H date1a (ToNumber H (argAt arguments 2)) else date1a
      let date2b := if argc = 6 then setSeconds H date2a (ToNumber H (argAt arguments 5)) else date2a
      -- case 4
      let middle := argc / 2
      let date1c := setHours H date1b (ToNumber H (argAt arguments 0))
      let date1d := setMinutes H date1c (ToNumber H (argAt arguments 1))
      let date2c := setHours H date2b (ToNumber H (argAt arguments middle))
      let date2d := setMinutes H date2c (ToNumber H (argAt arguments (middle + 1)))
      let date2e := if middle = 2 then setSeconds H date2d (Number.ofInt 59) else date2d
      let date := if isGMT then utcFieldsAsLocal H date0 else date0
      Completion.normal (dateLe date1d date && dateLe date date2e)
    else
      Completion.throw "timeRange: bad number of arguments"

/-- The number of arguments of a call once a trailing `"GMT"` is removed. -/
def argCount (H : Host) (arguments : List Value) : Nat :=
  if arguments.length ≥ 1 ∧
      looseEq H (argAt arguments (arguments.length - 1)) (Value.string "GMT") = true then
    arguments.length - 1
  else arguments.length

/-- A host in the UTC zone without daylight saving time, for which no string denotes a
number. -/
def utcHost : Host where
  LocalTZA := 0
  DaylightSavingTA := fun _ => 0
  StringToNumber := fun _ => Number.nan
  gmtNaN := rfl

/-! ## More of the ECMAScript library -/

/-- `Date.prototype.getDay`. -/
def getDay (H : Host) (tv : Option Int) : Option Int := tv.map (fun t => WeekDay (LocalTime H t))

/-- `Date.prototype.getUTCDay`. -/
def getUTCDay (tv : Option Int) : Option Int := tv.map WeekDay

/-- `Date.prototype.getMonth`. -/
def getMonth (H : Host) (tv : Option Int) : Option Int :=
  tv.map (fun t => MonthFromTime (LocalTime H t))

/-- `Date.prototype.getDate`. -/
def getDate (H : Host) (tv : Option Int) : Option Int :=
  tv.map (fun t => DateFromTime (LocalTime H t))

/-- `Date.prototype.getFullYear`. -/
def getFullYear (H : Host) (tv : Option Int) : Option Int :=
  tv.map (fun t => YearFromTime (LocalTime H t))

/-- The constructor `new Date(year, month, date, hours, minutes, seconds)` (ES5 §15.9.3.1)
on integers, in local time: a year from 0 to 99 stands for 1900 + year. -/
def newDate (H : Host) (year : Option Int) (month date hours minutes seconds : Int) :
    Option Int :=
  match year with
  | none => none
  | some y =>
    let yr := if 0 ≤ y ∧ y ≤ 99 then 1900 + y else y
    some (UTC H (MakeDate (MakeDay yr month date) (MakeTime hours minutes seconds 0)))

/-- The property names that every object inherits from `Object.prototype` (ES5 §15.2.4);
engine-specific additions are not embedded. -/
def objectPrototypeNames : List String :=
  ["constructor", "toString", "toLocaleString", "valueOf", "hasOwnProperty", "isPrototypeOf",
    "propertyIsEnumerable"]

/-- The table `wdays` of the script. -/
def wdays : List (String × Int) :=
  [("SUN", 0), ("MON", 1), ("TUE", 2), ("WED", 3), ("THU", 4), ("FRI", 5), ("SAT", 6)]

/-- The table `months` of the script. -/
def months : List (String × Int) :=
  [("JAN", 0), ("FEB", 1), ("MAR", 2), ("APR", 3), ("MAY", 4), ("JUN", 5), ("JUL", 6),
    ("AUG", 7), ("SEP", 8), ("OCT", 9), ("NOV", 10), ("DEC", 11)]

/-- The helpers `getDay(weekday)` and `getMonth(name)` of the script,
`name in table ? table[name] : -1`, as the Number that every use of the result converts it
to. A key of the table yields its index and any other name `-1`, except a name inherited
from `Object.prototype`, for which `table[name]` is a function object, whose Number is
`NaN`. The string of a value that is no String is never a key nor an inherited name. -/
def lookupName (table : List (String × Int)) (name : Value) : Number :=
  match name with
  | Value.string s =>
    match table.lookup s with
    | some i => Number.ofInt i
    | none => if s ∈ objectPrototypeNames then Number.nan else Number.ofInt (-1)
  | _ => Number.ofInt (-1)

/-- The helper `getDay` of `weekdayRange`. -/
def weekdayRange_getDay (weekday : Value) : Number := lookupName wdays weekday

/-- The helper `getMonth` of `dateRange`. -/
def dateRange_getMonth (name : Value) : Number := lookupName months name

/-- `StrWhiteSpaceChar` (ES5 §9.3.1): white space and line terminators. -/
def isStrWhiteSpaceChar (c : Char) : Bool :=
  c.toNat ∈ [9, 10, 11, 12, 13, 32, 160, 0x1680, 0x180E, 0x2000, 0x2001, 0x2002, 0x2003, 0x2004,
    0x2005, 0x2006, 0x2007, 0x2008, 0x2009, 0x200A, 0x2028, 0x2029, 0x202F, 0x205F, 0x3000,
    0xFEFF]

/-- The value of a digit or letter as a digit of a radix up to 36. -/
def digitValue (c : Char) : Option Nat :=
  let n := c.toNat
  if 48 ≤ n ∧ n ≤ 57 then some (n - 48)
  else if 97 ≤ n ∧ n ≤ 122 then some (n - 97 + 10)
  else if 65 ≤ n ∧ n ≤ 90 then some (n - 65 + 10)
  else none

/-- The digits of the longest prefix of `s` made of radix-`R` digits. -/
def radixDigits (R : Nat) : List Char → List Nat
  | [] => []
  | c :: t =>
    match digitValue c with
    | some d => if d < R then d :: radixDigits R t else []
    | none => []

/-- `parseInt(string)` without radix (ES5 §15.1.2.2) on the characters of the string:
leading white space is skipped, a sign is read, a prefix `0x` or `0X` selects radix 16 and
radix 10 applies otherwise, and the longest prefix of digits is the value; `none` is `NaN`.
The value is the exact integer; the rounding of an integer beyond `2^53` to a double is
not embedded. -/
def parseIntString (input : List Char) : Option Int :=
  let S := input.dropWhile isStrWhiteSpaceChar
  let sign : Int := if S.head? = some (Char.ofNat 45) then -1 else 1
  let S1 := if S.head? = some (Char.ofNat 43) ∨ S.head? = some (Char.ofNat 45) then S.drop 1 else S
  let hex : Bool := decide (S1.length ≥ 2) && S1.head? == some (Char.ofNat 48) &&
    ((S1.drop 1).head? == some (Char.ofNat 120) || (S1.drop 1).head? == some (Char.ofNat 88))
  let R : Nat := if hex then 16 else 10
  let S2 := if hex then S1.drop 2 else S1
  let Z := radixDigits R S2
  if Z = [] then none
  else some (sign * ((Z.foldl (fun acc d => acc * R + d) 0 : Nat) : Int))

/-- ES5 §9.8 `ToString` on a primitive value. The string of a finite Number that is an
integer of magnitude below `10^21` is its decimal numeral; for any other finite Number it
is given by the argument `NumberToString` (ES5 §9.8.1, not embedded). -/
def ToString (NumberToString : ℚ → String) : Value → String
  | Value.undefined => "undefined"
  | Value.null => "null"
  | Value.bool b => if b then "true" else "false"
  | Value.number Number.nan => "NaN"
  | Value.number Number.posInf => "Infinity"
  | Value.number Number.negInf => "-Infinity"
  | Value.number (Number.fin q) =>
    if q.den = 1 ∧ q.num.natAbs < 10 ^ 21 then
      (if q.num < 0 then "-" else "") ++ Nat.repr q.num.natAbs
    else NumberToString q
  | Value.string s => s

/-- The global function `parseInt` applied to a primitive value. -/
def parseInt (NumberToString : ℚ → String) (v : Value) : Option Int :=
  parseIntString (ToString NumberToString v).toList

/-! ## `weekdayRange` and `dateRange` (`javascriptUtils` in `utils.go`) -/

/-- `weekdayRange`; `now` is the time value of its `new Date()`. -/
def weekdayRange (H : Host) (now : Int) (arguments : List Value) : Bool :=
  let date : Option Int := some now
  let argc0 := arguments.length
  if argc0 < 1 then false
  else
    let isGMT := looseEq H (argAt arguments (argc0 - 1)) (Value.string "GMT")
    let argc := if isGMT then argc0 - 1 else argc0
    let wday := Number.ofTime (if isGMT then getUTCDay date else getDay H date)
    let wd1 := weekdayRange_getDay (argAt arguments 0)
    let wd2 := if argc = 2 then weekdayRange_getDay (argAt arguments 1) else wd1
    if Number.eq wd1 (Number.ofInt (-1)) || Number.eq wd2 (Number.ofInt (-1)) then false
    else Number.le wd1 wday && Number.le wday wd2

/-- The variables `date1`, `date2` and `adjustMonth` of `dateRange`. -/
structure DateRangeState where
  date1 : Option Int
  date2 : Option Int
  adjustMonth : Bool
  deriving DecidableEq, Repr

/-- Body of the first loop of `dateRange`, which applies an argument of the first half to
`date1`. -/
def dateRange.first (H : Host) (NumberToString : ℚ → String) (argc : Nat)
    (st : DateRangeState) (arg : Value) : DateRangeState :=
  match parseInt NumberToString arg with
  | none => { st with date1 := setMonth H st.date1 (dateRange_getMonth arg) }
  | some tmp =>
    if tmp < 32 then
      { st with adjustMonth := decide (argc ≤ 2), date1 := setDate H st.date1 (Number.ofInt tmp) }
    else { st with date1 := setFullYear H st.date1 (Number.ofInt tmp) }

/-- Body of the second loop of `dateRange`, which applies an argument of the second half
to `date2`. -/
def dateRange.second (H : Host) (NumberToString : ℚ → String)
    (st : DateRangeState) (arg : Value) : DateRangeState :=
  match parseInt NumberToString arg with
  | none => { st with date2 := setMonth H st.date2 (dateRange_getMonth arg) }
  | some tmp =>
    if tmp < 32 then { st with date2 := setDate H st.date2 (Number.ofInt tmp) }
    else { st with date2 := setFullYear H st.date2 (Number.ofInt tmp) }

/-- The state of `dateRange` after its two loops, for `argc` arguments. -/
def dateRange.loops (H : Host) (NumberToString : ℚ → String) (now : Int) (argc : Nat)
    (arguments : List Value) : DateRangeState :=
  let year := getFullYear H (some now)
  let st0 : DateRangeState :=
    { date1 := newDate H year 0 1 0 0 0, date2 := newDate H year 11 31 23 59 59,
      adjustMonth := false }
  let st1 := (List.range (argc / 2)).foldl
    (fun st i => dateRange.first H NumberToString argc st (argAt arguments i)) st0
  ((List.range argc).drop (argc / 2)).foldl
    (fun st i => dateRange.second H NumberToString st (argAt arguments i)) st1

/-- The dates `date1` and `date2` that `dateRange` compares with the current date: the
state after the loops, with the current local month copied into both when `adjustMonth`
is set. -/
def dateRange.bounds (H : Host) (NumberToString : ℚ → String) (now : Int) (argc : Nat)
    (arguments : List Value) : DateRangeState :=
  let st := dateRange.loops H NumberToString now argc arguments
  if st.adjustMonth then
    { st with
      date1 := setMonth H st.date1 (Number.ofTime (getMonth H (some now))),
      date2 := setMonth H st.date2 (Number.ofTime (getMonth H (some now))) }
  else st

/-- `dateRange`; `now` is the time value of its `new Date()`. -/
def dateRange (H : Host) (NumberToString : ℚ → String) (now : Int) (arguments : List Value) :
    Bool :=
  let date0 : Option Int := some now
  let argc0 := arguments.length
  if argc0 < 1 then false
  else
    let isGMT := looseEq H (argAt arguments (argc0 - 1)) (Value.string "GMT")
    let argc := if isGMT then argc0 - 1 else argc0
    if argc = 1 then
      match parseInt NumberToString (argAt arguments 0) with
      | none =>
        Number.eq (Number.ofTime (if isGMT then getUTCMonth date0 else getMonth H date0))
          (dateRange_getMonth (argAt arguments 0))
      | some tmp =>
        if tmp < 32 then
          Number.eq (Number.ofTime (if isGMT then getUTCDate date0 else getDate H date0))
            (Number.ofInt tmp)
        else
          Number.eq (Number.ofTime (if isGMT then getUTCFullYear date0 else getFullYear H date0))
            (Number.ofInt tmp)
    else
      let st := dateRange.bounds H NumberToString now argc arguments
      let date := if isGMT then utcFieldsAsLocal H date0 else date0
      dateLe st.date1 date && dateLe date st.date2

/-- The weekday names `SUN` to `SAT`, by index. -/
def weekdayName (i : Fin 7) : String :=
  match i with
  | 0 => "SUN"
  | 1 => "MON"
  | 2 => "TUE"
  | 3 => "WED"
  | 4 => "THU"
  | 5 => "FRI"
  | 6 => "SAT"

/-- The month names `JAN` to `DEC`, by index. -/
def monthName (i : Fin 12) : String :=
  match i with
  | 0 => "JAN"
  | 1 => "FEB"
  | 2 => "MAR"
  | 3 => "APR"
  | 4 => "MAY"
  | 5 => "JUN"
  | 6 => "JUL"
  | 7 => "AUG"
  | 8 => "SEP"
  | 9 => "OCT"
  | 10 => "NOV"
  | 11 => "DEC"

/-- A printer of Numbers for closed statements; it is consulted only for a Number that is
no integer below `10^21`. -/
def plainPrinter : ℚ → String := fun _ => "0.5"

/-! ## Hosts for closed statements -/

/-- A host at UTC+10 without daylight saving time. -/
def plusTenHost : Host where
  LocalTZA := 36000000
  DaylightSavingTA := fun _ => 0
  StringToNumber := fun _ => Number.nan
  gmtNaN := rfl

/-- A host whose clocks go back one hour: daylight saving time (one hour) is in force
before 1970-01-01T02:00:00Z and not from then on; the standard time is UTC. -/
def fallBackHost : Host where
  LocalTZA := 0
  DaylightSavingTA := fun u => if u < 7200000 then 3600000 else 0
  StringToNumber := fun _ => Number.nan
  gmtNaN := rfl

/-- A host whose clocks go back one hour across local midnight: daylight saving time (one
hour) is in force before 1970-01-01T23:30:00Z and not from then on; the standard time is
UTC, so that the local time goes from 00:30 on 2 January back to 23:30 on 1 January. -/
def midnightFallBackHost : Host where
  LocalTZA := 0
  DaylightSavingTA := fun u => if u < 84600000 then 3600000 else 0
  StringToNumber := fun _ => Number.nan
  gmtNaN := rfl

/-- A host one hour ahead of UTC with daylight saving time (one hour) in force from
2026-03-29T01:00:00Z until 2026-10-25T01:00:00Z, the summer time of central Europe in
2026. -/
def summerHost : Host where
  LocalTZA := 3600000
  DaylightSavingTA := fun u => if 1774746000000 ≤ u ∧ u < 1792890000000 then 3600000 else 0
  StringToNumber := fun _ => Number.nan
  gmtNaN := rfl

/-! ## Notions used in the statements on the temporal matchers -/

/-- The time of day of a time value in whole seconds. -/
def secondsOfDay (t : Int) : Int := HourFromTime t * 3600 + MinFromTime t * 60 + SecFromTime t

/-- The daylight saving adjustment of the host is never negative and never more than one
hour. -/
def BoundedDST (H : Host) : Prop :=
  ∀ u, 0 ≤ H.DaylightSavingTA u ∧ H.DaylightSavingTA u ≤ 3600000

/-- The clocks of the host do not change in the hour before the local time `l`: the
daylight saving adjustment is the same throughout the hour of standard time that ends at
`l`. -/
def QuietBefore (H : Host) (l : Int) : Prop :=
  ∀ u, l - H.LocalTZA - 3600000 ≤ u → u ≤ l - H.LocalTZA →
    H.DaylightSavingTA u = H.DaylightSavingTA (l - H.LocalTZA)

/-- The local times that the setters of `timeRange(h1, m1, h2, m2)` produce from the local
time `L` of the call, all on the local day of `L`: `h1` and then `h1:m1` with the other
fields of `L` for `date1`; `h2`, then `h2:m2` and then `h2:m2:59` for `date2`. -/
def timeRange_localTimes (L h1 m1 h2 m2 : Int) : List Int :=
  [MakeDate (Day L) (MakeTime h1 (MinFromTime L) (SecFromTime L) (msFromTime L)),
    MakeDate (Day L) (MakeTime h1 m1 (SecFromTime L) (msFromTime L)),
    MakeDate (Day L) (MakeTime h2 (MinFromTime L) (SecFromTime L) (msFromTime L)),
    MakeDate (Day L) (MakeTime h2 m2 (SecFromTime L) (msFromTime L)),
    MakeDate (Day L) (MakeTime h2 m2 59 (msFromTime L))]

/-- The local times that `dateRange(d1, d2)` passes through in the local year `Y` and the
local month `M` of the call: 1 January, day `d1` of January and day `d1` of month `M` at
00:00:00 for `date1`; 31 December, day `d2` of December and day `d2` of month `M` at
23:59:59 for `date2`. -/
def dateRange_localTimes (Y M d1 d2 : Int) : List Int :=
  [MakeDate (MakeDay Y 0 1) 0, MakeDate (MakeDay Y 0 d1) 0, MakeDate (MakeDay Y M d1) 0,
    MakeDate (MakeDay Y 11 31) 86399000, MakeDate (MakeDay Y 11 d2) 86399000,
    MakeDate (MakeDay Y M d2) 86399000]

/-! ## Local address selector (`myIpAddress` in `utils.go`) -/

/-- Loop of Go `net.dtoi`: `rem` is `s[i:]` and `n` the value read so far. The result is
`(n, i, ok)`; a value of `0xFFFFFF` or more stops the loop without success. -/
def dtoiLoop (rem : GoString) (n i : Nat) : Nat × Nat × Bool :=
  match rem with
  | [] => if i = 0 then (0, 0, false) else (n, i, true)
  | c :: t =>
    if 48 ≤ c.toNat ∧ c.toNat ≤ 57 then
      let n1 := n * 10 + (c.toNat - 48)
      if n1 ≥ 0xFFFFFF then (0xFFFFFF, i, false)
      else dtoiLoop t n1 (i + 1)
    else if i = 0 then (0, 0, false) else (n, i, true)

/-- Go `net.dtoi`: the decimal number at the start of `s`, the number of bytes read and
whether a number was read. -/
def dtoi (s : GoString) : Nat × Nat × Bool := dtoiLoop s 0 0

/-- Go `bytealg.IndexByteString`: the index of the first byte `c` of `s`, or `-1`. -/
def IndexByteString (s : GoString) (c : UInt8) : Int :=
  if c ∈ s then (s.indexOf c : Int) else -1

/-- Go `netip.Addr.Zone`. -/
def Addr.Zone : Addr → GoString
  | Addr.v4 _ => []
  | Addr.v6 _ zone => zone

/-- Go `netip.Addr.BitLen`. -/
def Addr.BitLen : Addr → Nat
  | Addr.v4 _ => 32
  | Addr.v6 _ _ => 128

/-- Go `netip.Addr.As16`: the sixteen-byte form, an IPv4 address being IPv4-mapped. -/
def Addr.As16 : Addr → List UInt8
  | Addr.v4 b => v4InV6Prefix ++ b
  | Addr.v6 b _ => b

/-- Go `net.ParseCIDR`, its first result: the sixteen-byte address of the text
`address/length`, or `none` for the error return. -/
def ParseCIDR (s : GoString) : Option IP :=
  let i := IndexByteString s 47
  if i < 0 then none
  else
    let addr := s.take i.toNat
    let mask := s.drop (i.toNat + 1)
    match ParseAddr addr with
    | none => none
    | some ipAddr =>
      if Addr.Zone ipAddr ≠ [] then none
      else
        match dtoi mask with
        | (n, j, ok) =>
          if ok = false ∨ j ≠ mask.length ∨ n > Addr.BitLen ipAddr then none
          else some (Addr.As16 ipAddr)

/-- Go `net.IPv6loopback`, the address `::1`. -/
def IPv6loopback : IP := [0, 0, 0, 0, 0, 0, 0, 0, 0, 0, 0, 0, 0, 0, 0, 1]

/-- Go `IP.IsLoopback`. -/
def IsLoopback (ip : IP) : Bool :=
  let ip4 := To4 ip
  if ip4 ≠ [] then ip4.getD 0 0 == 127
  else Equal ip IPv6loopback

/-- Go `IP.IsLinkLocalUnicast`. -/
def IsLinkLocalUnicast (ip : IP) : Bool :=
  let ip4 := To4 ip
  if ip4 ≠ [] then ip4.getD 0 0 == 169 && ip4.getD 1 0 == 254
  else decide (ip.length = 16) && ip.getD 0 0 == 0xfe && (ip.getD 1 0 &&& 0xc0) == 0x80

/-- The byte `"0123456789abcdef"[n]`. -/
def hexDigitChar (n : Nat) : UInt8 :=
  if n < 10 then UInt8.ofNat (48 + n) else UInt8.ofNat (97 + (n - 10))

/-- Go `net.hexString`: two hexadecimal digits for every byte. -/
def hexString (b : List UInt8) : GoString :=
  b.flatMap (fun tn => [hexDigitChar (tn.toNat / 16), hexDigitChar (tn.toNat % 16)])

/-- Go `netip.appendHex`: the hexadecimal numeral of a 16-bit value without leading
zeros. -/
def appendHex (x : Nat) : GoString :=
  (if x ≥ 0x1000 then [hexDigitChar (x / 4096)] else []) ++
  (if x ≥ 0x100 then [hexDigitChar (x / 256 % 16)] else []) ++
  (if x ≥ 0x10 then [hexDigitChar (x / 16 % 16)] else []) ++
  [hexDigitChar (x % 16)]

/-- Go `netip.Addr.v6u16`: the eight 16-bit fields of a sixteen-byte address. -/
def v6u16 (ip : IP) (i : Nat) : Nat := (ip.getD (2 * i) 0).toNat * 256 + (ip.getD (2 * i + 1) 0).toNat

/-- Inner loop `for j < 8 && ip.v6u16(j) == 0 { j++ }` of `netip.Addr.appendTo6`. -/
def zeroRunEnd (ip : IP) : Nat → Nat → Nat
  | 0, j => j
  | fuel + 1, j => if j < 8 ∧ v6u16 ip j = 0 then zeroRunEnd ip fuel (j + 1) else j

/-- First loop of `netip.Addr.appendTo6`: the longest run of two or more zero fields, the
first one among runs of equal length; `(255, 255)` when there is none. -/
def zeroRun (ip : IP) : Nat × Nat :=
  (List.range 8).foldl
    (fun z i =>
      let j := zeroRunEnd ip 8 i
      if j - i ≥ 2 ∧ j - i > z.2 - z.1 then (i, j) else z)
    (255, 255)

/-- Second loop of `netip.Addr.appendTo6` from field `i` on; `fuel` counts the rounds. -/
def appendTo6Loop (ip : IP) (zeroStart zeroEnd : Nat) : Nat → Nat → GoString
  | 0, _ => []
  | fuel + 1, i =>
    if i ≥ 8 then []
    else if i = zeroStart then
      if zeroEnd ≥ 8 then [58, 58]
      else
        [58, 58] ++ appendHex (v6u16 ip zeroEnd) ++
          appendTo6Loop ip zeroStart zeroEnd fuel (zeroEnd + 1)
    else
      (if i > 0 then [58] else []) ++ appendHex (v6u16 ip i) ++
        appendTo6Loop ip zeroStart zeroEnd fuel (i + 1)

/-- Go `netip.Addr.appendTo6` for an address without zone: the IPv6 text, the longest run
of zero fields written `::`. -/
def appendTo6 (ip : IP) : GoString :=
  appendTo6Loop ip (zeroRun ip).1 (zeroRun ip).2 8 0

/-- Go `IP.String`: `<nil>` for an empty slice, `?` and the hexadecimal bytes for a length
other than 4 and 16, dotted decimal for an IPv4 address (in 4-byte or in IPv4-mapped form),
the IPv6 text for any other address. -/
def IPString (ip : IP) : GoString :=
  if ip.length = 0 then ascii "<nil>"
  else if ip.length ≠ 4 ∧ ip.length ≠ 16 then 63 :: hexString ip
  else
    let p4 := To4 ip
    if p4.length = 4 then dottedDecimal (p4.getD 0 0) (p4.getD 1 0) (p4.getD 2 0) (p4.getD 3 0)
    else appendTo6 ip

/-- The call `otto.ToValue(s)` for a Go string of ASCII bytes: the script string of the
same characters. -/
def ToValue (s : GoString) : Value :=
  Value.string (String.mk (s.map (fun b => Char.ofNat b.toNat)))

/-- A network interface as `myIpAddress` reads it: the result of its method `Addrs`, each
address given by the text of its method `String`, `none` being the error return. -/
structure Interface where
  Addrs : Option (List GoString)

/-- The surroundings that `myIpAddress` reads: the value of the environment variable
`GOPAC_MYIPADDRESS` when it is set, `net.InterfaceByName` (`none` being its error), and the
result of `net.InterfaceAddrs` (each address given by the text of its method `String`,
`none` being the error return). -/
structure NetEnv where
  LookupEnv : Option GoString
  InterfaceByName : GoString → Option Interface
  InterfaceAddrs : Option (List GoString)

/-- The loop of `myIpAddress` over the addresses of the named interface: the text of the
first address that parses and is neither loopback nor link-local unicast; `none` when the
loop ends without a return. -/
def myIpAddress_named : List GoString → Option Value
  | [] => none
  | addr :: rest =>
    match ParseCIDR addr with
    | none => myIpAddress_named rest
    | some ip =>
      if IsLoopback ip then myIpAddress_named rest
      else if IsLinkLocalUnicast ip then myIpAddress_named rest
      else some (ToValue (IPString ip))

/-- The loop of `myIpAddress` over all interface addresses: `r` is overwritten by the text
of every address that parses and is neither loopback nor link-local unicast. -/
def myIpAddress_all (r : Value) : List GoString → Value
  | [] => r
  | addr :: rest =>
    match ParseCIDR addr with
    | none => myIpAddress_all r rest
    | some ip =>
      if IsLoopback ip then myIpAddress_all r rest
      else if IsLinkLocalUnicast ip then myIpAddress_all r rest
      else myIpAddress_all (ToValue (IPString ip)) rest

/-- The part of `myIpAddress` under `if exists`: the value returned from it, `none` when
control leaves it without a return. -/
def myIpAddress_override (E : NetEnv) (env : GoString) : Option Value :=
  let eip := ParseIP env
  if eip ≠ [] then some (ToValue (IPString eip))
  else
    match E.InterfaceByName env with
    | none => none
    | some i =>
      match i.Addrs with
      | none => none
      | some addrs => myIpAddress_named addrs

/-- `myIpAddress`, in the surroundings `E`. -/
def myIpAddress (E : NetEnv) : Value :=
  let early : Option Value :=
    match E.LookupEnv with
    | none => none
    | some env => myIpAddress_override E env
  match early with
  | some v => v
  | none =>
    match E.InterfaceAddrs with
    | none => Value.undefined
    | some addrs => myIpAddress_all Value.undefined addrs

/-- The interface addresses that qualify, in enumeration order: the addresses of the
entries whose text is an address with a prefix length, less the loopback and the link-local
unicast addresses. -/
def qualifyingAddresses (addrs : List GoString) : List IP :=
  (addrs.filterMap ParseCIDR).filter (fun ip => !IsLoopback ip && !IsLinkLocalUnicast ip)

/-- Surroundings for closed statements: the variable is unset, no interface has a name and
the enumeration of the interface addresses fails. -/
def bareEnv : NetEnv where
  LookupEnv := none
  InterfaceByName := fun _ => none
  InterfaceAddrs := none

end Gopac

namespace Gopac

/-! ## Lemmas on the `strings` functions -/

theorem HasPrefix_single (b c : UInt8) (t : GoString) : HasPrefix (b :: t) [c] = decide (b = c) := by
  simp only [HasPrefix, List.length_cons, List.length_nil, List.take_succ_cons, List.take_zero]
  by_cases h : b = c <;> simp [h]

theorem indexFrom_single_eq_neg_one (c : UInt8) (s : GoString) (i : Nat) :
    indexFrom [c] i s = -1 ↔ c ∉ s := by
  induction s generalizing i with
  | nil => simp [indexFrom]
  | cons b t ih =>
    rw [indexFrom, HasPrefix_single]
    by_cases h : b = c
    · subst h
      simp
    · have h2 : ¬ c = b := fun e => h e.symm
      simp [h, h2, ih]

theorem indexFrom_single_append (c : UInt8) (pre post : GoString) (i : Nat) (h : c ∉ pre) :
    indexFrom [c] i (pre ++ c :: post) = ((i + pre.length : Nat) : Int) := by
  induction pre generalizing i with
  | nil => simp [indexFrom, HasPrefix_single]
  | cons b t ih =>
    have hb : ¬ b = c := fun e => h (by simp [e])
    have ht : c ∉ t := fun e => h (by simp [e])
    rw [List.cons_append, indexFrom, HasPrefix_single]
    simp only [hb, decide_False, Bool.false_eq_true, if_false]
    rw [ih _ ht]
    simp
    omega

theorem CountString_eq_count (s : GoString) (c : UInt8) : CountString s c = s.count c := by
  induction s with
  | nil => simp [CountString]
  | cons b t ih =>
    rw [CountString, ih, List.count_cons]
    by_cases h : b = c
    · simp [h]; omega
    · simp [h]

theorem HasSuffix_iff (s suffix : GoString) :
    HasSuffix s suffix = true ↔ ∃ pre, s = pre ++ suffix := by
  unfold HasSuffix
  simp only [ge_iff_le, Bool.and_eq_true, decide_eq_true_eq, beq_iff_eq]
  constructor
  · rintro ⟨_, h⟩
    refine ⟨s.take (s.length - suffix.length), ?_⟩
    conv_lhs => rw [← List.take_append_drop (s.length - suffix.length) s]
    rw [h]
  · rintro ⟨pre, rfl⟩
    simp

/-! ## Host classifier -/

/-- C5 (evaluation of the code at the failing input): `hostdom` starts with `host` followed
by a dot, yet `localHostOrDomainIs("www", "www.www.example.com")` is false, because
`strings.LastIndex` finds the later instance of `"www."` at index 4. -/
theorem localHostOrDomainIs_repeated_label :
    HasPrefix (ascii "www.www.example.com") (ascii "www" ++ ascii ".") = true ∧
    LastIndex (ascii "www.www.example.com") (ascii "www" ++ ascii ".") = 4 ∧
    localHostOrDomainIs (ascii "www") (ascii "www.www.example.com") = false := by
  decide

/-- C6: `dnsDomainIs(host, domain)` is true exactly when the host is at least as long as
the domain and the domain is a literal suffix of the host; no dot boundary is required, so
`dnsDomainIs("ahost.com", "host.com")` is true, and the longer domain of
`dnsDomainIs("example.com", "www.example.com")` does not match. -/
theorem dnsDomainIs_iff_suffix (host domain : GoString) :
    (dnsDomainIs host domain = true ↔
      domain.length ≤ host.length ∧ ∃ pre, host = pre ++ domain) ∧
    dnsDomainIs (ascii "ahost.com") (ascii "host.com") = true ∧
    dnsDomainIs (ascii "www.example.com") (ascii "example.com") = true ∧
    dnsDomainIs (ascii "example.com") (ascii "www.example.com") = false := by
  refine ⟨?_, by decide, by decide, by decide⟩
  unfold dnsDomainIs
  by_cases h : host.length < domain.length
  · simp only [h, if_true, Bool.false_eq_true, false_iff, not_and]
    intro h2
    omega
  · simp only [h, if_false, HasSuffix_iff]
    constructor
    · intro h2
      exact ⟨by omega, h2⟩
    · exact fun h2 => h2.2

/-- C7: `isPlainHostName(host)` is true exactly when `host` contains no `.` byte. -/
theorem isPlainHostName_iff_no_dot (host : GoString) :
    isPlainHostName host = true ↔ (46 : UInt8) ∉ host := by
  unfold isPlainHostName Index
  have h : ascii "." = [46] := by decide
  rw [h, beq_iff_eq]
  exact indexFrom_single_eq_neg_one 46 host 0

/-- C8: `dnsDomainLevels(host)` is the number of `.` bytes of `host`; it is 2 for `a.b.c`
and 0 for `a`. -/
theorem dnsDomainLevels_eq_count (host : GoString) :
    dnsDomainLevels host = host.count 46 ∧
    dnsDomainLevels (ascii "a.b.c") = 2 ∧ dnsDomainLevels (ascii "a") = 0 := by
  refine ⟨?_, by decide, by decide⟩
  unfold dnsDomainLevels
  have h : ascii "." = [46] := by decide
  rw [h]
  exact CountString_eq_count host 46

end Gopac

namespace Gopac

/-! ## Lemmas on `net.ParseIP` -/

theorem parseIPv4Loop_length (rem : GoString) (i : Nat) (prev : UInt8) (val pos digLen : Nat)
    (fields r : List UInt8) (h : parseIPv4Loop rem i prev val pos digLen fields = some r) :
    r.length = fields.length := by
  induction rem generalizing i prev val pos digLen fields with
  | nil =>
    rw [parseIPv4Loop] at h
    split at h
    · simp at h
    · simp at h
      simp [← h]
  | cons c t ih =>
    rw [parseIPv4Loop] at h
    split at h
    · split at h
      · simp at h
      · dsimp only at h
        split at h
        · simp at h
        · exact ih _ _ _ _ _ _ h
    · split at h
      · split at h
        · simp at h
        · split at h
          · simp at h
          · have := ih _ _ _ _ _ _ h
            simpa using this
      · simp at h

theorem parseIPv4Loop_bytes (rem : GoString) (i : Nat) (prev : UInt8) (val pos digLen : Nat)
    (fields r : List UInt8) (h : parseIPv4Loop rem i prev val pos digLen fields = some r) :
    ∀ c ∈ rem, c ≠ 58 ∧ c ≠ 37 := by
  induction rem generalizing i prev val pos digLen fields with
  | nil => simp
  | cons c t ih =>
    rw [parseIPv4Loop] at h
    intro x hx
    split at h
    · rename_i hd
      split at h
      · simp at h
      · dsimp only at h
        split at h
        · simp at h
        · rcases List.mem_cons.mp hx with rfl | hx
          · constructor
            · rintro rfl
              revert hd
              decide
            · rintro rfl
              revert hd
              decide
          · exact ih _ _ _ _ _ _ h x hx
    · split at h
      · rename_i hdot
        split at h
        · simp at h
        · split at h
          · simp at h
          · rcases List.mem_cons.mp hx with rfl | hx
            · subst hdot
              decide
            · exact ih _ _ _ _ _ _ h x hx
      · simp at h

theorem parseIPv4Loop_dot (rem : GoString) (i : Nat) (prev : UInt8) (val pos digLen : Nat)
    (fields r : List UInt8) (h : parseIPv4Loop rem i prev val pos digLen fields = some r)
    (hpos : pos < 3) : (46 : UInt8) ∈ rem := by
  induction rem generalizing i prev val digLen fields with
  | nil =>
    rw [parseIPv4Loop] at h
    simp [hpos] at h
  | cons c t ih =>
    rw [parseIPv4Loop] at h
    split at h
    · split at h
      · simp at h
      · dsimp only at h
        split at h
        · simp at h
        · exact List.mem_cons_of_mem _ (ih _ _ _ _ _ h)
    · split at h
      · rename_i hdot
        simp [hdot]
      · simp at h

theorem ParseAddrFrom_v4 (s rem : GoString) (hb : ∀ c ∈ rem, c ≠ 58 ∧ c ≠ 37)
    (hd : (46 : UInt8) ∈ rem) : ParseAddrFrom s rem = (parseIPv4 s).map Addr.v4 := by
  induction rem with
  | nil => simp at hd
  | cons c t ih =>
    rw [ParseAddrFrom]
    by_cases h46 : c = 46
    · simp [h46]
    · have h58 : c ≠ 58 := (hb c (by simp)).1
      have h37 : c ≠ 37 := (hb c (by simp)).2
      simp only [h46, h58, h37, if_false]
      apply ih
      · intro x hx
        exact hb x (List.mem_cons_of_mem _ hx)
      · rcases List.mem_cons.mp hd with e | e
        · exact absurd e.symm h46
        · exact e

/-- A string that `parseIPv4` accepts is not empty, yields four octets, and `net.ParseIP`
returns their IPv4-mapped form. -/
theorem ParseIP_of_parseIPv4 (s : GoString) (r : List UInt8) (h : parseIPv4 s = some r) :
    s ≠ [] ∧ r.length = 4 ∧ ParseIP s = v4InV6Prefix ++ r := by
  have hlen : r.length = 4 := by
    have := parseIPv4Loop_length s 0 0 0 0 0 [0, 0, 0, 0] r h
    simpa using this
  have hb := parseIPv4Loop_bytes s 0 0 0 0 0 [0, 0, 0, 0] r h
  have hd := parseIPv4Loop_dot s 0 0 0 0 0 [0, 0, 0, 0] r h (by decide)
  refine ⟨?_, hlen, ?_⟩
  · rintro rfl
    simp at hd
  · unfold ParseIP ParseAddr
    rw [ParseAddrFrom_v4 s s hb hd, h]
    rfl

theorem toNat_digit (d : Nat) (h : d < 10) : (UInt8.ofNat (48 + d)).toNat = 48 + d := by
  show (48 + d) % 256 = 48 + d
  omega

theorem digit_ne_dot (d : Nat) (h : d < 10) : UInt8.ofNat (48 + d) ≠ 46 := by
  intro e
  have := congrArg UInt8.toNat e
  rw [toNat_digit d h] at this
  revert this
  show ¬ (48 + d = 46)
  omega

theorem parseIPv4Loop_digit (d : Nat) (hd : d < 10) (t : GoString) (i : Nat) (prev : UInt8)
    (val pos digLen : Nat) (fields : List UInt8) (hz : ¬ (digLen = 1 ∧ val = 0))
    (hv : val * 10 + d ≤ 255) :
    parseIPv4Loop (UInt8.ofNat (48 + d) :: t) i prev val pos digLen fields =
      parseIPv4Loop t (i + 1) (UInt8.ofNat (48 + d)) (val * 10 + d) pos (digLen + 1) fields := by
  rw [parseIPv4Loop, toNat_digit d hd]
  have h1 : 48 ≤ 48 + d ∧ 48 + d ≤ 57 := by omega
  have h2 : val * 10 + (48 + d) - 48 = val * 10 + d := by omega
  have h3 : ¬ (val * 10 + d > 255) := by omega
  simp only [h1, hz, h2, h3, if_true, if_false, and_self]

/-- Reading the numeral of an octet from the start of a field leaves the loop after it with
the octet as value, at a positive index and after a byte that is no dot. -/
theorem parseIPv4Loop_octet (a : UInt8) (rest : GoString) (i : Nat) (prev : UInt8) (pos : Nat)
    (fields : List UInt8) :
    ∃ i1 prev1 digLen1, 0 < i1 ∧ prev1 ≠ 46 ∧
      parseIPv4Loop (decimalOctet a ++ rest) i prev 0 pos 0 fields =
        parseIPv4Loop rest i1 prev1 a.toNat pos digLen1 fields := by
  have ha : a.toNat < 256 := UInt8.toNat_lt_size a
  unfold decimalOctet
  by_cases h10 : a.toNat < 10
  · refine ⟨i + 1, UInt8.ofNat (48 + a.toNat), 1, by omega, digit_ne_dot _ h10, ?_⟩
    simp only [h10, if_true, List.singleton_append]
    rw [parseIPv4Loop_digit _ h10 _ _ _ _ _ _ _ (by omega) (by omega)]
    simp
  · by_cases h100 : a.toNat < 100
    · refine ⟨i + 1 + 1, UInt8.ofNat (48 + a.toNat % 10), 2, by omega,
        digit_ne_dot _ (by omega), ?_⟩
      simp only [h10, h100, if_true, if_false, List.cons_append, List.nil_append]
      rw [parseIPv4Loop_digit _ (by omega) _ _ _ _ _ _ _ (by omega) (by omega),
        parseIPv4Loop_digit _ (by omega) _ _ _ _ _ _ _ (by omega) (by omega)]
      have e : (0 * 10 + a.toNat / 10) * 10 + a.toNat % 10 = a.toNat := by omega
      rw [e]
    · refine ⟨i + 1 + 1 + 1, UInt8.ofNat (48 + a.toNat % 10), 3, by omega,
        digit_ne_dot _ (by omega), ?_⟩
      simp only [h10, h100, if_false, List.cons_append, List.nil_append]
      rw [parseIPv4Loop_digit _ (by omega) _ _ _ _ _ _ _ (by omega) (by omega),
        parseIPv4Loop_digit _ (by omega) _ _ _ _ _ _ _ (by omega) (by omega),
        parseIPv4Loop_digit _ (by omega) _ _ _ _ _ _ _ (by omega) (by omega)]
      have e : ((0 * 10 + a.toNat / 100) * 10 + a.toNat / 10 % 10) * 10 + a.toNat % 10
          = a.toNat := by omega
      rw [e]

theorem decimalOctet_ne_nil (a : UInt8) : decimalOctet a ≠ [] := by
  unfold decimalOctet
  dsimp only
  split
  · simp
  · split <;> simp

theorem ofNat_toNat (a : UInt8) : UInt8.ofNat a.toNat = a := by
  apply UInt8.ext_iff.mpr
  show a.toNat % 256 = a.toNat
  exact Nat.mod_eq_of_lt (UInt8.toNat_lt_size a)

theorem parseIPv4Loop_dot_step (t : GoString) (i : Nat) (prev : UInt8) (val pos digLen : Nat)
    (fields : List UInt8) (hi : 0 < i) (ht : t ≠ []) (hp : prev ≠ 46) (hpos : pos < 3) :
    parseIPv4Loop (46 :: t) i prev val pos digLen fields =
      parseIPv4Loop t (i + 1) 46 0 (pos + 1) 0 (fields.set pos (UInt8.ofNat val)) := by
  rw [parseIPv4Loop]
  have h1 : ¬ (48 ≤ (46 : UInt8).toNat ∧ (46 : UInt8).toNat ≤ 57) := by decide
  have h2 : ¬ (i = 0 ∨ t = [] ∨ prev = 46) := by
    rintro (h | h | h)
    · omega
    · exact ht h
    · exact hp h
  have h3 : ¬ pos = 3 := by omega
  simp only [h1, h2, h3, if_false, if_true]

/-- The IPv4 parser accepts the dotted-decimal literal of any four octets and yields
them. -/
theorem parseIPv4_dottedDecimal (a b c d : UInt8) :
    parseIPv4 (dottedDecimal a b c d) = some [a, b, c, d] := by
  unfold parseIPv4 parseIPv4Fields dottedDecimal
  obtain ⟨i1, q1, k1, hi1, hq1, e1⟩ := parseIPv4Loop_octet a
    (46 :: (decimalOctet b ++ 46 :: (decimalOctet c ++ 46 :: decimalOctet d))) 0 0 0 [0, 0, 0, 0]
  rw [e1, parseIPv4Loop_dot_step _ _ _ _ _ _ _ hi1 (by simp [decimalOctet_ne_nil]) hq1 (by decide)]
  obtain ⟨i2, q2, k2, hi2, hq2, e2⟩ := parseIPv4Loop_octet b
    (46 :: (decimalOctet c ++ 46 :: decimalOctet d)) (i1 + 1) 46 (0 + 1)
    (([0, 0, 0, 0] : List UInt8).set 0 (UInt8.ofNat a.toNat))
  rw [e2, parseIPv4Loop_dot_step _ _ _ _ _ _ _ hi2 (by simp [decimalOctet_ne_nil]) hq2 (by decide)]
  obtain ⟨i3, q3, k3, hi3, hq3, e3⟩ := parseIPv4Loop_octet c
    (46 :: decimalOctet d) (i2 + 1) 46 (0 + 1 + 1)
    ((([0, 0, 0, 0] : List UInt8).set 0 (UInt8.ofNat a.toNat)).set (0 + 1) (UInt8.ofNat b.toNat))
  rw [e3, parseIPv4Loop_dot_step _ _ _ _ _ _ _ hi3 (decimalOctet_ne_nil d) hq3 (by decide)]
  obtain ⟨i4, q4, k4, -, -, e4⟩ := parseIPv4Loop_octet d [] (i3 + 1) 46 (0 + 1 + 1 + 1)
    (((([0, 0, 0, 0] : List UInt8).set 0 (UInt8.ofNat a.toNat)).set (0 + 1)
      (UInt8.ofNat b.toNat)).set (0 + 1 + 1) (UInt8.ofNat c.toNat))
  rw [List.append_nil] at e4
  rw [e4, parseIPv4Loop]
  simp [ofNat_toNat]

/-! ## Net matcher -/

/-- C1: when `host`, `pattern` and `mask` are dotted-decimal IPv4 literals (strings that
the IPv4 parser accepts, with octets `h`, `p`, `m`), `isInNet(host, pattern, mask)` is true
exactly when `h[i] AND m[i] = p[i]` for each of the four octets, whatever the resolver. -/
theorem isInNet_literals (R : GoString → Option IP) (host pattern mask : GoString)
    (h0 h1 h2 h3 p0 p1 p2 p3 m0 m1 m2 m3 : UInt8)
    (hh : parseIPv4 host = some [h0, h1, h2, h3])
    (hp : parseIPv4 pattern = some [p0, p1, p2, p3])
    (hm : parseIPv4 mask = some [m0, m1, m2, m3]) :
    isInNet R host pattern mask = true ↔
      h0 &&& m0 = p0 ∧ h1 &&& m1 = p1 ∧ h2 &&& m2 = p2 ∧ h3 &&& m3 = p3 := by
  obtain ⟨hne, -, hH⟩ := ParseIP_of_parseIPv4 host _ hh
  obtain ⟨-, -, hP⟩ := ParseIP_of_parseIPv4 pattern _ hp
  obtain ⟨-, -, hM⟩ := ParseIP_of_parseIPv4 mask _ hm
  have hlen : host.length ≠ 0 := by
    intro e
    exact hne (List.length_eq_zero.mp e)
  have hres : resolve R host = some [h0, h1, h2, h3] := by
    unfold resolve
    rw [hH]
    rfl
  have hto4 : To4 (v4InV6Prefix ++ [m0, m1, m2, m3]) = [m0, m1, m2, m3] := rfl
  unfold isInNet
  simp only [hlen, if_false, hres, hM, hP, hto4]
  simp [v4InV6Prefix, IPv4Mask, Mask, Equal, allFF, List.range_succ]

/-- C1, instances: `isInNet("192.168.1.5", "192.168.1.0", "255.255.255.0")` is true and
`isInNet("192.168.2.5", "192.168.1.0", "255.255.255.0")` is false. -/
theorem isInNet_literals_witness :
    isInNet (fun _ => none) (ascii "192.168.1.5") (ascii "192.168.1.0")
        (ascii "255.255.255.0") = true ∧
    isInNet (fun _ => none) (ascii "192.168.2.5") (ascii "192.168.1.0")
        (ascii "255.255.255.0") = false := by
  constructor
  · exact (isInNet_literals (fun _ => none) _ _ _ 192 168 1 5 192 168 1 0 255 255 255 0
      (by decide) (by decide) (by decide)).mpr (by decide)
  · have h := isInNet_literals (fun _ => none) (ascii "192.168.2.5") (ascii "192.168.1.0")
      (ascii "255.255.255.0") 192 168 2 5 192 168 1 0 255 255 255 0
      (by decide) (by decide) (by decide)
    cases hb : isInNet (fun _ => none) (ascii "192.168.2.5") (ascii "192.168.1.0")
      (ascii "255.255.255.0") with
    | false => rfl
    | true => exact absurd (h.mp hb) (by decide)

/-- C2 (evaluation of the code at the failing input): the pattern `x` does not parse as an
IP address, `resolve("::1")` returns a nil address without an error, and
`isInNet("::1", "x", "255.255.255.0")` is true for every resolver: the masked nil address
and the nil pattern are equal slices. -/
theorem isInNet_ipv6_host_bad_pattern (R : GoString → Option IP) :
    ParseIP (ascii "x") = [] ∧ resolve R (ascii "::1") = some [] ∧
    isInNet R (ascii "::1") (ascii "x") (ascii "255.255.255.0") = true := by
  refine ⟨by decide, rfl, rfl⟩

/-! ## Lemmas on `strings.Replace` -/

theorem exists_first_occurrence (c : UInt8) (s : GoString) (h : c ∈ s) :
    ∃ pre post, s = pre ++ c :: post ∧ c ∉ pre := by
  induction s with
  | nil => simp at h
  | cons b t ih =>
    by_cases hb : b = c
    · exact ⟨[], t, by simp [hb], by simp⟩
    · have ht : c ∈ t := by
        rcases List.mem_cons.mp h with e | e
        · exact absurd e.symm hb
        · exact e
      obtain ⟨pre, post, e, hn⟩ := ih ht
      refine ⟨b :: pre, post, by simp [e], ?_⟩
      intro hm
      rcases List.mem_cons.mp hm with e2 | e2
      · exact hb e2.symm
      · exact hn e2

theorem flatMap_replace_of_not_mem (c : UInt8) (new s : GoString) (h : c ∉ s) :
    s.flatMap (fun b => if b = c then new else [b]) = s := by
  induction s with
  | nil => rfl
  | cons b t ih =>
    have hb : ¬ b = c := fun e => h (by simp [e])
    have ht : c ∉ t := fun e => h (by simp [e])
    simp [List.flatMap_cons, hb, ih ht]

theorem replaceLoop_single (c : UInt8) (new : GoString) (n : Nat) (s : GoString) (i : Nat)
    (h : s.count c = n) :
    replaceLoop [c] new n i s = s.flatMap (fun b => if b = c then new else [b]) := by
  induction n generalizing s i with
  | zero =>
    rw [replaceLoop, flatMap_replace_of_not_mem c new s (List.count_eq_zero.mp h)]
  | succ n ih =>
    have hmem : c ∈ s := by
      apply List.count_pos_iff.mp
      omega
    obtain ⟨pre, post, rfl, hpre⟩ := exists_first_occurrence c s hmem
    have hidx : Index (pre ++ c :: post) [c] = (pre.length : Int) := by
      unfold Index
      rw [indexFrom_single_append c pre post 0 hpre]
      simp
    have hcount : post.count c = n := by
      rw [List.count_append, List.count_cons_self, List.count_eq_zero.mpr hpre] at h
      omega
    rw [replaceLoop]
    simp only [List.length_singleton, one_ne_zero, if_false, hidx, Int.toNat_ofNat]
    have hdrop : List.drop (pre.length + 1) (pre ++ c :: post) = post := by
      simp
    have htake : List.take pre.length (pre ++ c :: post) = pre := by
      simp
    rw [hdrop, htake, ih post (i + 1) hcount]
    simp [List.flatMap_append, List.flatMap_cons, flatMap_replace_of_not_mem c new pre hpre]

theorem Replace_single (s : GoString) (c : UInt8) (new : GoString) (h : [c] ≠ new) :
    Replace s [c] new (-1) = s.flatMap (fun b => if b = c then new else [b]) := by
  unfold Replace
  have h1 : ¬ ([c] = new ∨ (-1 : Int) = 0) := by
    rintro (e | e)
    · exact h e
    · omega
  simp only [h1, if_false, Count, CountString_eq_count]
  by_cases hm : s.count c = 0
  · simp only [hm, if_true]
    exact (flatMap_replace_of_not_mem c new s (List.count_eq_zero.mp hm)).symm
  · simp only [hm, if_false]
    have h2 : ((-1 : Int) < 0 ∨ ((s.count c : Nat) : Int) < -1) := Or.inl (by omega)
    simp only [h2, if_true]
    exact replaceLoop_single c new _ s 0 rfl

/-- The three replacements of `shExpMatch` act on each byte of the glob by `shExpByte`. -/
theorem shExp_translation (shexp : GoString) :
    Replace (Replace (Replace shexp (ascii ".") (ascii "\\.") (-1)) (ascii "?") (ascii ".?") (-1))
      (ascii "*") (ascii ".*") (-1) = shexp.flatMap shExpByte := by
  have e1 : ascii "." = [46] := by decide
  have e2 : ascii "\\." = [92, 46] := by decide
  have e3 : ascii "?" = [63] := by decide
  have e4 : ascii ".?" = [46, 63] := by decide
  have e5 : ascii "*" = [42] := by decide
  have e6 : ascii ".*" = [46, 42] := by decide
  rw [e1, e2, e3, e4, e5, e6, Replace_single _ 46 _ (by decide), Replace_single _ 63 _ (by decide),
    Replace_single _ 42 _ (by decide), List.flatMap_assoc, List.flatMap_assoc]
  congr 1
  funext g
  unfold shExpByte
  by_cases h46 : g = 46
  · subst h46
    decide
  · by_cases h63 : g = 63
    · subst h63
      decide
    · by_cases h42 : g = 42
      · subst h42
        decide
      · simp [h46, h63, h42]

/-! ## Lemmas on the regexp fragment -/

set_option maxRecDepth 100000 in
theorem first_cases_aux : ∀ n, n < 256 →
    (n < 128 ∧ first n = 0xF0) ∨ (128 ≤ n ∧ first n = 0xF1) ∨
    (194 ≤ n ∧ n < 224 ∧ first n = 0x02) ∨ (n = 224 ∧ first n = 0x13) ∨
    (225 ≤ n ∧ n < 240 ∧ first n = 0x03) ∨ (n = 237 ∧ first n = 0x23) ∨
    (n = 240 ∧ first n = 0x34) ∨ (241 ≤ n ∧ n < 244 ∧ first n = 0x04) ∨
    (n = 244 ∧ first n = 0x44) := by
  decide

/-- A rune below 128 is decoded from an ASCII byte only. -/
theorem DecodeRuneInString_fst_lt (b0 : UInt8) (rest : GoString)
    (h : (DecodeRuneInString (b0 :: rest)).1 < 128) :
    (DecodeRuneInString (b0 :: rest)).1 = b0.toNat := by
  unfold DecodeRuneInString at h ⊢
  dsimp only at h ⊢
  have hb : b0.toNat < 256 := UInt8.toNat_lt_size b0
  rcases first_cases_aux b0.toNat hb with ⟨h1, e⟩ | ⟨h1, e⟩ | ⟨h1, h2, e⟩ | ⟨h1, e⟩ | ⟨h1, h2, e⟩ |
    ⟨h1, e⟩ | ⟨h1, e⟩ | ⟨h1, h2, e⟩ | ⟨h1, e⟩ <;>
  · rw [e] at h ⊢
    simp [acceptRanges, RuneError] at h ⊢
    all_goals (split_ifs at h <;> first | (simp at h; done) | (exfalso; dsimp only [Rune] at h; omega))

theorem newline_of_decodeRunesFuel (fuel : Nat) (s : GoString)
    (h : (10 : Rune) ∈ decodeRunesFuel fuel s) : (10 : UInt8) ∈ s := by
  induction fuel generalizing s with
  | zero => simp [decodeRunesFuel] at h
  | succ fuel ih =>
    cases s with
    | nil => simp [decodeRunesFuel] at h
    | cons b0 rest =>
      rw [decodeRunesFuel] at h
      rcases List.mem_cons.mp h with e | e
      · have hlt : (DecodeRuneInString (b0 :: rest)).1 < 128 := by
          rw [← e]
          decide
        have e2 := DecodeRuneInString_fst_lt b0 rest hlt
        have e3 : b0 = 10 := by
          apply UInt8.ext_iff.mpr
          rw [← e2, ← e]
          rfl
        simp [e3]
      · exact List.mem_of_mem_drop (ih _ e)

/-- A string without a newline byte has no newline rune. -/
theorem newline_not_mem_decodeRunes (s : GoString) (h : (10 : UInt8) ∉ s) :
    (10 : Rune) ∉ decodeRunes s :=
  fun hm => h (newline_of_decodeRunesFuel _ s hm)

set_option maxRecDepth 100000 in
theorem letterOrDigit_facts_aux : ∀ n, n < 256 → isLetterOrDigit (UInt8.ofNat n) = true →
    UInt8.ofNat n ≠ 92 ∧ UInt8.ofNat n ≠ 46 ∧ UInt8.ofNat n ≠ 63 ∧ UInt8.ofNat n ≠ 42 ∧
    isMeta (UInt8.ofNat n) = false ∧ (UInt8.ofNat n).toNat < 128 ∧
    repOf (UInt8.ofNat n) = none := by
  decide

theorem letterOrDigit_facts (c : UInt8) (h : isLetterOrDigit c = true) :
    c ≠ 92 ∧ c ≠ 46 ∧ c ≠ 63 ∧ c ≠ 42 ∧ isMeta c = false ∧ c.toNat < 128 ∧ repOf c = none := by
  have := letterOrDigit_facts_aux c.toNat (UInt8.toNat_lt_size c)
  rw [ofNat_toNat] at this
  exact this h

theorem parseRep_translation (gs : GoString) (hg : ∀ g ∈ gs, IsGlobByte g) :
    parseRep (gs.flatMap shExpByte) = some (Rep.one, gs.flatMap shExpByte) ∧
    ∀ r c, repOf c = some r →
      parseRep (c :: gs.flatMap shExpByte) = some (r, gs.flatMap shExpByte) := by
  cases gs with
  | nil =>
    refine ⟨rfl, ?_⟩
    intro r c hc
    simp [parseRep, hc]
  | cons g t =>
    have hhead : ∃ d rest, (g :: t).flatMap shExpByte = d :: rest ∧ repOf d = none := by
      rcases hg g (by simp) with h | h | h | h
      · obtain ⟨-, h46, h63, h42, -, -, hr⟩ := letterOrDigit_facts g h
        exact ⟨g, t.flatMap shExpByte, by simp [List.flatMap_cons, shExpByte, h46, h63, h42], hr⟩
      · subst h
        exact ⟨92, 46 :: t.flatMap shExpByte, by simp [List.flatMap_cons, shExpByte], by decide⟩
      · subst h
        exact ⟨46, 42 :: t.flatMap shExpByte, by simp [List.flatMap_cons, shExpByte], by decide⟩
      · subst h
        exact ⟨46, 63 :: t.flatMap shExpByte, by simp [List.flatMap_cons, shExpByte], by decide⟩
    obtain ⟨d, rest, e, hd⟩ := hhead
    rw [e]
    refine ⟨by simp [parseRep, hd], ?_⟩
    intro r c hc
    simp [parseRep, hc, hd]

theorem parsePieces_translation (gs : GoString) (hg : ∀ g ∈ gs, IsGlobByte g) (fuel : Nat)
    (hf : gs.length ≤ fuel) :
    parsePieces fuel (gs.flatMap shExpByte) = some (gs.map shExpPiece) := by
  induction gs generalizing fuel with
  | nil => cases fuel <;> simp [parsePieces]
  | cons g t ih =>
    cases fuel with
    | zero => simp at hf
    | succ fuel =>
      have ht : ∀ x ∈ t, IsGlobByte x := fun x hx => hg x (List.mem_cons_of_mem _ hx)
      have hrec := ih ht fuel (by simpa using hf)
      obtain ⟨hone, hrep⟩ := parseRep_translation t ht
      rw [parsePieces]
      rcases hg g (by simp) with h | h | h | h
      · obtain ⟨h92, h46, h63, h42, hmeta, hlt, -⟩ := letterOrDigit_facts g h
        have hnot : ¬ (isMeta g = true ∨ g.toNat ≥ 128) := by
          rintro (e | e)
          · rw [hmeta] at e
            exact Bool.false_ne_true e
          · omega
        simp [List.flatMap_cons, shExpByte, shExpPiece, parseAtom, h92, h46, h63, h42, hnot,
          hone, hrec]
      · subst h
        have e46 : shExpPiece 46 = Piece.mk (Atom.lit 46) Rep.one := by decide
        simp [List.flatMap_cons, shExpByte, e46, parseAtom, hone, hrec]
      · subst h
        simp [List.flatMap_cons, shExpByte, shExpPiece, parseAtom, hrep Rep.star 42 (by decide),
          hrec]
      · subst h
        simp [List.flatMap_cons, shExpByte, shExpPiece, parseAtom, hrep Rep.quest 63 (by decide),
          hrec]

theorem length_le_translation (gs : GoString) : gs.length ≤ (gs.flatMap shExpByte).length := by
  induction gs with
  | nil => simp
  | cons g t ih =>
    have h1 : 1 ≤ (shExpByte g).length := by
      unfold shExpByte
      split_ifs <;> simp
    simp only [List.flatMap_cons, List.length_append, List.length_cons]
    omega

/-- A glob of letters, digits, `.`, `*` and `?` compiles, byte by byte, to `shExpPiece`. -/
theorem compileFragment_translation (gs : GoString) (hg : ∀ g ∈ gs, IsGlobByte g) :
    compileFragment (ascii "^" ++ gs.flatMap shExpByte ++ ascii "$") =
      some (gs.map shExpPiece) := by
  have e1 : ascii "^" = [94] := by decide
  have e2 : ascii "$" = [36] := by decide
  rw [e1, e2]
  simp only [List.singleton_append, List.cons_append, List.nil_append, compileFragment]
  have h1 : (gs.flatMap shExpByte ++ [36]).getLast? = some 36 := by simp
  have h2 : (gs.flatMap shExpByte ++ [36]).dropLast = gs.flatMap shExpByte := by simp
  rw [h1, h2, if_pos ⟨trivial, rfl⟩]
  apply parsePieces_translation gs hg
  have := length_le_translation gs
  simp only [List.length_append, List.length_singleton]
  omega

theorem matchStar_any (k : List Rune → Bool) (text : List Rune) (h : (10 : Rune) ∉ text) :
    matchStar Atom.anyNotNL k text = true ↔ ∃ run rest, text = run ++ rest ∧ k rest = true := by
  induction text with
  | nil =>
    simp only [matchStar]
    constructor
    · intro hk
      exact ⟨[], [], rfl, hk⟩
    · rintro ⟨run, rest, e, hk⟩
      have : rest = [] := (List.append_eq_nil.mp e.symm).2
      rw [this] at hk
      exact hk
  | cons c t ih =>
    have hc : c ≠ 10 := fun e => h (by simp [e])
    have ht : (10 : Rune) ∉ t := fun e => h (by simp [e])
    simp only [matchStar, Bool.or_eq_true, Bool.and_eq_true, ih ht]
    constructor
    · rintro (hk | ⟨-, run, rest, e, hk⟩)
      · exact ⟨[], c :: t, rfl, hk⟩
      · exact ⟨c :: run, rest, by simp [e], hk⟩
    · rintro ⟨run, rest, e, hk⟩
      cases run with
      | nil =>
        left
        rw [List.nil_append] at e
        rw [e]
        exact hk
      | cons r run =>
        right
        rw [List.cons_append] at e
        injection e with e1 e2
        exact ⟨by simp [Atom.accepts, hc], run, rest, e2, hk⟩

/-- On a text without newline, the pieces of a glob without `?` match exactly when the glob
matches under the reference semantics. -/
theorem matchPieces_iff_ref (gs : GoString)
    (hg : ∀ g ∈ gs, isLetterOrDigit g = true ∨ g = 46 ∨ g = 42) (text : List Rune)
    (h : (10 : Rune) ∉ text) :
    matchPieces (gs.map shExpPiece) text = true ↔ GlobMatchesRef gs text := by
  induction gs generalizing text with
  | nil =>
    cases text <;> simp [matchPieces, GlobMatchesRef]
  | cons g t ih =>
    have ht : ∀ x ∈ t, isLetterOrDigit x = true ∨ x = 46 ∨ x = 42 :=
      fun x hx => hg x (List.mem_cons_of_mem _ hx)
    have hlit : g ≠ 63 ∧ g ≠ 42 → (matchPieces ((g :: t).map shExpPiece) text = true ↔
        GlobMatchesRef (g :: t) text) := by
      rintro ⟨h63, h42⟩
      simp only [List.map_cons, shExpPiece, h63, h42, if_false, matchPieces, GlobMatchesRef]
      cases text with
      | nil => simp
      | cons c u =>
        have hu : (10 : Rune) ∉ u := fun e => h (by simp [e])
        simp only [Atom.accepts, Bool.and_eq_true, beq_iff_eq, ih ht u hu]
        constructor
        · rintro ⟨e, hm⟩
          exact ⟨u, by rw [e], hm⟩
        · rintro ⟨rest, e, hm⟩
          injection e with e1 e2
          rw [e2]
          exact ⟨e1, hm⟩
    rcases hg g (by simp) with hl | hl | hl
    · obtain ⟨-, -, h63, h42, -, -, -⟩ := letterOrDigit_facts g hl
      exact hlit ⟨h63, h42⟩
    · subst hl
      exact hlit ⟨by decide, by decide⟩
    · subst hl
      have e : shExpPiece 42 = Piece.mk Atom.anyNotNL Rep.star := by decide
      simp only [List.map_cons, e, matchPieces, GlobMatchesRef, if_true]
      rw [matchStar_any _ text h]
      constructor
      · rintro ⟨run, rest, e, hm⟩
        have hrest : (10 : Rune) ∉ rest := fun hx => h (by rw [e]; simp [hx])
        exact ⟨run, rest, e, (ih ht rest hrest).mp hm⟩
      · rintro ⟨run, rest, e, hm⟩
        have hrest : (10 : Rune) ∉ rest := fun hx => h (by rw [e]; simp [hx])
        exact ⟨run, rest, e, (ih ht rest hrest).mpr hm⟩

/-! ## Glob matcher -/

/-- C3 (evaluation of the code at the failing input): `shExpMatch("ac", "a?c")` is true
although the string is shorter than the glob, and so is `shExpMatch("", "?")`: the glob's
`?` is rewritten to `.?`, which also matches no character at all. -/
theorem shExpMatch_question_matches_empty (other : GoString → GoString → Bool × Bool) :
    shExpMatch other (ascii "ac") (ascii "a?c") = true ∧
    shExpMatch other (ascii "") (ascii "?") = true ∧
    (ascii "ac").length ≠ (ascii "a?c").length := by
  refine ⟨rfl, rfl, by decide⟩

/-- C4 (the claim as stated fails): the string made of a newline matches the glob `*` under
the reference semantics, and `shExpMatch("\n", "*")` is false, the `.` of the regular
expression `^.*$` not matching a newline. -/
theorem shExpMatch_star_newline :
    GlobMatchesRef (ascii "*") (decodeRunes (ascii "\n")) ∧
    shExpMatch (fun _ _ => (false, true)) (ascii "\n") (ascii "*") = false := by
  refine ⟨?_, by decide⟩
  have e1 : ascii "*" = [42] := by decide
  have e2 : decodeRunes (ascii "\n") = [10] := by decide
  rw [e1, e2]
  simp only [GlobMatchesRef, if_true]
  exact ⟨[10], [], rfl, rfl⟩

/-- C4 (amended): for a string without a newline byte and a glob made only of letters,
digits, `.` and `*`, `shExpMatch(str, glob)` is true exactly when the whole of `str` (its
sequence of runes) matches the glob under the reference semantics, in which `*` stands for
any, possibly empty, run of characters and every other byte stands for itself. -/
theorem shExpMatch_iff_ref (other : GoString → GoString → Bool × Bool) (str glob : GoString)
    (hg : ∀ g ∈ glob, isLetterOrDigit g = true ∨ g = 46 ∨ g = 42)
    (hs : (10 : UInt8) ∉ str) :
    shExpMatch other str glob = true ↔ GlobMatchesRef glob (decodeRunes str) := by
  have hg2 : ∀ g ∈ glob, IsGlobByte g := by
    intro g hm
    rcases hg g hm with h | h | h
    · exact Or.inl h
    · exact Or.inr (Or.inl h)
    · exact Or.inr (Or.inr (Or.inl h))
  unfold shExpMatch
  simp only [shExp_translation, MatchString, compileFragment_translation glob hg2]
  rw [← matchPieces_iff_ref glob hg _ (newline_not_mem_decodeRunes str hs)]
  simp

/-- C4, instances: `shExpMatch("www.example.com", "*.example.com")` is true and
`shExpMatch("example.com", "*.example.com")` is false, and so says the reference
semantics. -/
theorem shExpMatch_iff_ref_witness :
    (shExpMatch (fun _ _ => (false, true)) (ascii "www.example.com") (ascii "*.example.com") = true ↔
      GlobMatchesRef (ascii "*.example.com") (decodeRunes (ascii "www.example.com"))) ∧
    shExpMatch (fun _ _ => (false, true)) (ascii "www.example.com") (ascii "*.example.com") = true ∧
    (shExpMatch (fun _ _ => (false, true)) (ascii "example.com") (ascii "*.example.com") = true ↔
      GlobMatchesRef (ascii "*.example.com") (decodeRunes (ascii "example.com"))) ∧
    shExpMatch (fun _ _ => (false, true)) (ascii "example.com") (ascii "*.example.com") = false :=
  ⟨shExpMatch_iff_ref _ _ _ (by decide) (by decide), by decide,
    shExpMatch_iff_ref _ _ _ (by decide) (by decide), by decide⟩

/-! ## `timeRange` -/

theorem looseEq_number_GMT (H : Host) (x : Number) :
    looseEq H (Value.number x) (Value.string "GMT") = false := by
  simp only [looseEq, H.gmtNaN]
  cases x <;> rfl

theorem looseEq_GMT_GMT (H : Host) :
    looseEq H (Value.string "GMT") (Value.string "GMT") = true := by
  simp [looseEq]

/-- C9 (the claim as stated fails): a call without arguments has an argument count of 0,
which is none of 1, 2, 4 and 6, and returns false instead of throwing. -/
theorem timeRange_no_arguments :
    argCount utcHost [] = 0 ∧ timeRange utcHost 0 0 0 [] = Completion.normal false := by
  decide

/-- C9 (amended): a call without arguments returns false; a call with at least one argument
whose count, after removing a trailing `"GMT"`, is none of 1, 2, 4 and 6 throws
`timeRange: bad number of arguments`; a call whose count is 1, 2, 4 or 6 returns normally. -/
theorem timeRange_argument_count (H : Host) (now now1 now2 : Int) (arguments : List Value) :
    (arguments = [] → timeRange H now now1 now2 arguments = Completion.normal false) ∧
    (arguments ≠ [] → argCount H arguments ∉ [1, 2, 4, 6] →
      timeRange H now now1 now2 arguments =
        Completion.throw "timeRange: bad number of arguments") ∧
    (argCount H arguments ∈ [1, 2, 4, 6] →
      ∃ b, timeRange H now now1 now2 arguments = Completion.normal b) := by
  refine ⟨?_, ?_, ?_⟩
  · rintro rfl
    simp [timeRange]
  · intro hne hc
    have hlen2 : arguments.length ≥ 1 := List.length_pos.mpr hne
    have hlen : ¬ arguments.length < 1 := by omega
    unfold argCount at hc
    unfold timeRange
    simp only [hlen, if_false]
    simp only [hlen2, true_and, List.mem_cons, List.mem_singleton, List.not_mem_nil, or_false,
      not_or] at hc
    cases hg : looseEq H (argAt arguments (arguments.length - 1)) (Value.string "GMT") with
    | true =>
      simp only [hg, if_true] at hc ⊢
      obtain ⟨h1, h2, h4, h6⟩ := hc
      simp [h1, h2, h4, h6]
    | false =>
      simp only [hg, Bool.false_eq_true, if_false] at hc ⊢
      obtain ⟨h1, h2, h4, h6⟩ := hc
      simp [h1, h2, h4, h6]
  · intro hc
    unfold argCount at hc
    unfold timeRange
    by_cases hlen : arguments.length < 1
    · exact ⟨false, by simp [hlen]⟩
    · have hlen2 : arguments.length ≥ 1 := by omega
      simp only [hlen, if_false]
      simp only [hlen2, true_and, List.mem_cons, List.mem_singleton, List.not_mem_nil,
        or_false] at hc
      cases hg : looseEq H (argAt arguments (arguments.length - 1)) (Value.string "GMT") with
      | true =>
        simp only [hg, if_true] at hc ⊢
        by_cases c1 : arguments.length - 1 = 1
        · rw [if_pos c1]
          exact ⟨_, rfl⟩
        · rw [if_neg c1]
          by_cases c2 : arguments.length - 1 = 2
          · rw [if_pos c2]
            exact ⟨_, rfl⟩
          · rw [if_neg c2]
            by_cases c3 : arguments.length - 1 = 6 ∨ arguments.length - 1 = 4
            · rw [if_pos c3]
              exact ⟨_, rfl⟩
            · exfalso
              omega
      | false =>
        simp only [hg, Bool.false_eq_true, if_false] at hc ⊢
        by_cases c1 : arguments.length = 1
        · rw [if_pos c1]
          exact ⟨_, rfl⟩
        · rw [if_neg c1]
          by_cases c2 : arguments.length = 2
          · rw [if_pos c2]
            exact ⟨_, rfl⟩
          · rw [if_neg c2]
            by_cases c3 : arguments.length = 6 ∨ arguments.length = 4
            · rw [if_pos c3]
              exact ⟨_, rfl⟩
            · exfalso
              omega

/-- C9, instances: calls with 3 and with 5 arguments throw, a call with only `"GMT"` throws,
calls with 1, 2, 4 and 6 arguments return normally. -/
theorem timeRange_argument_count_witness :
    timeRange utcHost 0 0 0 [Value.number (Number.fin 1), Value.number (Number.fin 2),
        Value.number (Number.fin 3)] = Completion.throw "timeRange: bad number of arguments" ∧
    timeRange utcHost 0 0 0 [Value.number (Number.fin 1), Value.number (Number.fin 2),
        Value.number (Number.fin 3), Value.number (Number.fin 4), Value.number (Number.fin 5)] =
      Completion.throw "timeRange: bad number of arguments" ∧
    timeRange utcHost 0 0 0 [Value.string "GMT"] =
      Completion.throw "timeRange: bad number of arguments" ∧
    (∃ b, timeRange utcHost 0 0 0 [Value.number (Number.fin 1), Value.number (Number.fin 2),
        Value.number (Number.fin 3), Value.number (Number.fin 4)] = Completion.normal b) ∧
    timeRange utcHost 0 0 0 [] = Completion.normal false :=
  ⟨(timeRange_argument_count utcHost 0 0 0 _).2.1 (by decide) (by decide),
   (timeRange_argument_count utcHost 0 0 0 _).2.1 (by decide) (by decide),
   (timeRange_argument_count utcHost 0 0 0 _).2.1 (by decide) (by decide),
   (timeRange_argument_count utcHost 0 0 0 _).2.2 (by decide),
   (timeRange_argument_count utcHost 0 0 0 _).1 rfl⟩

/-- C10: for every host, every clock reading and all finite numbers `a`, `b`, `timeRange(a)`
is true exactly when the local hour equals `a`, `timeRange(a, b)` exactly when
`a <= local hour <= b`, and with a trailing `"GMT"` the same holds of the UTC hour. -/
theorem timeRange_hours (H : Host) (now now1 now2 : Int) (a b : ℚ) :
    timeRange H now now1 now2 [Value.number (Number.fin a)] =
      Completion.normal (decide (((HourFromTime (LocalTime H now) : Int) : ℚ) = a)) ∧
    timeRange H now now1 now2 [Value.number (Number.fin a), Value.number (Number.fin b)] =
      Completion.normal (decide (a ≤ ((HourFromTime (LocalTime H now) : Int) : ℚ) ∧
        ((HourFromTime (LocalTime H now) : Int) : ℚ) ≤ b)) ∧
    timeRange H now now1 now2 [Value.number (Number.fin a), Value.string "GMT"] =
      Completion.normal (decide (((HourFromTime now : Int) : ℚ) = a)) ∧
    timeRange H now now1 now2
        [Value.number (Number.fin a), Value.number (Number.fin b), Value.string "GMT"] =
      Completion.normal (decide (a ≤ ((HourFromTime now : Int) : ℚ) ∧
        ((HourFromTime now : Int) : ℚ) ≤ b)) := by
  have hle : ∀ x y : ℚ, Number.le (Number.fin x) (Number.fin y) = decide (x ≤ y) := by
    intro x y
    simp only [Number.le, Number.lt]
    by_cases h : y < x
    · simp [h, not_le.mpr h]
    · simp [h, not_lt.mp h]
  have hlocal : Number.ofTime (getHours H (some now)) =
      Number.fin ((HourFromTime (LocalTime H now) : Int) : ℚ) := rfl
  have hutc : Number.ofTime (getUTCHours (some now)) =
      Number.fin ((HourFromTime now : Int) : ℚ) := rfl
  have hG1 : looseEq H (argAt [Value.number (Number.fin a)]
      ([Value.number (Number.fin a)].length - 1)) (Value.string "GMT") = false :=
    looseEq_number_GMT H _
  have hG2 : looseEq H (argAt [Value.number (Number.fin a), Value.number (Number.fin b)]
      ([Value.number (Number.fin a), Value.number (Number.fin b)].length - 1))
      (Value.string "GMT") = false :=
    looseEq_number_GMT H _
  have hG3 : looseEq H (argAt [Value.number (Number.fin a), Value.string "GMT"]
      ([Value.number (Number.fin a), Value.string "GMT"].length - 1))
      (Value.string "GMT") = true :=
    looseEq_GMT_GMT H
  have hG4 : looseEq H
      (argAt [Value.number (Number.fin a), Value.number (Number.fin b), Value.string "GMT"]
      ([Value.number (Number.fin a), Value.number (Number.fin b), Value.string "GMT"].length - 1))
      (Value.string "GMT") = true :=
    looseEq_GMT_GMT H
  refine ⟨?_, ?_, ?_, ?_⟩
  · unfold timeRange
    simp only [hG1]
    simp [argAt, looseEq, Number.eq, hlocal]
  · unfold timeRange
    simp only [hG2]
    simp [argAt, lessEq, ToNumber, hle, hlocal]
  · unfold timeRange
    simp only [hG3]
    simp [argAt, looseEq, Number.eq, hutc]
  · unfold timeRange
    simp only [hG4]
    simp [argAt, lessEq, ToNumber, hle, hutc]

/-! ## Unescaped metacharacters and the resolver -/

theorem DecodeRuneInString_a (rest : GoString) : DecodeRuneInString (97 :: rest) = (97, 1) := rfl

theorem decodeRunesFuel_replicate_a (fuel n : Nat) (h : n ≤ fuel) :
    decodeRunesFuel fuel (List.replicate n (97 : UInt8)) = List.replicate n (97 : Rune) := by
  induction n generalizing fuel with
  | zero => cases fuel <;> rfl
  | succ n ih =>
    cases fuel with
    | zero => omega
    | succ fuel =>
      rw [List.replicate_succ, decodeRunesFuel, DecodeRuneInString_a]
      simp only [List.drop_succ_cons, List.drop_zero]
      rw [ih fuel (by omega), List.replicate_succ]

theorem matchStar_replicate_a (n : Nat) :
    matchStar (Atom.lit 97) (fun u => matchPieces [] u) (List.replicate n (97 : Rune)) = true := by
  induction n with
  | zero => rfl
  | succ n ih =>
    rw [List.replicate_succ, matchStar, ih]
    simp [Atom.accepts]

/-- C20: a `+` in the glob reaches the regular expression unescaped: for every `n`,
`shExpMatch` of the string of `n + 1` letters `a` against the glob `a+` is true, while
`shExpMatch("a+", "a+")` is false. -/
theorem shExpMatch_plus_unescaped (other : GoString → GoString → Bool × Bool) (n : Nat) :
    shExpMatch other (List.replicate (n + 1) 97) (ascii "a+") = true ∧
    shExpMatch other (ascii "a+") (ascii "a+") = false := by
  refine ⟨?_, rfl⟩
  have hp : ascii "^" ++ Replace (Replace (Replace (ascii "a+") (ascii ".") (ascii "\\.") (-1))
      (ascii "?") (ascii ".?") (-1)) (ascii "*") (ascii ".*") (-1) ++ ascii "$" =
      [94, 97, 43, 36] := by decide
  have hc : compileFragment [94, 97, 43, 36] = some [Piece.mk (Atom.lit 97) Rep.plus] := by
    decide
  unfold shExpMatch
  simp only [hp, MatchString, hc]
  have hd : decodeRunes (List.replicate (n + 1) (97 : UInt8)) = List.replicate (n + 1) 97 := by
    unfold decodeRunes
    exact decodeRunesFuel_replicate_a _ _ (by simp)
  rw [hd, List.replicate_succ]
  simp only [matchPieces, Atom.accepts, beq_self_eq_true, Bool.true_and]
  exact matchStar_replicate_a n

/-- C18 (evaluation of the code at the failing input): for every resolver, `resolve("::1")`
returns without an error, and the address it returns is nil: `net.ParseIP` accepts the IPv6
literal and `To4` of the result is nil. -/
theorem resolve_ipv6_literal (R : GoString → Option IP) :
    ParseIP (ascii "::1") = [0, 0, 0, 0, 0, 0, 0, 0, 0, 0, 0, 0, 0, 0, 0, 1] ∧
    resolve R (ascii "::1") = some [] :=
  ⟨by decide, rfl⟩

/-! ## Lemmas on Numbers -/

theorem Number.le_fin (x y : ℚ) : Number.le (Number.fin x) (Number.fin y) = decide (x ≤ y) := by
  simp only [Number.le, Number.lt]
  by_cases h : y < x
  · simp [h, not_le.mpr h]
  · simp [h, not_lt.mp h]

theorem Number.le_ofInt (a b : Int) :
    Number.le (Number.ofInt a) (Number.ofInt b) = decide (a ≤ b) := by
  simp [Number.ofInt, Number.le_fin]

theorem Number.eq_ofInt (a b : Int) :
    Number.eq (Number.ofInt a) (Number.ofInt b) = decide (a = b) := by
  simp [Number.ofInt, Number.eq]

theorem looseEq_GMT_of_ne (H : Host) (x : Value) (hx : x ≠ Value.string "GMT") :
    looseEq H x (Value.string "GMT") = false := by
  cases x with
  | undefined => rfl
  | null => rfl
  | bool b =>
    simp only [looseEq, H.gmtNaN]
    cases b <;> rfl
  | number n => exact looseEq_number_GMT H n
  | string s =>
    simp only [looseEq, beq_eq_false_iff_ne, ne_eq]
    intro e
    exact hx (by rw [e])

/-! ## `weekdayRange` -/

theorem weekdayRange_getDay_name (a : Fin 7) :
    weekdayRange_getDay (Value.string (weekdayName a)) = Number.ofInt (a.val : Int) := by
  fin_cases a <;> rfl

theorem weekdayName_ne_GMT (a : Fin 7) : Value.string (weekdayName a) ≠ Value.string "GMT" := by
  fin_cases a <;> decide

/-- C13: for every host, every clock reading and all weekday names `a`, `b` of indices 0 to
6, `weekdayRange(a)` is true exactly when the weekday index of today equals the index of
`a`, and `weekdayRange(a, b)` exactly when `index(a) <= weekday <= index(b)`; the weekday
is the local one, and the UTC one with a trailing `"GMT"`. So `weekdayRange("FRI", "MON")`
is false on every day. -/
theorem weekdayRange_names (H : Host) (now : Int) (a b : Fin 7) :
    weekdayRange H now [Value.string (weekdayName a)] =
      decide (WeekDay (LocalTime H now) = (a.val : Int)) ∧
    weekdayRange H now [Value.string (weekdayName a), Value.string (weekdayName b)] =
      decide ((a.val : Int) ≤ WeekDay (LocalTime H now) ∧
        WeekDay (LocalTime H now) ≤ (b.val : Int)) ∧
    weekdayRange H now [Value.string (weekdayName a), Value.string "GMT"] =
      decide (WeekDay now = (a.val : Int)) ∧
    weekdayRange H now
        [Value.string (weekdayName a), Value.string (weekdayName b), Value.string "GMT"] =
      decide ((a.val : Int) ≤ WeekDay now ∧ WeekDay now ≤ (b.val : Int)) ∧
    weekdayRange H now [Value.string "FRI", Value.string "MON"] = false ∧
    weekdayRange H now [Value.string "FRI", Value.string "MON", Value.string "GMT"] = false := by
  have hneg : ∀ c : Fin 7, Number.eq (Number.ofInt (c.val : Int)) (Number.ofInt (-1)) = false := by
    intro c
    rw [Number.eq_ofInt]
    simp
  have hG1 : looseEq H (argAt [Value.string (weekdayName a)]
      ([Value.string (weekdayName a)].length - 1)) (Value.string "GMT") = false :=
    looseEq_GMT_of_ne H _ (weekdayName_ne_GMT a)
  have hG2 : looseEq H (argAt [Value.string (weekdayName a), Value.string (weekdayName b)]
      ([Value.string (weekdayName a), Value.string (weekdayName b)].length - 1))
      (Value.string "GMT") = false :=
    looseEq_GMT_of_ne H _ (weekdayName_ne_GMT b)
  have hG3 : looseEq H (argAt [Value.string (weekdayName a), Value.string "GMT"]
      ([Value.string (weekdayName a), Value.string "GMT"].length - 1))
      (Value.string "GMT") = true := looseEq_GMT_GMT H
  have hG4 : looseEq H
      (argAt [Value.string (weekdayName a), Value.string (weekdayName b), Value.string "GMT"]
      ([Value.string (weekdayName a), Value.string (weekdayName b),
        Value.string "GMT"].length - 1)) (Value.string "GMT") = true := looseEq_GMT_GMT H
  have hlocal : Number.ofTime (getDay H (some now)) = Number.ofInt (WeekDay (LocalTime H now)) :=
    rfl
  have hutc : Number.ofTime (getUTCDay (some now)) = Number.ofInt (WeekDay now) := rfl
  have h1 : weekdayRange H now [Value.string (weekdayName a)] =
      decide (WeekDay (LocalTime H now) = (a.val : Int)) := by
    unfold weekdayRange
    simp only [hG1]
    simp only [argAt, List.length_singleton, List.getD_cons_zero, weekdayRange_getDay_name, hneg,
      hlocal, Number.le_ofInt, Nat.lt_irrefl, if_false, Bool.false_eq_true, Bool.or_self,
      show ¬ (1 = 2) by decide]
    rw [Bool.eq_iff_iff]
    simp only [Bool.and_eq_true, decide_eq_true_eq]
    constructor <;> intro h <;> omega
  have h2 : ∀ c d : Fin 7,
      weekdayRange H now [Value.string (weekdayName c), Value.string (weekdayName d)] =
      decide ((c.val : Int) ≤ WeekDay (LocalTime H now) ∧
        WeekDay (LocalTime H now) ≤ (d.val : Int)) := by
    intro c d
    have hG : looseEq H (argAt [Value.string (weekdayName c), Value.string (weekdayName d)]
        ([Value.string (weekdayName c), Value.string (weekdayName d)].length - 1))
        (Value.string "GMT") = false :=
      looseEq_GMT_of_ne H _ (weekdayName_ne_GMT d)
    unfold weekdayRange
    simp only [hG]
    simp [argAt, weekdayRange_getDay_name, hneg, hlocal, Number.le_ofInt]
  have h3 : weekdayRange H now [Value.string (weekdayName a), Value.string "GMT"] =
      decide (WeekDay now = (a.val : Int)) := by
    unfold weekdayRange
    simp only [hG3]
    simp only [argAt, List.length_cons, List.length_nil, List.getD_cons_zero,
      weekdayRange_getDay_name, hneg, hutc, Number.le_ofInt, if_true, if_false,
      Bool.false_eq_true, Bool.or_self, show ¬ (0 + 1 + 1 < 1) by decide,
      show ¬ (0 + 1 + 1 - 1 = 2) by decide]
    rw [Bool.eq_iff_iff]
    simp only [Bool.and_eq_true, decide_eq_true_eq]
    constructor <;> intro h <;> omega
  have h4 : ∀ c d : Fin 7, weekdayRange H now
        [Value.string (weekdayName c), Value.string (weekdayName d), Value.string "GMT"] =
      decide ((c.val : Int) ≤ WeekDay now ∧ WeekDay now ≤ (d.val : Int)) := by
    intro c d
    have hG : looseEq H
        (argAt [Value.string (weekdayName c), Value.string (weekdayName d), Value.string "GMT"]
        ([Value.string (weekdayName c), Value.string (weekdayName d),
          Value.string "GMT"].length - 1)) (Value.string "GMT") = true := looseEq_GMT_GMT H
    unfold weekdayRange
    simp only [hG]
    simp [argAt, weekdayRange_getDay_name, hneg, hutc, Number.le_ofInt]
  refine ⟨h1, h2 a b, h3, h4 a b, ?_, ?_⟩
  · have := h2 5 1
    rw [show weekdayName 5 = "FRI" from rfl, show weekdayName 1 = "MON" from rfl] at this
    rw [this]
    simp
    omega
  · have := h4 5 1
    rw [show weekdayName 5 = "FRI" from rfl, show weekdayName 1 = "MON" from rfl] at this
    rw [this]
    simp
    omega

/-! ## `dateRange` with one argument -/

theorem ite_bounds (c : Prop) [Decidable c] (a b lo hi : Int) (ha : lo ≤ a ∧ a ≤ hi)
    (hb : lo ≤ b ∧ b ≤ hi) : lo ≤ (if c then a else b) ∧ (if c then a else b) ≤ hi := by
  split <;> assumption

theorem MonthFromTime_range (t : Int) : 0 ≤ MonthFromTime t ∧ MonthFromTime t ≤ 11 := by
  unfold MonthFromTime
  generalize DayWithinYear t = d
  generalize InLeapYear t = l
  dsimp only
  repeat (first | exact ⟨by decide, by decide⟩ | apply ite_bounds)

theorem dateRange_getMonth_name (i : Fin 12) :
    dateRange_getMonth (Value.string (monthName i)) = Number.ofInt (i.val : Int) := by
  fin_cases i <;> rfl

theorem lookup_some_mem (s : String) (l : List (String × Int)) (k : Int)
    (h : l.lookup s = some k) : (s, k) ∈ l := by
  induction l with
  | nil => simp [List.lookup] at h
  | cons p t ih =>
    obtain ⟨a, b⟩ := p
    rw [List.lookup] at h
    by_cases e : s = a
    · subst e
      simp at h
      simp [h]
    · have : (s == a) = false := by simp [e]
      rw [this] at h
      exact List.mem_cons_of_mem _ (ih h)

theorem lookup_none_not_mem (s : String) (l : List (String × Int)) (k : Int)
    (h : l.lookup s = none) : (s, k) ∉ l := by
  induction l with
  | nil => simp
  | cons p t ih =>
    obtain ⟨a, b⟩ := p
    rw [List.lookup] at h
    by_cases e : s = a
    · subst e
      simp at h
    · have : (s == a) = false := by simp [e]
      rw [this] at h
      intro hm
      rcases List.mem_cons.mp hm with e2 | e2
      · injection e2 with e3 e4
        exact e e3
      · exact ih h e2

theorem monthName_mem (i : Fin 12) : (monthName i, (i.val : Int)) ∈ months := by
  fin_cases i <;> decide

theorem months_mem (s : String) (k : Int) (h : (s, k) ∈ months) :
    ∃ i : Fin 12, s = monthName i ∧ k = (i.val : Int) := by
  simp only [months, List.mem_cons, Prod.mk.injEq, List.mem_singleton, List.not_mem_nil,
    or_false] at h
  rcases h with ⟨rfl, rfl⟩ | ⟨rfl, rfl⟩ | ⟨rfl, rfl⟩ | ⟨rfl, rfl⟩ | ⟨rfl, rfl⟩ | ⟨rfl, rfl⟩ |
    ⟨rfl, rfl⟩ | ⟨rfl, rfl⟩ | ⟨rfl, rfl⟩ | ⟨rfl, rfl⟩ | ⟨rfl, rfl⟩ | ⟨rfl, rfl⟩
  · exact ⟨0, rfl, rfl⟩
  · exact ⟨1, rfl, rfl⟩
  · exact ⟨2, rfl, rfl⟩
  · exact ⟨3, rfl, rfl⟩
  · exact ⟨4, rfl, rfl⟩
  · exact ⟨5, rfl, rfl⟩
  · exact ⟨6, rfl, rfl⟩
  · exact ⟨7, rfl, rfl⟩
  · exact ⟨8, rfl, rfl⟩
  · exact ⟨9, rfl, rfl⟩
  · exact ⟨10, rfl, rfl⟩
  · exact ⟨11, rfl, rfl⟩

/-- The comparison of a month (0 to 11) with the result of the helper `getMonth` holds
exactly when the argument is the name of that month. -/
theorem eq_getMonth_iff (m : Int) (hm : 0 ≤ m ∧ m ≤ 11) (x : Value) :
    Number.eq (Number.ofInt m) (dateRange_getMonth x) =
      decide (∃ i : Fin 12, x = Value.string (monthName i) ∧ m = (i.val : Int)) := by
  rw [Bool.eq_iff_iff, decide_eq_true_eq]
  have hneg : Number.eq (Number.ofInt m) (Number.ofInt (-1)) = false := by
    rw [Number.eq_ofInt]
    simp
    omega
  constructor
  · intro h
    cases x with
    | string s =>
      simp only [dateRange_getMonth, lookupName] at h
      cases hl : months.lookup s with
      | some k =>
        rw [hl] at h
        simp only [Number.eq_ofInt, decide_eq_true_eq] at h
        obtain ⟨i, e1, e2⟩ := months_mem s k (lookup_some_mem s months k hl)
        exact ⟨i, by rw [e1], by omega⟩
      | none =>
        rw [hl] at h
        split_ifs at h
        · simp [Number.eq, Number.ofInt] at h
        · rw [hneg] at h
          exact absurd h (by decide)
    | undefined => simp [dateRange_getMonth, lookupName, hneg] at h
    | null => simp [dateRange_getMonth, lookupName, hneg] at h
    | bool b => simp [dateRange_getMonth, lookupName, hneg] at h
    | number n => simp [dateRange_getMonth, lookupName, hneg] at h
  · rintro ⟨i, rfl, e⟩
    rw [dateRange_getMonth_name, Number.eq_ofInt, decide_eq_true_eq]
    exact e

/-- C14: for every host, every clock reading and every single argument `x` other than
`"GMT"`: when `parseInt(x)` is `NaN`, `dateRange(x)` is true exactly when `x` is a month name
`JAN` to `DEC` and the current month is that month; when `parseInt(x)` is below 32, exactly
when it equals the current day of the month; otherwise exactly when it equals the current
year. The month, day and year are the local ones, and the UTC ones with a trailing
`"GMT"`. -/
theorem dateRange_single_argument (H : Host) (NumberToString : ℚ → String) (now : Int)
    (x : Value) (hx : x ≠ Value.string "GMT") :
    dateRange H NumberToString now [x] =
      (match parseInt NumberToString x with
       | none => decide (∃ i : Fin 12, x = Value.string (monthName i) ∧
           MonthFromTime (LocalTime H now) = (i.val : Int))
       | some n =>
         if n < 32 then decide (DateFromTime (LocalTime H now) = n)
         else decide (YearFromTime (LocalTime H now) = n)) ∧
    dateRange H NumberToString now [x, Value.string "GMT"] =
      (match parseInt NumberToString x with
       | none => decide (∃ i : Fin 12, x = Value.string (monthName i) ∧
           MonthFromTime now = (i.val : Int))
       | some n =>
         if n < 32 then decide (DateFromTime now = n)
         else decide (YearFromTime now = n)) := by
  have hG1 : looseEq H (argAt [x] ([x].length - 1)) (Value.string "GMT") = false :=
    looseEq_GMT_of_ne H x hx
  have hG2 : looseEq H (argAt [x, Value.string "GMT"] ([x, Value.string "GMT"].length - 1))
      (Value.string "GMT") = true := looseEq_GMT_GMT H
  have ha1 : argAt [x] 0 = x := rfl
  have ha2 : argAt [x, Value.string "GMT"] 0 = x := rfl
  constructor
  · unfold dateRange
    simp only [hG1]
    simp only [ha1, List.length_singleton, Nat.lt_irrefl, if_false, Bool.false_eq_true,
      if_true]
    cases hp : parseInt NumberToString x with
    | none =>
      exact eq_getMonth_iff _ (MonthFromTime_range _) x
    | some n =>
      simp only [getDate, getFullYear, Option.map_some', Number.ofTime, Number.eq_ofInt]
  · unfold dateRange
    simp only [hG2]
    simp only [ha2, List.length_cons, List.length_nil, if_true,
      show ¬ (0 + 1 + 1 < 1) by decide, show (0 + 1 + 1 - 1 = 1) by decide, if_false]
    cases hp : parseInt NumberToString x with
    | none =>
      exact eq_getMonth_iff _ (MonthFromTime_range _) x
    | some n =>
      simp only [getUTCDate, getUTCFullYear, Option.map_some', Number.ofTime, Number.eq_ofInt]

/-- C14, instances on 2026-11-04 (UTC): `dateRange("NOV")`, `dateRange(4)` and
`dateRange(2026)` are true, `dateRange("DEC")`, `dateRange("XYZ")`, `dateRange(5)` and
`dateRange(2025)` are false. -/
theorem dateRange_single_argument_witness :
    dateRange utcHost plainPrinter 1793795696789 [Value.string "NOV"] = true ∧
    dateRange utcHost plainPrinter 1793795696789 [Value.string "DEC"] = false ∧
    dateRange utcHost plainPrinter 1793795696789 [Value.string "XYZ"] = false ∧
    dateRange utcHost plainPrinter 1793795696789 [Value.number (Number.fin 4)] = true ∧
    dateRange utcHost plainPrinter 1793795696789 [Value.number (Number.fin 5)] = false ∧
    dateRange utcHost plainPrinter 1793795696789 [Value.number (Number.fin 2026)] = true ∧
    dateRange utcHost plainPrinter 1793795696789 [Value.number (Number.fin 2025)] = false := by
  have h := fun x hx => (dateRange_single_argument utcHost plainPrinter 1793795696789 x hx).1
  refine ⟨?_, ?_, ?_, ?_, ?_, ?_, ?_⟩
  · rw [h _ (by decide)]
    decide
  · rw [h _ (by decide)]
    decide
  · rw [h _ (by decide)]
    decide
  · rw [h _ (by decide)]
    decide
  · rw [h _ (by decide)]
    decide
  · rw [h _ (by decide)]
    decide
  · rw [h _ (by decide)]
    decide

/-! ## `dateRange` with two arguments -/

theorem parseInt_monthName (NumberToString : ℚ → String) (i : Fin 12) :
    parseInt NumberToString (Value.string (monthName i)) = none := by
  fin_cases i <;> rfl

theorem dateRange_loops_two (H : Host) (NumberToString : ℚ → String) (now : Int)
    (a b : Value) (rest : List Value) :
    dateRange.loops H NumberToString now 2 (a :: b :: rest) =
      dateRange.second H NumberToString
        (dateRange.first H NumberToString 2
          { date1 := newDate H (getFullYear H (some now)) 0 1 0 0 0,
            date2 := newDate H (getFullYear H (some now)) 11 31 23 59 59,
            adjustMonth := false } a) b := by
  have h1 : List.range (2 / 2) = [0] := by decide
  have h2 : (List.range 2).drop (2 / 2) = [1] := by decide
  unfold dateRange.loops
  simp only [h1, h2, List.foldl_cons, List.foldl_nil]
  rfl

/-- C19 (the claim as stated fails): on 2026-11-04 (UTC) the call `dateRange(15, "DEC")`
has a day first and a month name second, yet `date1` does not keep the month January: the
current month is copied into it and it is the 15th of November, and the call returns false,
whereas 15 January <= now <= 31 December holds. -/
theorem dateRange_day_then_month_copies :
    (dateRange.bounds utcHost plainPrinter 1793795696789 2
      [Value.number (Number.fin 15), Value.string "DEC"]).date1 = some 1794700800000 ∧
    MonthFromTime 1794700800000 = 10 ∧ DateFromTime 1794700800000 = 15 ∧
    dateRange utcHost plainPrinter 1793795696789
      [Value.number (Number.fin 15), Value.string "DEC"] = false ∧
    (dateLe (setDate utcHost (newDate utcHost (some 2026) 0 1 0 0 0) (Number.ofInt 15))
        (some 1793795696789) &&
      dateLe (some 1793795696789)
        (setMonth utcHost (newDate utcHost (some 2026) 11 31 23 59 59) (Number.ofInt 11))) =
      true := by
  decide

/-- C19 (amended): in a call of two arguments (after removing a trailing `"GMT"`) the
current month is copied into `date1` and `date2` whenever the first argument is a
day-of-month value (an integer below 32), whatever the second argument is, and is not
copied when the first argument is a month name or a year. When the first argument is the
day `d` and the second is a month name or a year, `date1` is 1 January of the current year
with day `d` and then the current month, `date2` is 31 December 23:59:59 with the month or
year of the second argument and then the current month, and the result is
`date1 <= now <= date2` for those dates. -/
theorem dateRange_day_first (H : Host) (NumberToString : ℚ → String) (now : Int)
    (a b : Value) (rest : List Value) (d : Int)
    (ha : parseInt NumberToString a = some d) (hd : d < 32) :
    (dateRange.bounds H NumberToString now 2 (a :: b :: rest)).adjustMonth = true ∧
    (dateRange.bounds H NumberToString now 2 (a :: b :: rest)).date1 =
      setMonth H (setDate H (newDate H (getFullYear H (some now)) 0 1 0 0 0) (Number.ofInt d))
        (Number.ofTime (getMonth H (some now))) ∧
    (∀ i : Fin 12, b = Value.string (monthName i) →
      (dateRange.bounds H NumberToString now 2 (a :: b :: rest)).date2 =
        setMonth H (setMonth H (newDate H (getFullYear H (some now)) 11 31 23 59 59)
          (Number.ofInt (i.val : Int))) (Number.ofTime (getMonth H (some now)))) ∧
    (∀ y : Int, parseInt NumberToString b = some y → 32 ≤ y →
      (dateRange.bounds H NumberToString now 2 (a :: b :: rest)).date2 =
        setMonth H (setFullYear H (newDate H (getFullYear H (some now)) 11 31 23 59 59)
          (Number.ofInt y)) (Number.ofTime (getMonth H (some now)))) ∧
    (b ≠ Value.string "GMT" →
      dateRange H NumberToString now [a, b] =
        (dateLe (dateRange.bounds H NumberToString now 2 [a, b]).date1 (some now) &&
          dateLe (some now) (dateRange.bounds H NumberToString now 2 [a, b]).date2)) ∧
    dateRange H NumberToString now [a, b, Value.string "GMT"] =
      (dateLe (dateRange.bounds H NumberToString now 2 [a, b, Value.string "GMT"]).date1
          (utcFieldsAsLocal H (some now)) &&
        dateLe (utcFieldsAsLocal H (some now))
          (dateRange.bounds H NumberToString now 2 [a, b, Value.string "GMT"]).date2) ∧
    (∀ a' : Value, (parseInt NumberToString a' = none ∨
        ∃ y, parseInt NumberToString a' = some y ∧ 32 ≤ y) →
      (dateRange.bounds H NumberToString now 2 (a' :: b :: rest)).adjustMonth = false) := by
  have hnd : ¬ (32 ≤ d) := by omega
  have hfirst : ∀ st : DateRangeState, dateRange.first H NumberToString 2 st a =
      { st with adjustMonth := true, date1 := setDate H st.date1 (Number.ofInt d) } := by
    intro st
    simp [dateRange.first, ha, hd]
  have hsecond_adj : ∀ (st : DateRangeState) (v : Value),
      (dateRange.second H NumberToString st v).adjustMonth = st.adjustMonth ∧
      (dateRange.second H NumberToString st v).date1 = st.date1 := by
    intro st v
    unfold dateRange.second
    split
    · exact ⟨rfl, rfl⟩
    · split <;> exact ⟨rfl, rfl⟩
  have hadj : (dateRange.loops H NumberToString now 2 (a :: b :: rest)).adjustMonth = true := by
    rw [dateRange_loops_two, (hsecond_adj _ b).1, hfirst]
  refine ⟨?_, ?_, ?_, ?_, ?_, ?_, ?_⟩
  · unfold dateRange.bounds
    simp only [hadj, if_true]
  · unfold dateRange.bounds
    simp only [hadj, if_true]
    rw [dateRange_loops_two, (hsecond_adj _ b).2, hfirst]
  · rintro i rfl
    unfold dateRange.bounds
    simp only [hadj, if_true]
    rw [dateRange_loops_two, hfirst]
    simp [dateRange.second, parseInt_monthName, dateRange_getMonth_name]
  · intro y hy hy32
    have hny : ¬ (y < 32) := by omega
    unfold dateRange.bounds
    simp only [hadj, if_true]
    rw [dateRange_loops_two, hfirst]
    simp [dateRange.second, hy, hny]
  · intro hb
    have hG : looseEq H (argAt [a, b] ([a, b].length - 1)) (Value.string "GMT") = false :=
      looseEq_GMT_of_ne H b hb
    unfold dateRange
    simp only [hG]
    simp
  · have hG : looseEq H (argAt [a, b, Value.string "GMT"]
        ([a, b, Value.string "GMT"].length - 1)) (Value.string "GMT") = true :=
      looseEq_GMT_GMT H
    unfold dateRange
    simp only [hG]
    simp
  · intro a' ha'
    have hfirst' : ∀ st : DateRangeState,
        (dateRange.first H NumberToString 2 st a').adjustMonth = st.adjustMonth := by
      intro st
      unfold dateRange.first
      rcases ha' with e | ⟨y, e, hy⟩
      · simp [e]
      · have hny : ¬ (y < 32) := by omega
        simp [e, hny]
    unfold dateRange.bounds
    have hl : (dateRange.loops H NumberToString now 2 (a' :: b :: rest)).adjustMonth = false := by
      rw [dateRange_loops_two, (hsecond_adj _ b).1, hfirst']
    simp only [hl, Bool.false_eq_true, if_false]

/-- C19, instance on 2026-11-04 (UTC): in `dateRange(15, "DEC")` the month is copied,
`date1` is 15 November, `date2` is 31 December moved to November, that is
1 December 23:59:59, and the call returns false. -/
theorem dateRange_day_first_witness :
    (dateRange.bounds utcHost plainPrinter 1793795696789 2
      [Value.number (Number.fin 15), Value.string "DEC"]).adjustMonth = true ∧
    (dateRange.bounds utcHost plainPrinter 1793795696789 2
      [Value.number (Number.fin 15), Value.string "DEC"]).date2 = some 1796169599000 ∧
    dateRange utcHost plainPrinter 1793795696789
      [Value.number (Number.fin 15), Value.string "DEC"] = false := by
  have h := dateRange_day_first utcHost plainPrinter 1793795696789
    (Value.number (Number.fin 15)) (Value.string "DEC") [] 15 (by decide) (by decide)
  refine ⟨h.1, ?_, ?_⟩
  · rw [h.2.2.1 11 rfl]
    decide
  · rw [h.2.2.2.2.1 (by decide)]
    decide

/-! ## `timeRange` with four arguments -/

theorem toInt?_ofInt (k : Int) : Number.toInt? (Number.ofInt k) = some k := by
  simp only [Number.toInt?, Number.ofInt]
  split_ifs
  · rfl
  · rw [← Int.cast_neg]
    show some (-(-k)) = some k
    rw [neg_neg]

theorem dateLe_some (a b : Int) : dateLe (some a) (some b) = decide (a ≤ b) :=
  Number.le_ofInt a b

/-- A local time before which the clocks are quiet converts to a time value and back
without loss. -/
theorem quiet_roundtrip (H : Host) (l : Int) (hb : BoundedDST H) (hq : QuietBefore H l) :
    LocalTime H (UTC H l) = l := by
  have hd := hb (l - H.LocalTZA)
  have e := hq (l - H.LocalTZA - H.DaylightSavingTA (l - H.LocalTZA)) (by omega) (by omega)
  unfold LocalTime UTC
  rw [e]
  omega

/-- The time value of a local time before which the clocks are quiet is at most `now`
exactly when the local time is at most the local time of `now`. -/
theorem quiet_le (H : Host) (now l : Int) (hb : BoundedDST H) (hq : QuietBefore H l) :
    UTC H l ≤ now ↔ l ≤ LocalTime H now := by
  have hd := hb (l - H.LocalTZA)
  have hn := hb now
  unfold UTC LocalTime
  by_cases c1 : l - H.LocalTZA ≤ now
  · constructor <;> intro _ <;> omega
  · by_cases c2 : now < l - H.LocalTZA - 3600000
    · constructor <;> intro _ <;> omega
    · have e := hq now (by omega) (by omega)
      constructor <;> intro _ <;> omega

/-- The time value of a local time before which the clocks are quiet is at least `now`
exactly when the local time is at least the local time of `now`. -/
theorem quiet_ge (H : Host) (now l : Int) (hb : BoundedDST H) (hq : QuietBefore H l) :
    now ≤ UTC H l ↔ LocalTime H now ≤ l := by
  have hd := hb (l - H.LocalTZA)
  have hn := hb now
  unfold UTC LocalTime
  by_cases c1 : l - H.LocalTZA < now
  · constructor <;> intro _ <;> omega
  · by_cases c2 : now ≤ l - H.LocalTZA - 3600000
    · constructor <;> intro _ <;> omega
    · have e := hq now (by omega) (by omega)
      constructor <;> intro _ <;> omega

theorem time_fields (t : Int) :
    t = Day t * 86400000 + HourFromTime t * 3600000 + MinFromTime t * 60000 +
      SecFromTime t * 1000 + msFromTime t ∧
    0 ≤ HourFromTime t ∧ HourFromTime t < 24 ∧ 0 ≤ MinFromTime t ∧ MinFromTime t < 60 ∧
    0 ≤ SecFromTime t ∧ SecFromTime t < 60 ∧ 0 ≤ msFromTime t ∧ msFromTime t < 1000 := by
  unfold Day HourFromTime MinFromTime SecFromTime msFromTime msPerDay msPerHour msPerMinute
    msPerSecond
  omega

theorem time_fields_of (D h m s ms : Int) (hh : 0 ≤ h ∧ h < 24) (hm : 0 ≤ m ∧ m < 60)
    (hs : 0 ≤ s ∧ s < 60) (hms : 0 ≤ ms ∧ ms < 1000) :
    Day (MakeDate D (MakeTime h m s ms)) = D ∧
    HourFromTime (MakeDate D (MakeTime h m s ms)) = h ∧
    MinFromTime (MakeDate D (MakeTime h m s ms)) = m ∧
    SecFromTime (MakeDate D (MakeTime h m s ms)) = s ∧
    msFromTime (MakeDate D (MakeTime h m s ms)) = ms ∧
    MakeDate D (MakeTime h m s ms) = D * 86400000 + h * 3600000 + m * 60000 + s * 1000 + ms := by
  unfold Day HourFromTime MinFromTime SecFromTime msFromTime MakeDate MakeTime msPerDay
    msPerHour msPerMinute msPerSecond
  omega

/-- `setHours` on the time value of a local time before which the clocks are quiet. -/
theorem setHours_quiet (H : Host) (l h : Int) (hb : BoundedDST H) (hq : QuietBefore H l) :
    setHours H (some (UTC H l)) (Number.ofInt h) =
      some (UTC H (MakeDate (Day l) (MakeTime h (MinFromTime l) (SecFromTime l)
        (msFromTime l)))) := by
  simp only [setHours, toInt?_ofInt, quiet_roundtrip H l hb hq]

/-- `setMinutes` on the time value of a local time before which the clocks are quiet. -/
theorem setMinutes_quiet (H : Host) (l m : Int) (hb : BoundedDST H) (hq : QuietBefore H l) :
    setMinutes H (some (UTC H l)) (Number.ofInt m) =
      some (UTC H (MakeDate (Day l) (MakeTime (HourFromTime l) m (SecFromTime l)
        (msFromTime l)))) := by
  simp only [setMinutes, toInt?_ofInt, quiet_roundtrip H l hb hq]

/-- `setSeconds` on the time value of a local time before which the clocks are quiet. -/
theorem setSeconds_quiet (H : Host) (l s : Int) (hb : BoundedDST H) (hq : QuietBefore H l) :
    setSeconds H (some (UTC H l)) (Number.ofInt s) =
      some (UTC H (MakeDate (Day l) (MakeTime (HourFromTime l) (MinFromTime l) s
        (msFromTime l)))) := by
  simp only [setSeconds, toInt?_ofInt, quiet_roundtrip H l hb hq]

/-- C11 (the claim as stated fails), two instances. On a host whose clocks go back, at
the local time 02:30:00 of the first pass, `timeRange(0, 0, 2, 20)` is true. And when the
second `new Date()` reads the clock a millisecond after the first, at 10:00:00.000,
`timeRange(10, 0, 11, 0)` is false. -/
theorem timeRange_four_arguments_fail :
    (secondsOfDay (LocalTime fallBackHost 5400000) = 2 * 3600 + 30 * 60 ∧
      timeRange fallBackHost 5400000 5400000 5400000
        [Value.number (Number.ofInt 0), Value.number (Number.ofInt 0),
          Value.number (Number.ofInt 2), Value.number (Number.ofInt 20)] =
        Completion.normal true) ∧
    (secondsOfDay (LocalTime utcHost 1793786400000) = 10 * 3600 ∧
      timeRange utcHost 1793786400000 1793786400001 1793786400001
        [Value.number (Number.ofInt 10), Value.number (Number.ofInt 0),
          Value.number (Number.ofInt 11), Value.number (Number.ofInt 0)] =
        Completion.normal false) := by
  decide

/-- C11 (amended): let the three `new Date()` of the call read the same clock value `now`,
on a host whose daylight saving adjustment lies between 0 and one hour and whose clocks do
not change in the hour before any of the local times that the setters of the call produce
(these lie on the current local day, at `h1` and `h1:m1`, at `h2`, `h2:m2` and
`h2:m2:59`). Then for all hours `h1`, `h2` in 0..23 and minutes `m1`, `m2` in 0..59,
`timeRange(h1, m1, h2, m2)` without `"GMT"` is true exactly when the local time of day `t`,
in whole seconds, satisfies `h1:m1:00 <= t <= h2:m2:59`. -/
theorem timeRange_four_arguments (H : Host) (now h1 m1 h2 m2 : Int)
    (hb : BoundedDST H)
    (hq : ∀ l ∈ timeRange_localTimes (LocalTime H now) h1 m1 h2 m2, QuietBefore H l)
    (hh1 : 0 ≤ h1 ∧ h1 ≤ 23) (hm1 : 0 ≤ m1 ∧ m1 ≤ 59)
    (hh2 : 0 ≤ h2 ∧ h2 ≤ 23) (hm2 : 0 ≤ m2 ∧ m2 ≤ 59) :
    timeRange H now now now
        [Value.number (Number.ofInt h1), Value.number (Number.ofInt m1),
          Value.number (Number.ofInt h2), Value.number (Number.ofInt m2)] =
      Completion.normal (decide (h1 * 3600 + m1 * 60 ≤ secondsOfDay (LocalTime H now) ∧
        secondsOfDay (LocalTime H now) ≤ h2 * 3600 + m2 * 60 + 59)) := by
  obtain ⟨hL, hH1, hH2, hM1, hM2, hS1, hS2, hms1, hms2⟩ := time_fields (LocalTime H now)
  have qA1 := hq _ (List.mem_cons_self _ _)
  have qB1 := hq _ (List.mem_cons_of_mem _ (List.mem_cons_self _ _))
  have qA2 := hq _ (List.mem_cons_of_mem _ (List.mem_cons_of_mem _ (List.mem_cons_self _ _)))
  have qB2 := hq _ (List.mem_cons_of_mem _ (List.mem_cons_of_mem _
    (List.mem_cons_of_mem _ (List.mem_cons_self _ _))))
  have qC2 := hq _ (List.mem_cons_of_mem _ (List.mem_cons_of_mem _
    (List.mem_cons_of_mem _ (List.mem_cons_of_mem _ (List.mem_cons_self _ _)))))
  obtain ⟨a1, a2, a3, a4, a5, -⟩ := time_fields_of (Day (LocalTime H now)) h1
    (MinFromTime (LocalTime H now)) (SecFromTime (LocalTime H now))
    (msFromTime (LocalTime H now)) (by omega) ⟨hM1, hM2⟩ ⟨hS1, hS2⟩ ⟨hms1, hms2⟩
  obtain ⟨b1, b2, b3, b4, b5, -⟩ := time_fields_of (Day (LocalTime H now)) h2
    (MinFromTime (LocalTime H now)) (SecFromTime (LocalTime H now))
    (msFromTime (LocalTime H now)) (by omega) ⟨hM1, hM2⟩ ⟨hS1, hS2⟩ ⟨hms1, hms2⟩
  obtain ⟨c1, c2, c3, c4, c5, -⟩ := time_fields_of (Day (LocalTime H now)) h2 m2
    (SecFromTime (LocalTime H now)) (msFromTime (LocalTime H now)) (by omega) (by omega)
    ⟨hS1, hS2⟩ ⟨hms1, hms2⟩
  have hG : looseEq H (argAt [Value.number (Number.ofInt h1), Value.number (Number.ofInt m1),
      Value.number (Number.ofInt h2), Value.number (Number.ofInt m2)]
      ([Value.number (Number.ofInt h1), Value.number (Number.ofInt m1),
        Value.number (Number.ofInt h2), Value.number (Number.ofInt m2)].length - 1))
      (Value.string "GMT") = false := looseEq_number_GMT H _
  have s1 : setHours H (some now) (Number.ofInt h1) =
      some (UTC H (MakeDate (Day (LocalTime H now)) (MakeTime h1 (MinFromTime (LocalTime H now))
        (SecFromTime (LocalTime H now)) (msFromTime (LocalTime H now))))) := by
    simp only [setHours, toInt?_ofInt]
  have s2 : setHours H (some now) (Number.ofInt h2) =
      some (UTC H (MakeDate (Day (LocalTime H now)) (MakeTime h2 (MinFromTime (LocalTime H now))
        (SecFromTime (LocalTime H now)) (msFromTime (LocalTime H now))))) := by
    simp only [setHours, toInt?_ofInt]
  have d1 : setMinutes H (setHours H (some now) (Number.ofInt h1)) (Number.ofInt m1) =
      some (UTC H (MakeDate (Day (LocalTime H now)) (MakeTime h1 m1
        (SecFromTime (LocalTime H now)) (msFromTime (LocalTime H now))))) := by
    rw [s1, setMinutes_quiet H _ m1 hb qA1, a1, a2, a4, a5]
  have d2 : setSeconds H (setMinutes H (setHours H (some now) (Number.ofInt h2))
      (Number.ofInt m2)) (Number.ofInt 59) =
      some (UTC H (MakeDate (Day (LocalTime H now)) (MakeTime h2 m2 59
        (msFromTime (LocalTime H now))))) := by
    rw [s2, setMinutes_quiet H _ m2 hb qA2, b1, b2, b4, b5, setSeconds_quiet H _ 59 hb qB2,
      c1, c2, c3, c5]
  unfold timeRange
  simp only [hG]
  simp only [argAt, List.length_cons, List.length_nil, List.getD_cons_zero, List.getD_cons_succ,
    ToNumber, Bool.false_eq_true, if_false, show ¬ (0 + 1 + 1 + 1 + 1 < 1) by decide,
    show ¬ (0 + 1 + 1 + 1 + 1 = 1) by decide, show ¬ (0 + 1 + 1 + 1 + 1 = 2) by decide,
    show ¬ (0 + 1 + 1 + 1 + 1 = 6) by decide, show (0 + 1 + 1 + 1 + 1) / 2 = 2 by decide,
    false_or, if_true, d1, d2]
  congr 1
  rw [dateLe_some, dateLe_some, Bool.eq_iff_iff]
  simp only [Bool.and_eq_true, decide_eq_true_eq, quiet_le H now _ hb qB1,
    quiet_ge H now _ hb qC2, secondsOfDay]
  obtain ⟨-, -, -, -, -, e1⟩ := time_fields_of (Day (LocalTime H now)) h1 m1
    (SecFromTime (LocalTime H now)) (msFromTime (LocalTime H now)) (by omega) (by omega)
    ⟨hS1, hS2⟩ ⟨hms1, hms2⟩
  obtain ⟨-, -, -, -, -, e2⟩ := time_fields_of (Day (LocalTime H now)) h2 m2 59
    (msFromTime (LocalTime H now)) (by omega) (by omega) (by decide) ⟨hms1, hms2⟩
  rw [e1, e2]
  constructor <;> intro h <;> constructor <;> omega

/-- The daylight saving adjustment of `summerHost` is 0 or one hour. -/
theorem summerHost_bounded : BoundedDST summerHost := by
  intro u
  show 0 ≤ (if 1774746000000 ≤ u ∧ u < 1792890000000 then (3600000 : Int) else 0) ∧
    (if 1774746000000 ≤ u ∧ u < 1792890000000 then (3600000 : Int) else 0) ≤ 3600000
  split_ifs <;> decide

/-- The clocks of `summerHost` are quiet before every local time `l` that is not within
the hour after one of its two clock changes. -/
theorem summerHost_quiet (l : Int)
    (h1 : ¬ (l - 7200000 < 1774746000000 ∧ 1774746000000 ≤ l - 3600000))
    (h2 : ¬ (l - 7200000 < 1792890000000 ∧ 1792890000000 ≤ l - 3600000)) :
    QuietBefore summerHost l := by
  intro u hu1 hu2
  have hz : summerHost.LocalTZA = 3600000 := rfl
  rw [hz] at hu1 hu2 ⊢
  show (if 1774746000000 ≤ u ∧ u < 1792890000000 then (3600000 : Int) else 0) =
    (if 1774746000000 ≤ l - 3600000 ∧ l - 3600000 < 1792890000000 then (3600000 : Int) else 0)
  split_ifs <;> omega

/-- C11, instances on a host with the summer time of central Europe in 2026. At
2026-07-15T10:00:00Z (12:00:00 local summer time) `timeRange(9, 0, 17, 30)` is true and
`timeRange(12, 35, 17, 30)` is false; at 2026-10-25T10:00:00Z (11:00:00 local time, on the
day on which the clocks went back at 03:00) `timeRange(9, 0, 17, 30)` is true. -/
theorem timeRange_four_arguments_witness :
    timeRange summerHost 1784109600000 1784109600000 1784109600000
        [Value.number (Number.ofInt 9), Value.number (Number.ofInt 0),
          Value.number (Number.ofInt 17), Value.number (Number.ofInt 30)] =
      Completion.normal true ∧
    timeRange summerHost 1784109600000 1784109600000 1784109600000
        [Value.number (Number.ofInt 12), Value.number (Number.ofInt 35),
          Value.number (Number.ofInt 17), Value.number (Number.ofInt 30)] =
      Completion.normal false ∧
    timeRange summerHost 1792922400000 1792922400000 1792922400000
        [Value.number (Number.ofInt 9), Value.number (Number.ofInt 0),
          Value.number (Number.ofInt 17), Value.number (Number.ofInt 30)] =
      Completion.normal true := by
  refine ⟨?_, ?_, ?_⟩
  · rw [timeRange_four_arguments summerHost 1784109600000 9 0 17 30 summerHost_bounded
      (by
        intro l hl
        simp only [timeRange_localTimes, List.mem_cons, List.mem_singleton, List.mem_nil_iff,
          or_false] at hl
        rcases hl with rfl | rfl | rfl | rfl | rfl <;>
          exact summerHost_quiet _ (by decide) (by decide))
      (by decide) (by decide) (by decide) (by decide)]
    decide
  · rw [timeRange_four_arguments summerHost 1784109600000 12 35 17 30 summerHost_bounded
      (by
        intro l hl
        simp only [timeRange_localTimes, List.mem_cons, List.mem_singleton, List.mem_nil_iff,
          or_false] at hl
        rcases hl with rfl | rfl | rfl | rfl | rfl <;>
          exact summerHost_quiet _ (by decide) (by decide))
      (by decide) (by decide) (by decide) (by decide)]
    decide
  · rw [timeRange_four_arguments summerHost 1792922400000 9 0 17 30 summerHost_bounded
      (by
        intro l hl
        simp only [timeRange_localTimes, List.mem_cons, List.mem_singleton, List.mem_nil_iff,
          or_false] at hl
        rcases hl with rfl | rfl | rfl | rfl | rfl <;>
          exact summerHost_quiet _ (by decide) (by decide))
      (by decide) (by decide) (by decide) (by decide)]
    decide

/-- C12 (evaluation of the code at the failing input): at 2026-11-04T20:00:00Z, on a host at
UTC+10, `timeRange(0, 0, 23, 59, "GMT")` is false although the UTC time of day is 20:00:00,
while on a host in the UTC zone the same call at the same instant is true. The setters put
`date1` and `date2` on the local day (5 November), and the `GMT` block moves `date` to the
UTC day (4 November). -/
theorem timeRange_GMT_depends_on_zone :
    secondsOfDay 1793822400000 = 20 * 3600 ∧
    timeRange plusTenHost 1793822400000 1793822400000 1793822400000
        [Value.number (Number.ofInt 0), Value.number (Number.ofInt 0),
          Value.number (Number.ofInt 23), Value.number (Number.ofInt 59),
          Value.string "GMT"] = Completion.normal false ∧
    timeRange utcHost 1793822400000 1793822400000 1793822400000
        [Value.number (Number.ofInt 0), Value.number (Number.ofInt 0),
          Value.number (Number.ofInt 23), Value.number (Number.ofInt 59),
          Value.string "GMT"] = Completion.normal true ∧
    Day (LocalTime plusTenHost 1793822400000) = Day 1793822400000 + 1 := by
  set_option maxRecDepth 100000 in decide

/-! ## The calendar of ES5 §15.9.1 -/

theorem DaysInYear_cases (y : Int) : DaysInYear y = 365 ∨ DaysInYear y = 366 := by
  unfold DaysInYear
  split_ifs <;> simp

theorem DayFromYear_succ (y : Int) : DayFromYear (y + 1) = DayFromYear y + DaysInYear y := by
  unfold DayFromYear DaysInYear
  split_ifs <;> omega

theorem DayFromYear_mono (a b : Int) (h : a ≤ b) : DayFromYear a ≤ DayFromYear b := by
  unfold DayFromYear
  omega

theorem yearSearch_spec (d : Int) (fuel : Nat) (y : Int) (h1 : DayFromYear y ≤ d)
    (h2 : d < DayFromYear (y + fuel)) :
    DayFromYear (yearSearch d fuel y) ≤ d ∧ d < DayFromYear (yearSearch d fuel y + 1) := by
  induction fuel generalizing y with
  | zero =>
    simp only [Nat.cast_zero, add_zero] at h2
    omega
  | succ fuel ih =>
    rw [yearSearch]
    split_ifs with hc
    · apply ih (y + 1) hc
      have e : y + 1 + (fuel : Int) = y + ((fuel + 1 : Nat) : Int) := by push_cast; ring
      rw [e]
      exact h2
    · exact ⟨h1, by omega⟩

/-- `YearFromTime(t)` is the year whose days contain the day of `t`. -/
theorem YearFromTime_spec (t : Int) :
    DayFromYear (YearFromTime t) ≤ Day t ∧ Day t < DayFromYear (YearFromTime t + 1) := by
  unfold YearFromTime
  dsimp only
  apply yearSearch_spec
  · unfold DayFromYear
    split_ifs <;> omega
  · unfold DayFromYear
    split_ifs <;> omega

theorem YearFromTime_unique (t y : Int) (h1 : DayFromYear y ≤ Day t)
    (h2 : Day t < DayFromYear (y + 1)) : YearFromTime t = y := by
  obtain ⟨s1, s2⟩ := YearFromTime_spec t
  by_contra hne
  rcases lt_or_gt_of_ne hne with h | h
  · have := DayFromYear_mono (YearFromTime t + 1) y (by omega)
    omega
  · have := DayFromYear_mono (y + 1) (YearFromTime t) (by omega)
    omega

/-- The branch of `MonthFromTime` that a day within the year selects. -/
theorem MonthFromTime_cases (t : Int) :
    (DayWithinYear t < 31 ∧ MonthFromTime t = 0) ∨
    (31 ≤ DayWithinYear t ∧ DayWithinYear t < 59 + InLeapYear t ∧ MonthFromTime t = 1) ∨
    (59 + InLeapYear t ≤ DayWithinYear t ∧ DayWithinYear t < 90 + InLeapYear t ∧
      MonthFromTime t = 2) ∨
    (90 + InLeapYear t ≤ DayWithinYear t ∧ DayWithinYear t < 120 + InLeapYear t ∧
      MonthFromTime t = 3) ∨
    (120 + InLeapYear t ≤ DayWithinYear t ∧ DayWithinYear t < 151 + InLeapYear t ∧
      MonthFromTime t = 4) ∨
    (151 + InLeapYear t ≤ DayWithinYear t ∧ DayWithinYear t < 181 + InLeapYear t ∧
      MonthFromTime t = 5) ∨
    (181 + InLeapYear t ≤ DayWithinYear t ∧ DayWithinYear t < 212 + InLeapYear t ∧
      MonthFromTime t = 6) ∨
    (212 + InLeapYear t ≤ DayWithinYear t ∧ DayWithinYear t < 243 + InLeapYear t ∧
      MonthFromTime t = 7) ∨
    (243 + InLeapYear t ≤ DayWithinYear t ∧ DayWithinYear t < 273 + InLeapYear t ∧
      MonthFromTime t = 8) ∨
    (273 + InLeapYear t ≤ DayWithinYear t ∧ DayWithinYear t < 304 + InLeapYear t ∧
      MonthFromTime t = 9) ∨
    (304 + InLeapYear t ≤ DayWithinYear t ∧ DayWithinYear t < 334 + InLeapYear t ∧
      MonthFromTime t = 10) ∨
    (334 + InLeapYear t ≤ DayWithinYear t ∧ MonthFromTime t = 11) := by
  unfold MonthFromTime
  generalize DayWithinYear t = d
  generalize InLeapYear t = l
  dsimp only
  by_cases c0 : d < 31
  · left; rw [if_pos c0]; exact ⟨c0, rfl⟩
  by_cases c1 : d < 59 + l
  · right; left; rw [if_neg c0, if_pos c1]; exact ⟨by omega, c1, rfl⟩
  by_cases c2 : d < 90 + l
  · right; right; left; rw [if_neg c0, if_neg c1, if_pos c2]; exact ⟨by omega, c2, rfl⟩
  by_cases c3 : d < 120 + l
  · right; right; right; left; rw [if_neg c0, if_neg c1, if_neg c2, if_pos c3]; exact ⟨by omega, c3, rfl⟩
  by_cases c4 : d < 151 + l
  · right; right; right; right; left; rw [if_neg c0, if_neg c1, if_neg c2, if_neg c3, if_pos c4]; exact ⟨by omega, c4, rfl⟩
  by_cases c5 : d < 181 + l
  · right; right; right; right; right; left; rw [if_neg c0, if_neg c1, if_neg c2, if_neg c3, if_neg c4, if_pos c5]; exact ⟨by omega, c5, rfl⟩
  by_cases c6 : d < 212 + l
  · right; right; right; right; right; right; left; rw [if_neg c0, if_neg c1, if_neg c2, if_neg c3, if_neg c4, if_neg c5, if_pos c6]; exact ⟨by omega, c6, rfl⟩
  by_cases c7 : d < 243 + l
  · right; right; right; right; right; right; right; left; rw [if_neg c0, if_neg c1, if_neg c2, if_neg c3, if_neg c4, if_neg c5, if_neg c6, if_pos c7]; exact ⟨by omega, c7, rfl⟩
  by_cases c8 : d < 273 + l
  · right; right; right; right; right; right; right; right; left; rw [if_neg c0, if_neg c1, if_neg c2, if_neg c3, if_neg c4, if_neg c5, if_neg c6, if_neg c7, if_pos c8]; exact ⟨by omega, c8, rfl⟩
  by_cases c9 : d < 304 + l
  · right; right; right; right; right; right; right; right; right; left; rw [if_neg c0, if_neg c1, if_neg c2, if_neg c3, if_neg c4, if_neg c5, if_neg c6, if_neg c7, if_neg c8, if_pos c9]; exact ⟨by omega, c9, rfl⟩
  by_cases c10 : d < 334 + l
  · right; right; right; right; right; right; right; right; right; right; left; rw [if_neg c0, if_neg c1, if_neg c2, if_neg c3, if_neg c4, if_neg c5, if_neg c6, if_neg c7, if_neg c8, if_neg c9, if_pos c10]; exact ⟨by omega, c10, rfl⟩
  right; right; right; right; right; right; right; right; right; right; right; rw [if_neg c0, if_neg c1, if_neg c2, if_neg c3, if_neg c4, if_neg c5, if_neg c6, if_neg c7, if_neg c8, if_neg c9, if_neg c10]; exact ⟨by omega, rfl⟩

/-- The leap-year flag is 0 or 1. -/
theorem InLeapYear_cases (t : Int) : InLeapYear t = 0 ∨ InLeapYear t = 1 := by
  unfold InLeapYear
  split_ifs <;> simp

/-- The day of the month is the day within the year less the days before the month,
plus one. -/
theorem DateFromTime_eq (t : Int) :
    DateFromTime t = DayWithinYear t - daysBeforeMonth (MonthFromTime t) (InLeapYear t) + 1 := by
  rcases MonthFromTime_cases t with ⟨a, e⟩ | ⟨a, b, e⟩ | ⟨a, b, e⟩ | ⟨a, b, e⟩ | ⟨a, b, e⟩ |
    ⟨a, b, e⟩ | ⟨a, b, e⟩ | ⟨a, b, e⟩ | ⟨a, b, e⟩ | ⟨a, b, e⟩ | ⟨a, b, e⟩ | ⟨a, e⟩ <;>
  · unfold DateFromTime daysBeforeMonth
    rw [e]
    simp only []
    omega

/-- The day within the year splits into the days before the month and the day of the
month, which lies between 1 and 31. -/
theorem month_date_decomp (t : Int) (h0 : 0 ≤ DayWithinYear t)
    (h1 : DayWithinYear t < 365 + InLeapYear t) :
    0 ≤ MonthFromTime t ∧ MonthFromTime t ≤ 11 ∧
    DayWithinYear t =
      daysBeforeMonth (MonthFromTime t) (InLeapYear t) + DateFromTime t - 1 ∧
    1 ≤ DateFromTime t ∧ DateFromTime t ≤ 31 := by
  have hd := DateFromTime_eq t
  have hl := InLeapYear_cases t
  rcases MonthFromTime_cases t with ⟨a, e⟩ | ⟨a, b, e⟩ | ⟨a, b, e⟩ | ⟨a, b, e⟩ | ⟨a, b, e⟩ |
    ⟨a, b, e⟩ | ⟨a, b, e⟩ | ⟨a, b, e⟩ | ⟨a, b, e⟩ | ⟨a, b, e⟩ | ⟨a, b, e⟩ | ⟨a, e⟩ <;>
  · rw [e] at hd ⊢
    unfold daysBeforeMonth at hd ⊢
    simp only [] at hd ⊢
    refine ⟨by decide, by decide, ?_, ?_, ?_⟩ <;> omega

/-- The month and the day of the month of a day within January. -/
theorem month_date_january (t d : Int) (hd : 1 ≤ d ∧ d ≤ 31) (h : DayWithinYear t = d - 1) :
    MonthFromTime t = 0 ∧ DateFromTime t = d := by
  have hdate := DateFromTime_eq t
  have hl := InLeapYear_cases t
  rcases MonthFromTime_cases t with ⟨a, e⟩ | ⟨a, b, e⟩ | ⟨a, b, e⟩ | ⟨a, b, e⟩ | ⟨a, b, e⟩ |
    ⟨a, b, e⟩ | ⟨a, b, e⟩ | ⟨a, b, e⟩ | ⟨a, b, e⟩ | ⟨a, b, e⟩ | ⟨a, b, e⟩ | ⟨a, e⟩
  · rw [e] at hdate
    unfold daysBeforeMonth at hdate
    simp only [] at hdate
    exact ⟨e, by omega⟩
  all_goals (exfalso; omega)

/-- The month and the day of the month of a day within December. -/
theorem month_date_december (t d : Int) (hd : 1 ≤ d ∧ d ≤ 31)
    (h : DayWithinYear t = 334 + InLeapYear t + d - 1) :
    MonthFromTime t = 11 ∧ DateFromTime t = d := by
  have hdate := DateFromTime_eq t
  have hl := InLeapYear_cases t
  rcases MonthFromTime_cases t with ⟨a, e⟩ | ⟨a, b, e⟩ | ⟨a, b, e⟩ | ⟨a, b, e⟩ | ⟨a, b, e⟩ |
    ⟨a, b, e⟩ | ⟨a, b, e⟩ | ⟨a, b, e⟩ | ⟨a, b, e⟩ | ⟨a, b, e⟩ | ⟨a, b, e⟩ | ⟨a, e⟩
  case inr.inr.inr.inr.inr.inr.inr.inr.inr.inr.inr =>
    rw [e] at hdate
    unfold daysBeforeMonth at hdate
    simp only [] at hdate
    exact ⟨e, by omega⟩
  all_goals (exfalso; omega)

/-- The calendar fields of the local time `(DayFromYear Y + dwy) × msPerDay + tod`. -/
theorem fields_of_year_day (Y dwy tod : Int) (h0 : 0 ≤ dwy) (h1 : dwy < DaysInYear Y)
    (ht : 0 ≤ tod ∧ tod < 86400000) :
    Day (MakeDate (DayFromYear Y + dwy) tod) = DayFromYear Y + dwy ∧
    TimeWithinDay (MakeDate (DayFromYear Y + dwy) tod) = tod ∧
    YearFromTime (MakeDate (DayFromYear Y + dwy) tod) = Y ∧
    DayWithinYear (MakeDate (DayFromYear Y + dwy) tod) = dwy ∧
    InLeapYear (MakeDate (DayFromYear Y + dwy) tod) = (if DaysInYear Y = 366 then 1 else 0) := by
  have hday : Day (MakeDate (DayFromYear Y + dwy) tod) = DayFromYear Y + dwy := by
    unfold Day MakeDate msPerDay
    omega
  have htod : TimeWithinDay (MakeDate (DayFromYear Y + dwy) tod) = tod := by
    unfold TimeWithinDay MakeDate msPerDay
    omega
  have hyear : YearFromTime (MakeDate (DayFromYear Y + dwy) tod) = Y := by
    apply YearFromTime_unique
    · rw [hday]
      omega
    · rw [hday, DayFromYear_succ]
      omega
  refine ⟨hday, htod, hyear, ?_, ?_⟩
  · unfold DayWithinYear
    rw [hday, hyear]
    omega
  · unfold InLeapYear
    rw [hyear]

/-! ## `dateRange` with two days of the month -/

theorem parseInt_day (NumberToString : ℚ → String) (d : Int) (h : 1 ≤ d ∧ d ≤ 31) :
    parseInt NumberToString (Value.number (Number.ofInt d)) = some d := by
  obtain ⟨h1, h2⟩ := h
  interval_cases d <;> rfl

theorem daysBeforeMonth_bounds (m leap : Int) (hm : 0 ≤ m ∧ m ≤ 11)
    (hl : leap = 0 ∨ leap = 1) :
    0 ≤ daysBeforeMonth m leap ∧ daysBeforeMonth m leap ≤ 334 + leap := by
  obtain ⟨h1, h2⟩ := hm
  interval_cases m <;> simp only [daysBeforeMonth] <;> omega

/-- The day number that `MakeDay` gives for a month from 0 to 11. -/
theorem MakeDay_month (y m d : Int) (hm : 0 ≤ m ∧ m ≤ 11) :
    MakeDay y m d =
      DayFromYear y + daysBeforeMonth m (if DaysInYear y = 366 then 1 else 0) + d - 1 := by
  have e1 : m / 12 = 0 := by omega
  have e2 : m % 12 = m := by omega
  unfold MakeDay
  simp only [e1, e2, add_zero]

/-- `setDate` on the time value of a local time before which the clocks are quiet. -/
theorem setDate_quiet (H : Host) (l dt : Int) (hb : BoundedDST H) (hq : QuietBefore H l) :
    setDate H (some (UTC H l)) (Number.ofInt dt) =
      some (UTC H (MakeDate (MakeDay (YearFromTime l) (MonthFromTime l) dt)
        (TimeWithinDay l))) := by
  simp only [setDate, toInt?_ofInt, quiet_roundtrip H l hb hq]

/-- `setMonth` on the time value of a local time before which the clocks are quiet. -/
theorem setMonth_quiet (H : Host) (l m : Int) (hb : BoundedDST H) (hq : QuietBefore H l) :
    setMonth H (some (UTC H l)) (Number.ofInt m) =
      some (UTC H (MakeDate (MakeDay (YearFromTime l) m (DateFromTime l))
        (TimeWithinDay l))) := by
  simp only [setMonth, toInt?_ofInt, quiet_roundtrip H l hb hq]

/-- The constructor of a date from local-time fields gives the time value of that local
time, for a year outside 0 to 99. -/
theorem newDate_year (H : Host) (y m d h mi s : Int) (hy : ¬ (0 ≤ y ∧ y ≤ 99)) :
    newDate H (some y) m d h mi s =
      some (UTC H (MakeDate (MakeDay y m d) (MakeTime h mi s 0))) := by
  unfold newDate
  simp only [hy, if_false]

/-- The call `dateRange(d1, d2)` with two days of the month compares the current time with
`date1`, built from 1 January 00:00:00 by `setDate(d1)` and `setMonth` of the current
month, and with `date2`, built from 31 December 23:59:59 in the same way with `d2`. -/
theorem dateRange_two_days_eq (H : Host) (NumberToString : ℚ → String) (now d1 d2 : Int)
    (h1 : 1 ≤ d1 ∧ d1 ≤ 31) (h2 : 1 ≤ d2 ∧ d2 ≤ 31) :
    dateRange H NumberToString now
        [Value.number (Number.ofInt d1), Value.number (Number.ofInt d2)] =
      (dateLe
          (setMonth H
            (setDate H (newDate H (some (YearFromTime (LocalTime H now))) 0 1 0 0 0)
              (Number.ofInt d1))
            (Number.ofInt (MonthFromTime (LocalTime H now))))
          (some now) &&
        dateLe (some now)
          (setMonth H
            (setDate H (newDate H (some (YearFromTime (LocalTime H now))) 11 31 23 59 59)
              (Number.ofInt d2))
            (Number.ofInt (MonthFromTime (LocalTime H now))))) := by
  have hp1 := parseInt_day NumberToString d1 h1
  have hp2 := parseInt_day NumberToString d2 h2
  have hd1 : d1 < 32 := by omega
  have hd2 : d2 < 32 := by omega
  have hG : looseEq H
      (argAt [Value.number (Number.ofInt d1), Value.number (Number.ofInt d2)]
        ([Value.number (Number.ofInt d1), Value.number (Number.ofInt d2)].length - 1))
      (Value.string "GMT") = false :=
    looseEq_number_GMT H (Number.ofInt d2)
  have hY : getFullYear H (some now) = some (YearFromTime (LocalTime H now)) := rfl
  have hM : Number.ofTime (getMonth H (some now)) =
      Number.ofInt (MonthFromTime (LocalTime H now)) := rfl
  unfold dateRange
  simp only [hG]
  simp [dateRange.bounds, dateRange_loops_two, dateRange.first, dateRange.second, hp1, hp2,
    hd1, hd2, hY, hM]

/-- The time of day of 23:59:59. -/
theorem MakeTime_last_second : MakeTime 23 59 59 0 = 86399000 := by decide

/-- The time of day of 00:00:00. -/
theorem MakeTime_midnight : MakeTime 0 0 0 0 = 0 := by decide

/-- The local time of `now` in terms of its year, month, day of the month and time of
day. -/
theorem local_decomp (L : Int) :
    L = MakeDate (DayFromYear (YearFromTime L) +
        (daysBeforeMonth (MonthFromTime L) (if DaysInYear (YearFromTime L) = 366 then 1 else 0)
          + DateFromTime L - 1)) (TimeWithinDay L) ∧
    (0 ≤ MonthFromTime L ∧ MonthFromTime L ≤ 11) ∧
    (1 ≤ DateFromTime L ∧ DateFromTime L ≤ 31) ∧
    (0 ≤ TimeWithinDay L ∧ TimeWithinDay L < 86400000) ∧
    0 ≤ daysBeforeMonth (MonthFromTime L)
        (if DaysInYear (YearFromTime L) = 366 then 1 else 0) + DateFromTime L - 1 ∧
    daysBeforeMonth (MonthFromTime L)
        (if DaysInYear (YearFromTime L) = 366 then 1 else 0) + DateFromTime L - 1 <
      DaysInYear (YearFromTime L) := by
  have hspec := YearFromTime_spec L
  have hdiy := DaysInYear_cases (YearFromTime L)
  have hsucc := DayFromYear_succ (YearFromTime L)
  have hleap : InLeapYear L = if DaysInYear (YearFromTime L) = 366 then 1 else 0 := rfl
  have hdwy : DayWithinYear L = Day L - DayFromYear (YearFromTime L) := rfl
  have hl := InLeapYear_cases L
  have hdec := month_date_decomp L (by omega) (by rw [hleap]; split_ifs <;> omega)
  rw [hleap] at hdec
  obtain ⟨hM0, hM11, hdw, hD1, hD31⟩ := hdec
  have htod : 0 ≤ TimeWithinDay L ∧ TimeWithinDay L < 86400000 := by
    unfold TimeWithinDay msPerDay
    omega
  have hL : L = Day L * 86400000 + TimeWithinDay L := by
    unfold TimeWithinDay Day msPerDay
    omega
  refine ⟨?_, ⟨hM0, hM11⟩, ⟨hD1, hD31⟩, htod, by omega, by omega⟩
  unfold MakeDate msPerDay
  rw [← hdw, hdwy]
  omega

theorem daysBeforeMonth_january (leap : Int) : daysBeforeMonth 0 leap = 0 := by
  simp only [daysBeforeMonth]

theorem daysBeforeMonth_december (leap : Int) : daysBeforeMonth 11 leap = 334 + leap := by
  simp only [daysBeforeMonth]

/-- Month and day of the month of the local time of day `d` of January or December of
year `Y`. -/
theorem month_date_of_first_or_last (Y m d tod : Int) (hm : m = 0 ∨ m = 11)
    (hd : 1 ≤ d ∧ d ≤ 31) (ht : 0 ≤ tod ∧ tod < 86400000) :
    YearFromTime (MakeDate (DayFromYear Y +
        (daysBeforeMonth m (if DaysInYear Y = 366 then 1 else 0) + d - 1)) tod) = Y ∧
    MonthFromTime (MakeDate (DayFromYear Y +
        (daysBeforeMonth m (if DaysInYear Y = 366 then 1 else 0) + d - 1)) tod) = m ∧
    DateFromTime (MakeDate (DayFromYear Y +
        (daysBeforeMonth m (if DaysInYear Y = 366 then 1 else 0) + d - 1)) tod) = d ∧
    TimeWithinDay (MakeDate (DayFromYear Y +
        (daysBeforeMonth m (if DaysInYear Y = 366 then 1 else 0) + d - 1)) tod) = tod := by
  have hdiy := DaysInYear_cases Y
  have hlp : (if DaysInYear Y = 366 then (1 : Int) else 0) = 0 ∨
      (if DaysInYear Y = 366 then (1 : Int) else 0) = 1 := by
    split_ifs
    · right; rfl
    · left; rfl
  have hlen : DaysInYear Y = 365 + (if DaysInYear Y = 366 then (1 : Int) else 0) := by
    split_ifs with h
    · omega
    · omega
  rcases hm with rfl | rfl
  · rw [daysBeforeMonth_january]
    have f := fields_of_year_day Y (0 + d - 1) tod (by omega) (by omega) ht
    have g := month_date_january _ d hd (by rw [f.2.2.2.1]; omega)
    exact ⟨f.2.2.1, g.1, g.2, f.2.1⟩
  · rw [daysBeforeMonth_december]
    have f := fields_of_year_day Y
      (334 + (if DaysInYear Y = 366 then (1 : Int) else 0) + d - 1) tod (by omega) (by omega) ht
    have g := month_date_december _ d hd (by rw [f.2.2.2.1, f.2.2.2.2])
    exact ⟨f.2.2.1, g.1, g.2, f.2.1⟩

/-- Year, month, day of the month and time of day of the local time of day `d` of
January or December of year `Y`. -/
theorem fields_MakeDay (Y m d tod : Int) (hm : m = 0 ∨ m = 11)
    (hd : 1 ≤ d ∧ d ≤ 31) (ht : 0 ≤ tod ∧ tod < 86400000) :
    YearFromTime (MakeDate (MakeDay Y m d) tod) = Y ∧
    MonthFromTime (MakeDate (MakeDay Y m d) tod) = m ∧
    DateFromTime (MakeDate (MakeDay Y m d) tod) = d ∧
    TimeWithinDay (MakeDate (MakeDay Y m d) tod) = tod := by
  have hm2 : 0 ≤ m ∧ m ≤ 11 := by rcases hm with rfl | rfl <;> decide
  have c : MakeDay Y m d =
      DayFromYear Y + (daysBeforeMonth m (if DaysInYear Y = 366 then 1 else 0) + d - 1) := by
    rw [MakeDay_month Y m d hm2]
    omega
  rw [c]
  exact month_date_of_first_or_last Y m d tod hm hd ht

/-- When the clocks are quiet before the two local times involved, `setDate(d)` and then
`setMonth(M)` on day `d0` of January or December of year `Y`, at time of day `tod`, give
day `d` of month `M` of that year at the same time of day (days beyond the end of the
month counting on into the next one). -/
theorem setDate_setMonth_quiet (H : Host) (Y m0 d0 tod d M : Int) (hb : BoundedDST H)
    (hq0 : QuietBefore H (MakeDate (MakeDay Y m0 d0) tod))
    (hq1 : QuietBefore H (MakeDate (MakeDay Y m0 d) tod))
    (hm0 : m0 = 0 ∨ m0 = 11) (hd0 : 1 ≤ d0 ∧ d0 ≤ 31) (hd : 1 ≤ d ∧ d ≤ 31)
    (htod : 0 ≤ tod ∧ tod < 86400000) :
    setMonth H
        (setDate H (some (UTC H (MakeDate (MakeDay Y m0 d0) tod))) (Number.ofInt d))
        (Number.ofInt M) =
      some (UTC H (MakeDate (MakeDay Y M d) tod)) := by
  obtain ⟨f1, f2, -, f4⟩ := fields_MakeDay Y m0 d0 tod hm0 hd0 htod
  obtain ⟨g1, -, g3, g4⟩ := fields_MakeDay Y m0 d tod hm0 hd htod
  rw [setDate_quiet H _ d hb hq0, f1, f2, f4, setMonth_quiet H _ M hb hq1, g1, g3, g4]

/-- C15 (amended): for two days of the month `d1` and `d2` from 1 to 31,
`dateRange(d1, d2)` returns true exactly when `d1 <= D <= d2` for the day of the month `D`
of the current local time, provided that the daylight saving adjustment of the host lies
between 0 and one hour, that the clocks do not change in the hour before any of the six
local times that the call passes through (1 January, day `d1` of January and day `d1` of
the current month at 00:00:00; 31 December, day `d2` of December and day `d2` of the
current month at 23:59:59), that the current local year is not one of the years 0 to 99,
and that the current time is not in the last 999 milliseconds of day `d2`. -/
theorem dateRange_two_days (H : Host) (NumberToString : ℚ → String) (now d1 d2 : Int)
    (hb : BoundedDST H)
    (hq : ∀ l ∈ dateRange_localTimes (YearFromTime (LocalTime H now))
      (MonthFromTime (LocalTime H now)) d1 d2, QuietBefore H l)
    (hy : ¬ (0 ≤ YearFromTime (LocalTime H now) ∧ YearFromTime (LocalTime H now) ≤ 99))
    (h1 : 1 ≤ d1 ∧ d1 ≤ 31) (h2 : 1 ≤ d2 ∧ d2 ≤ 31)
    (hms : DateFromTime (LocalTime H now) = d2 →
      TimeWithinDay (LocalTime H now) ≤ 86399000) :
    dateRange H NumberToString now
        [Value.number (Number.ofInt d1), Value.number (Number.ofInt d2)] =
      decide (d1 ≤ DateFromTime (LocalTime H now) ∧ DateFromTime (LocalTime H now) ≤ d2) := by
  rw [dateRange_two_days_eq H NumberToString now d1 d2 h1 h2]
  obtain ⟨hL, hM, hD, hT, ha0, ha1⟩ := local_decomp (LocalTime H now)
  have qA0 := hq _ (List.mem_cons_self _ _)
  have qA1 := hq _ (List.mem_cons_of_mem _ (List.mem_cons_self _ _))
  have qA2 := hq _ (List.mem_cons_of_mem _ (List.mem_cons_of_mem _ (List.mem_cons_self _ _)))
  have qB0 := hq _ (List.mem_cons_of_mem _ (List.mem_cons_of_mem _
    (List.mem_cons_of_mem _ (List.mem_cons_self _ _))))
  have qB1 := hq _ (List.mem_cons_of_mem _ (List.mem_cons_of_mem _
    (List.mem_cons_of_mem _ (List.mem_cons_of_mem _ (List.mem_cons_self _ _)))))
  have qB2 := hq _ (List.mem_cons_of_mem _ (List.mem_cons_of_mem _
    (List.mem_cons_of_mem _ (List.mem_cons_of_mem _ (List.mem_cons_of_mem _
      (List.mem_cons_self _ _))))))
  generalize YearFromTime (LocalTime H now) = Y at *
  generalize MonthFromTime (LocalTime H now) = M at *
  generalize DateFromTime (LocalTime H now) = D at *
  generalize TimeWithinDay (LocalTime H now) = T at *
  have ch1 := setDate_setMonth_quiet H Y 0 1 0 d1 M hb qA0 qA1 (Or.inl rfl)
    ⟨by decide, by decide⟩ h1 ⟨by decide, by decide⟩
  have ch2 := setDate_setMonth_quiet H Y 11 31 86399000 d2 M hb qB0 qB1 (Or.inr rfl)
    ⟨by decide, by decide⟩ h2 ⟨by decide, by decide⟩
  rw [newDate_year H Y 0 1 0 0 0 hy, newDate_year H Y 11 31 23 59 59 hy, MakeTime_midnight,
    MakeTime_last_second, ch1, ch2, dateLe_some, dateLe_some, Bool.eq_iff_iff]
  simp only [Bool.and_eq_true, decide_eq_true_eq, quiet_le H now _ hb qA2,
    quiet_ge H now _ hb qB2]
  rw [MakeDay_month Y M d1 hM, MakeDay_month Y M d2 hM]
  unfold MakeDate msPerDay at hL ⊢
  by_cases hDd : D = d2
  · have hms2 := hms hDd
    constructor <;> intro h <;> constructor <;> omega
  · constructor <;> intro h <;> constructor <;> omega

/-- C15 (the claim as stated fails): three evaluations of `dateRange(d1, d2)` that differ
from `d1 <= D <= d2` for the local day of the month `D`. At 2026-11-04T23:59:59.500Z on a
host in the UTC zone `dateRange(1, 4)` is false on day 4, as `date2` is 23:59:59.000. On
10 January of the year 50, `dateRange(1, 31)` is false, as the constructor takes the year 50
for 1950. On a host whose clocks go back from 00:30 on 2 January to 23:30 on 1 January,
`dateRange(1, 1)` is true at 00:20 on 2 January. -/
theorem dateRange_two_days_fail :
    (DateFromTime (LocalTime utcHost 1793836799500) = 4 ∧
      TimeWithinDay (LocalTime utcHost 1793836799500) = 86399500 ∧
      dateRange utcHost plainPrinter 1793836799500
        [Value.number (Number.ofInt 1), Value.number (Number.ofInt 4)] = false) ∧
    (YearFromTime (LocalTime utcHost (-60588475200000)) = 50 ∧
      DateFromTime (LocalTime utcHost (-60588475200000)) = 10 ∧
      dateRange utcHost plainPrinter (-60588475200000)
        [Value.number (Number.ofInt 1), Value.number (Number.ofInt 31)] = false) ∧
    (DateFromTime (LocalTime midnightFallBackHost 84000000) = 2 ∧
      TimeWithinDay (LocalTime midnightFallBackHost 84000000) = 1200000 ∧
      dateRange midnightFallBackHost plainPrinter 84000000
        [Value.number (Number.ofInt 1), Value.number (Number.ofInt 1)] = true) := by
  set_option maxRecDepth 100000 in decide

/-- C15, instances on a host with the summer time of central Europe in 2026. At
2026-07-15T10:00:00Z (summer time; January and December are in standard time)
`dateRange(1, 15)` and `dateRange(15, 15)` are true, `dateRange(16, 31)` and
`dateRange(1, 14)` are false. At 2026-10-28T10:00:00Z, three days after the clocks went
back, `dateRange(1, 28)` is true and `dateRange(29, 31)` is false. -/
theorem dateRange_two_days_witness :
    dateRange summerHost plainPrinter 1784109600000
        [Value.number (Number.ofInt 1), Value.number (Number.ofInt 15)] = true ∧
    dateRange summerHost plainPrinter 1784109600000
        [Value.number (Number.ofInt 15), Value.number (Number.ofInt 15)] = true ∧
    dateRange summerHost plainPrinter 1784109600000
        [Value.number (Number.ofInt 16), Value.number (Number.ofInt 31)] = false ∧
    dateRange summerHost plainPrinter 1784109600000
        [Value.number (Number.ofInt 1), Value.number (Number.ofInt 14)] = false ∧
    dateRange summerHost plainPrinter 1793181600000
        [Value.number (Number.ofInt 1), Value.number (Number.ofInt 28)] = true ∧
    dateRange summerHost plainPrinter 1793181600000
        [Value.number (Number.ofInt 29), Value.number (Number.ofInt 31)] = false := by
  refine ⟨?_, ?_, ?_, ?_, ?_, ?_⟩
  · rw [dateRange_two_days summerHost plainPrinter 1784109600000 1 15 summerHost_bounded
      (by
        intro l hl
        simp only [dateRange_localTimes, List.mem_cons, List.mem_singleton, List.mem_nil_iff,
          or_false] at hl
        rcases hl with rfl | rfl | rfl | rfl | rfl | rfl <;>
          exact summerHost_quiet _ (by decide) (by decide))
      (by decide) (by decide) (by decide) (by decide)]
    decide
  · rw [dateRange_two_days summerHost plainPrinter 1784109600000 15 15 summerHost_bounded
      (by
        intro l hl
        simp only [dateRange_localTimes, List.mem_cons, List.mem_singleton, List.mem_nil_iff,
          or_false] at hl
        rcases hl with rfl | rfl | rfl | rfl | rfl | rfl <;>
          exact summerHost_quiet _ (by decide) (by decide))
      (by decide) (by decide) (by decide) (by decide)]
    decide
  · rw [dateRange_two_days summerHost plainPrinter 1784109600000 16 31 summerHost_bounded
      (by
        intro l hl
        simp only [dateRange_localTimes, List.mem_cons, List.mem_singleton, List.mem_nil_iff,
          or_false] at hl
        rcases hl with rfl | rfl | rfl | rfl | rfl | rfl <;>
          exact summerHost_quiet _ (by decide) (by decide))
      (by decide) (by decide) (by decide) (by decide)]
    decide
  · rw [dateRange_two_days summerHost plainPrinter 1784109600000 1 14 summerHost_bounded
      (by
        intro l hl
        simp only [dateRange_localTimes, List.mem_cons, List.mem_singleton, List.mem_nil_iff,
          or_false] at hl
        rcases hl with rfl | rfl | rfl | rfl | rfl | rfl <;>
          exact summerHost_quiet _ (by decide) (by decide))
      (by decide) (by decide) (by decide) (by decide)]
    decide
  · rw [dateRange_two_days summerHost plainPrinter 1793181600000 1 28 summerHost_bounded
      (by
        intro l hl
        simp only [dateRange_localTimes, List.mem_cons, List.mem_singleton, List.mem_nil_iff,
          or_false] at hl
        rcases hl with rfl | rfl | rfl | rfl | rfl | rfl <;>
          exact summerHost_quiet _ (by decide) (by decide))
      (by decide) (by decide) (by decide) (by decide)]
    decide
  · rw [dateRange_two_days summerHost plainPrinter 1793181600000 29 31 summerHost_bounded
      (by
        intro l hl
        simp only [dateRange_localTimes, List.mem_cons, List.mem_singleton, List.mem_nil_iff,
          or_false] at hl
        rcases hl with rfl | rfl | rfl | rfl | rfl | rfl <;>
          exact summerHost_quiet _ (by decide) (by decide))
      (by decide) (by decide) (by decide) (by decide)]
    decide

/-! ## `myIpAddress` -/

theorem moveLoop_length (n ellipsis : Nat) (j : Nat) (ip : List UInt8) :
    (moveLoop n ellipsis j ip).length = ip.length := by
  induction j generalizing ip with
  | zero => rfl
  | succ j ih =>
    unfold moveLoop
    split_ifs
    · rw [ih, List.length_set]
    · rfl

theorem clearRange_length (ip : List UInt8) (lo hi : Nat) :
    (clearRange ip lo hi).length = ip.length := by
  simp [clearRange]

theorem parseIPv6Loop_length (fuel : Nat) (s : GoString) (i : Nat) (ip : List UInt8)
    (e : Int) (r : GoString × Nat × List UInt8 × Int)
    (h : parseIPv6Loop fuel s i ip e = some r) : r.2.2.1.length = ip.length := by
  induction fuel generalizing s i ip e with
  | zero =>
    simp only [parseIPv6Loop, Option.some.injEq] at h
    subst h
    rfl
  | succ n ih =>
    unfold parseIPv6Loop at h
    repeat' (first | split at h | (dsimp only at h; split at h))
    all_goals first
      | (exfalso; exact Option.noConfusion h)
      | (simp only [Option.some.injEq] at h; subst h; simp only [List.length_set])
      | (have hlen := ih _ _ _ _ h
         simpa only [List.length_set] using hlen)

theorem parseIPv6_length (input : GoString) (b : List UInt8) (zone : GoString)
    (h : parseIPv6 input = some (b, zone)) : b.length = 16 := by
  unfold parseIPv6 at h
  repeat' (first | split at h | (dsimp only at h; split at h))
  all_goals first
    | (exfalso; exact Option.noConfusion h)
    | (simp only [Option.some.injEq, Prod.mk.injEq] at h
       obtain ⟨rfl, _⟩ := h
       try rw [clearRange_length, moveLoop_length]
       first
         | rfl
         | (have hl := parseIPv6Loop_length _ _ _ _ _ _ (by assumption)
            simpa using hl))

theorem ParseAddrFrom_As16_length (s rem : GoString) (a : Addr)
    (h : ParseAddrFrom s rem = some a) : (Addr.As16 a).length = 16 := by
  induction rem with
  | nil => exact Option.noConfusion h
  | cons c t ih =>
    unfold ParseAddrFrom at h
    split_ifs at h
    · cases hp : parseIPv4 s with
      | none => rw [hp] at h; exact Option.noConfusion h
      | some b =>
        rw [hp] at h
        simp only [Option.map_some', Option.some.injEq] at h
        subst h
        have hlen := parseIPv4Loop_length s 0 0 0 0 0 [0, 0, 0, 0] b hp
        simp only [Addr.As16, v4InV6Prefix, List.length_append, hlen]
        rfl
    · cases hp : parseIPv6 s with
      | none => rw [hp] at h; exact Option.noConfusion h
      | some r =>
        rw [hp] at h
        simp only [Option.map_some', Option.some.injEq] at h
        subst h
        exact parseIPv6_length s r.1 r.2 hp
    · exact ih h

/-- An address that `net.ParseIP` returns has sixteen bytes. -/
theorem ParseIP_length (s : GoString) (h : ParseIP s ≠ []) : (ParseIP s).length = 16 := by
  unfold ParseIP at h ⊢
  cases hp : ParseAddr s with
  | none => rw [hp] at h; exact absurd rfl h
  | some a =>
    have hl := ParseAddrFrom_As16_length s s a hp
    rw [hp] at h
    cases a with
    | v4 b => exact hl
    | v6 b zone =>
      dsimp only at h ⊢
      split_ifs at h ⊢
      · exact absurd rfl h
      · exact hl

/-- An address that `net.ParseCIDR` returns has sixteen bytes. -/
theorem ParseCIDR_length (s : GoString) (ip : IP) (h : ParseCIDR s = some ip) :
    ip.length = 16 := by
  unfold ParseCIDR at h
  dsimp only at h
  split_ifs at h
  cases hp : ParseAddr (List.take (IndexByteString s 47).toNat s) with
  | none => rw [hp] at h; exact Option.noConfusion h
  | some a =>
    rw [hp] at h
    dsimp only at h
    split_ifs at h
    simp only [Option.some.injEq] at h
    subst h
    exact ParseAddrFrom_As16_length _ _ a hp

/-- The text of a sixteen-byte address: dotted decimal when it is an IPv4-mapped address,
the IPv6 text otherwise. -/
theorem IPString_sixteen (ip : IP) (h : ip.length = 16) :
    IPString ip =
      if (To4 ip).length = 4 then
        dottedDecimal ((To4 ip).getD 0 0) ((To4 ip).getD 1 0) ((To4 ip).getD 2 0)
          ((To4 ip).getD 3 0)
      else appendTo6 ip := by
  unfold IPString
  have h0 : ¬ ip.length = 0 := by omega
  have h1 : ¬ (ip.length ≠ 4 ∧ ip.length ≠ 16) := by omega
  simp only [h0, h1, if_false]

/-- The loop over all interface addresses keeps the text of the last address that
qualifies, or the initial value when none does. -/
theorem myIpAddress_all_eq (r : Value) (addrs : List GoString) :
    myIpAddress_all r addrs =
      match (qualifyingAddresses addrs).getLast? with
      | none => r
      | some ip => ToValue (IPString ip) := by
  induction addrs generalizing r with
  | nil => rfl
  | cons a t ih =>
    unfold myIpAddress_all
    cases hp : ParseCIDR a with
    | none =>
      have hq : qualifyingAddresses (a :: t) = qualifyingAddresses t := by
        simp [qualifyingAddresses, hp]
      rw [hq]
      exact ih r
    | some ip =>
      dsimp only
      by_cases hlo : IsLoopback ip = true
      · have hq : qualifyingAddresses (a :: t) = qualifyingAddresses t := by
          simp [qualifyingAddresses, hp, hlo]
        rw [hq, if_pos hlo]
        exact ih r
      · by_cases hll : IsLinkLocalUnicast ip = true
        · have hq : qualifyingAddresses (a :: t) = qualifyingAddresses t := by
            simp [qualifyingAddresses, hp, hll]
          rw [hq, if_neg hlo, if_pos hll]
          exact ih r
        · have hq : qualifyingAddresses (a :: t) = ip :: qualifyingAddresses t := by
            simp [qualifyingAddresses, hp, hlo, hll]
          rw [hq, if_neg hlo, if_neg hll, ih, List.getLast?_cons]
          cases (qualifyingAddresses t).getLast? <;> rfl

/-- C16: with the environment variable `GOPAC_MYIPADDRESS` unset, `myIpAddress` returns
`undefined` when the enumeration of the interface addresses fails or when no address
qualifies, and otherwise the text of the last address in enumeration order that is neither
loopback nor link-local unicast. An address is an entry whose text `net.ParseCIDR`
accepts. -/
theorem myIpAddress_unset (byName : GoString → Option Interface)
    (addrs : Option (List GoString)) :
    myIpAddress { LookupEnv := none, InterfaceByName := byName, InterfaceAddrs := addrs } =
      match addrs with
      | none => Value.undefined
      | some l =>
        match (qualifyingAddresses l).getLast? with
        | none => Value.undefined
        | some ip => ToValue (IPString ip) := by
  cases addrs with
  | none => rfl
  | some l => exact myIpAddress_all_eq Value.undefined l

/-- An address that qualifies comes from an entry that `net.ParseCIDR` accepts and is
neither loopback nor link-local unicast. -/
theorem mem_qualifyingAddresses (l : List GoString) (ip : IP)
    (h : ip ∈ qualifyingAddresses l) :
    ∃ addr, addr ∈ l ∧ ParseCIDR addr = some ip ∧ IsLoopback ip = false ∧
      IsLinkLocalUnicast ip = false := by
  unfold qualifyingAddresses at h
  rw [List.mem_filter, List.mem_filterMap] at h
  obtain ⟨⟨addr, hm, hp⟩, hf⟩ := h
  simp only [Bool.and_eq_true, Bool.not_eq_true', Bool.not_eq_eq_eq_not, Bool.not_true] at hf
  exact ⟨addr, hm, hp, hf.1, hf.2⟩

/-- The value that the loop over the addresses of the named interface returns is the text
of an address of the list that is neither loopback nor link-local unicast. -/
theorem myIpAddress_named_spec (l : List GoString) (v : Value)
    (h : myIpAddress_named l = some v) :
    ∃ addr ip, addr ∈ l ∧ ParseCIDR addr = some ip ∧ IsLoopback ip = false ∧
      IsLinkLocalUnicast ip = false ∧ v = ToValue (IPString ip) := by
  induction l with
  | nil => exact Option.noConfusion h
  | cons a t ih =>
    unfold myIpAddress_named at h
    cases hp : ParseCIDR a with
    | none =>
      rw [hp] at h
      obtain ⟨addr, ip, hm, r⟩ := ih h
      exact ⟨addr, ip, List.mem_cons_of_mem _ hm, r⟩
    | some ip =>
      rw [hp] at h
      dsimp only at h
      by_cases hlo : IsLoopback ip = true
      · rw [if_pos hlo] at h
        obtain ⟨addr, ip2, hm, r⟩ := ih h
        exact ⟨addr, ip2, List.mem_cons_of_mem _ hm, r⟩
      · by_cases hll : IsLinkLocalUnicast ip = true
        · rw [if_neg hlo, if_pos hll] at h
          obtain ⟨addr, ip2, hm, r⟩ := ih h
          exact ⟨addr, ip2, List.mem_cons_of_mem _ hm, r⟩
        · rw [if_neg hlo, if_neg hll] at h
          simp only [Option.some.injEq] at h
          exact ⟨a, ip, List.mem_cons_self _ _, hp, by simpa using hlo, by simpa using hll,
            h.symm⟩

/-- C17 (the claim as stated fails): `myIpAddress` returns the text of an IPv6 address
from each of its three sources. With the variable set to `2001:db8::1` it returns that
text, and the address is no IPv4 address; with the variable naming the interface `eth0`,
whose only address is `2001:db8::2/64`, it returns `2001:db8::2`; with the variable unset
and the addresses `192.168.1.5/24` and `2001:db8::3/64` it returns `2001:db8::3`. -/
theorem myIpAddress_returns_ipv6 :
    (myIpAddress
        { LookupEnv := some (ascii "2001:db8::1")
          InterfaceByName := fun _ => none
          InterfaceAddrs := none } = Value.string "2001:db8::1" ∧
      ParseIP (ascii "2001:db8::1") =
        [0x20, 0x01, 0x0d, 0xb8, 0, 0, 0, 0, 0, 0, 0, 0, 0, 0, 0, 1] ∧
      To4 (ParseIP (ascii "2001:db8::1")) = []) ∧
    myIpAddress
        { LookupEnv := some (ascii "eth0")
          InterfaceByName := fun name =>
            if name = ascii "eth0" then some ⟨some [ascii "2001:db8::2/64"]⟩ else none
          InterfaceAddrs := none } = Value.string "2001:db8::2" ∧
    myIpAddress
        { LookupEnv := none
          InterfaceByName := fun _ => none
          InterfaceAddrs := some [ascii "192.168.1.5/24", ascii "2001:db8::3/64"] } =
      Value.string "2001:db8::3" := by
  set_option maxRecDepth 100000 in decide

/-- C17 (amended): the value that `myIpAddress` returns is `undefined` or the text of an
IP address of either family, dotted decimal for an IPv4 address (also for an IPv4-mapped
IPv6 literal) and the IPv6 text for any other address. The address is the value of the
environment variable when that parses as an IP address, or else an address of the named
interface or of the enumeration of all interfaces that is neither loopback nor link-local
unicast; no source leaves IPv6 addresses out. -/
theorem myIpAddress_undefined_or_address (E : NetEnv) :
    myIpAddress E = Value.undefined ∨
    ∃ ip : IP, ip.length = 16 ∧ myIpAddress E = ToValue (IPString ip) ∧
      IPString ip =
        (if (To4 ip).length = 4 then
          dottedDecimal ((To4 ip).getD 0 0) ((To4 ip).getD 1 0) ((To4 ip).getD 2 0)
            ((To4 ip).getD 3 0)
        else appendTo6 ip) ∧
      ((∃ env, E.LookupEnv = some env ∧ ParseIP env = ip) ∨
        (∃ env i l addr, E.LookupEnv = some env ∧ E.InterfaceByName env = some i ∧
          i.Addrs = some l ∧ addr ∈ l ∧ ParseCIDR addr = some ip ∧ IsLoopback ip = false ∧
          IsLinkLocalUnicast ip = false) ∨
        (∃ l addr, E.InterfaceAddrs = some l ∧ addr ∈ l ∧ ParseCIDR addr = some ip ∧
          IsLoopback ip = false ∧ IsLinkLocalUnicast ip = false)) := by
  have hall : (match E.InterfaceAddrs with
      | none => Value.undefined
      | some addrs => myIpAddress_all Value.undefined addrs) = Value.undefined ∨
      ∃ ip : IP, ip.length = 16 ∧
        (match E.InterfaceAddrs with
          | none => Value.undefined
          | some addrs => myIpAddress_all Value.undefined addrs) = ToValue (IPString ip) ∧
        ∃ l addr, E.InterfaceAddrs = some l ∧ addr ∈ l ∧ ParseCIDR addr = some ip ∧
          IsLoopback ip = false ∧ IsLinkLocalUnicast ip = false := by
    cases ha : E.InterfaceAddrs with
    | none => exact Or.inl rfl
    | some l =>
      dsimp only
      rw [myIpAddress_all_eq]
      cases hq : (qualifyingAddresses l).getLast? with
      | none => exact Or.inl rfl
      | some ip =>
        obtain ⟨addr, hm, hp, hlo, hll⟩ :=
          mem_qualifyingAddresses l ip (List.mem_of_getLast?_eq_some hq)
        exact Or.inr ⟨ip, ParseCIDR_length addr ip hp, rfl, l, addr, rfl, hm, hp, hlo, hll⟩
  have hfall : ∀ early : Option Value, early = none →
      (match early with
        | some v => v
        | none =>
          match E.InterfaceAddrs with
          | none => Value.undefined
          | some addrs => myIpAddress_all Value.undefined addrs) =
      (match E.InterfaceAddrs with
        | none => Value.undefined
        | some addrs => myIpAddress_all Value.undefined addrs) := by
    intro early he
    rw [he]
  have hlate : ∀ early : Option Value, early = none →
      (match early with
        | some v => v
        | none =>
          match E.InterfaceAddrs with
          | none => Value.undefined
          | some addrs => myIpAddress_all Value.undefined addrs) = Value.undefined ∨
      ∃ ip : IP, ip.length = 16 ∧
        (match early with
          | some v => v
          | none =>
            match E.InterfaceAddrs with
            | none => Value.undefined
            | some addrs => myIpAddress_all Value.undefined addrs) = ToValue (IPString ip) ∧
        IPString ip =
          (if (To4 ip).length = 4 then
            dottedDecimal ((To4 ip).getD 0 0) ((To4 ip).getD 1 0) ((To4 ip).getD 2 0)
              ((To4 ip).getD 3 0)
          else appendTo6 ip) ∧
        ((∃ env, E.LookupEnv = some env ∧ ParseIP env = ip) ∨
          (∃ env i l addr, E.LookupEnv = some env ∧ E.InterfaceByName env = some i ∧
            i.Addrs = some l ∧ addr ∈ l ∧ ParseCIDR addr = some ip ∧ IsLoopback ip = false ∧
            IsLinkLocalUnicast ip = false) ∨
          (∃ l addr, E.InterfaceAddrs = some l ∧ addr ∈ l ∧ ParseCIDR addr = some ip ∧
            IsLoopback ip = false ∧ IsLinkLocalUnicast ip = false)) := by
    intro early he
    rw [hfall early he]
    rcases hall with h | ⟨ip, hl, hv, hsrc⟩
    · exact Or.inl h
    · exact Or.inr ⟨ip, hl, hv, IPString_sixteen ip hl, Or.inr (Or.inr hsrc)⟩
  have hearly : ∀ v : Value,
      (match E.LookupEnv with
        | none => none
        | some env => myIpAddress_override E env) = some v →
      ∃ ip : IP, ip.length = 16 ∧ v = ToValue (IPString ip) ∧
        ((∃ env, E.LookupEnv = some env ∧ ParseIP env = ip) ∨
          (∃ env i l addr, E.LookupEnv = some env ∧ E.InterfaceByName env = some i ∧
            i.Addrs = some l ∧ addr ∈ l ∧ ParseCIDR addr = some ip ∧ IsLoopback ip = false ∧
            IsLinkLocalUnicast ip = false)) := by
    intro v hv
    obtain ⟨o, hE⟩ : ∃ o, E.LookupEnv = o := ⟨_, rfl⟩
    rw [hE] at hv
    cases o with
    | none => exact Option.noConfusion hv
    | some env =>
      dsimp only at hv
      unfold myIpAddress_override at hv
      dsimp only at hv
      by_cases hip : ParseIP env ≠ []
      · rw [if_pos hip] at hv
        simp only [Option.some.injEq] at hv
        exact ⟨ParseIP env, ParseIP_length env hip, hv.symm, Or.inl ⟨env, hE, rfl⟩⟩
      · rw [if_neg hip] at hv
        obtain ⟨oi, hi⟩ : ∃ oi, E.InterfaceByName env = oi := ⟨_, rfl⟩
        rw [hi] at hv
        cases oi with
        | none => exact Option.noConfusion hv
        | some i =>
          dsimp only at hv
          obtain ⟨oa, hadd⟩ : ∃ oa, i.Addrs = oa := ⟨_, rfl⟩
          rw [hadd] at hv
          cases oa with
          | none => exact Option.noConfusion hv
          | some l =>
            dsimp only at hv
            obtain ⟨addr, ip, hm, hp, hlo, hll, hv2⟩ := myIpAddress_named_spec l v hv
            exact ⟨ip, ParseCIDR_length addr ip hp, hv2,
              Or.inr ⟨env, i, l, addr, hE, hi, hadd, hm, hp, hlo, hll⟩⟩
  have hval : myIpAddress E =
      (match (match E.LookupEnv with
          | none => none
          | some env => myIpAddress_override E env) with
        | some v => v
        | none =>
          match E.InterfaceAddrs with
          | none => Value.undefined
          | some addrs => myIpAddress_all Value.undefined addrs) := rfl
  rw [hval]
  generalize hdef : (match E.LookupEnv with
    | none => none
    | some env => myIpAddress_override E env) = early
  cases early with
  | none => exact hlate none rfl
  | some v =>
    obtain ⟨ip, hl, hv, hsrc⟩ := hearly v hdef
    refine Or.inr ⟨ip, hl, hv, IPString_sixteen ip hl, ?_⟩
    rcases hsrc with h | h
    · exact Or.inl h
    · exact Or.inr (Or.inl h)

end Gopac
